import Mathlib

/-!
# OpenSEMBA/maxwell: flux-coefficient policy and the 2D evolution operator

A shallow embedding of `src/maxwell/MaxwellDefs.h`, `src/maxwell/MaxwellEvolution2D.cpp`,
`src/Solver.cpp` and the helper functions of `test/TestAux.cpp`.

Conventions of the embedding:

* `double` values are exact rationals (`ℚ`); every literal of the source
  (`0.0`, `0.5`, `1.0`, `2.0`, `-1.0`) is a rational, and rounding is not modelled.
* A C++ function that can `throw` returns `Except String _`, the string being the
  message of the exception.
* An `mfem::Vector` data buffer is a map from offsets to values; a sub-vector made by
  `SetDataAndSize` or `MakeRef` is the window of `ndofs` entries starting at an offset
  of its parent buffer, so a write through the window is a write to the parent.
* The operators held by the bank are square matrices of the size of the
  finite-element space (`ndofs`).
-/

namespace maxwell

/-! ## Types (`Types.h`) -/

/-- Modelled from the spec: `Types.h` is not among the sources. The spec gives
`FieldType` the enumerators `E` and `H`. An object of a C++ enumeration type can also
hold a value that is none of its enumerators; such a value is `other`. -/
inductive FieldType where
  | E : FieldType
  | H : FieldType
  | other (raw : Nat) : FieldType
  deriving DecidableEq, Repr

/-- Modelled from the spec: `Types.h` is not among the sources. The spec gives `BdrCond`
the enumerators `PEC`, `PMC` and `SMA`; `other` is a value that is none of them. -/
inductive BdrCond where
  | PEC : BdrCond
  | PMC : BdrCond
  | SMA : BdrCond
  | other (raw : Nat) : BdrCond
  deriving DecidableEq, Repr

/-- Modelled from the spec: `Types.h` is not among the sources. The spec gives `FluxType`
the enumerators `Centered` and `Upwind`; `other` is a value that is none of them. -/
inductive FluxType where
  | Centered : FluxType
  | Upwind : FluxType
  | other (raw : Nat) : FluxType
  deriving DecidableEq, Repr

/-- Modelled from the spec: `Types.h` is not among the sources. A direction is an axis
index; `Mult` iterates `for (int d = X; d <= Z; d++)` and uses `d` in offset arithmetic,
so `X`, `Y`, `Z` are the consecutive indices 0, 1, 2. -/
abbrev Direction := Nat

/-- Axis index of `X`. -/
abbrev X : Direction := 0

/-- Axis index of `Y`. -/
abbrev Y : Direction := 1

/-- Axis index of `Z`. -/
abbrev Z : Direction := 2

/-- Modelled from the spec: `Types.h` is not among the sources. A flux coefficient is the
pair (alpha: average weight, beta: jump weight). -/
structure FluxCoefficient where
  alpha : ℚ
  beta : ℚ
  deriving DecidableEq, Repr

/-- Modelled from the spec: `Types.h` is not among the sources. Two field families
(E and H) are tracked. -/
def numberOfFieldComponents : Nat := 2

/-- Modelled from the spec: `Types.h` is not among the sources. Three directions
(X, Y, Z) are tracked. -/
def numberOfMaxDimensions : Nat := 3

/-! ## Flux-coefficient policy (`MaxwellDefs.h`, lines 9-105) -/

/-- Options of the evolution operator; `fluxType` defaults to `Upwind`. -/
structure MaxwellEvolOptions where
  fluxType : FluxType := FluxType.Upwind
  deriving DecidableEq, Repr

/-- Weights of the interior faces, non-penalty part: `FluxCoefficient{ 1.0, 0.0 }`. -/
def interiorFluxCoefficient : FluxCoefficient :=
  { alpha := 1, beta := 0 }

/-- Weights of the interior faces, penalty part: a `switch` on `opts.fluxType`. -/
def interiorPenaltyFluxCoefficient (opts : MaxwellEvolOptions) :
    Except String FluxCoefficient :=
  match opts.fluxType with
  | FluxType.Centered => Except.ok { alpha := 0, beta := 0 }
  | FluxType.Upwind => Except.ok { alpha := 0, beta := 1 / 2 }
  | FluxType.other _ => Except.error "No defined FluxType."

/-- The `default:` label of `switch (bdrC)` in `boundaryFluxCoefficient`. -/
def boundaryFluxCoefficient.caseDefault : Except String FluxCoefficient :=
  Except.error "No defined BdrCond."

/-- The statements under `case BdrCond::SMA:` of `boundaryFluxCoefficient`: an inner
`switch (f)` without `default`, after which control falls through to `default:`. -/
def boundaryFluxCoefficient.caseSMA (f : FieldType) : Except String FluxCoefficient :=
  match f with
  | FieldType.E => Except.ok { alpha := 1, beta := 0 }
  | FieldType.H => Except.ok { alpha := 1, beta := 0 }
  | FieldType.other _ => boundaryFluxCoefficient.caseDefault

/-- The statements under `case BdrCond::PMC:` of `boundaryFluxCoefficient`: an inner
`switch (f)` without `default`, after which control falls through to `case SMA:`. -/
def boundaryFluxCoefficient.casePMC (f : FieldType) : Except String FluxCoefficient :=
  match f with
  | FieldType.E => Except.ok { alpha := 2, beta := 0 }
  | FieldType.H => Except.ok { alpha := 0, beta := 0 }
  | FieldType.other _ => boundaryFluxCoefficient.caseSMA f

/-- The statements under `case BdrCond::PEC:` of `boundaryFluxCoefficient`: an inner
`switch (f)` without `default`, after which control falls through to `case PMC:`. -/
def boundaryFluxCoefficient.casePEC (f : FieldType) : Except String FluxCoefficient :=
  match f with
  | FieldType.E => Except.ok { alpha := 0, beta := 0 }
  | FieldType.H => Except.ok { alpha := 2, beta := 0 }
  | FieldType.other _ => boundaryFluxCoefficient.casePMC f

/-- Weights of a boundary face, non-penalty part: `switch (bdrC)` over the three
conditions, each with an inner `switch (f)`. -/
def boundaryFluxCoefficient (f : FieldType) (bdrC : BdrCond) :
    Except String FluxCoefficient :=
  match bdrC with
  | BdrCond.PEC => boundaryFluxCoefficient.casePEC f
  | BdrCond.PMC => boundaryFluxCoefficient.casePMC f
  | BdrCond.SMA => boundaryFluxCoefficient.caseSMA f
  | BdrCond.other _ => boundaryFluxCoefficient.caseDefault

/-- The outer `default:` label of `switch (opts.fluxType)` in
`boundaryPenaltyFluxCoefficient`. -/
def boundaryPenaltyFluxCoefficient.caseDefaultFlux : Except String FluxCoefficient :=
  Except.error "No defined FluxType."

/-- The inner `default:` label of `switch (bdrC)` in `boundaryPenaltyFluxCoefficient`:
it throws, so control does not reach the outer `default:`. -/
def boundaryPenaltyFluxCoefficient.caseDefaultBdr : Except String FluxCoefficient :=
  Except.error "No defined BdrCond."

/-- The statements under `case BdrCond::SMA:` of `boundaryPenaltyFluxCoefficient`. -/
def boundaryPenaltyFluxCoefficient.caseSMA (f : FieldType) :
    Except String FluxCoefficient :=
  match f with
  | FieldType.E => Except.ok { alpha := -1, beta := 0 }
  | FieldType.H => Except.ok { alpha := -1, beta := 0 }
  | FieldType.other _ => boundaryPenaltyFluxCoefficient.caseDefaultBdr

/-- The statements under `case BdrCond::PMC:` of `boundaryPenaltyFluxCoefficient`. -/
def boundaryPenaltyFluxCoefficient.casePMC (f : FieldType) :
    Except String FluxCoefficient :=
  match f with
  | FieldType.E => Except.ok { alpha := 0, beta := 0 }
  | FieldType.H => Except.ok { alpha := 0, beta := 0 }
  | FieldType.other _ => boundaryPenaltyFluxCoefficient.caseSMA f

/-- The statements under `case BdrCond::PEC:` of `boundaryPenaltyFluxCoefficient`. -/
def boundaryPenaltyFluxCoefficient.casePEC (f : FieldType) :
    Except String FluxCoefficient :=
  match f with
  | FieldType.E => Except.ok { alpha := 0, beta := 0 }
  | FieldType.H => Except.ok { alpha := 0, beta := 0 }
  | FieldType.other _ => boundaryPenaltyFluxCoefficient.casePMC f

/-- Weights of a boundary face, penalty part: `switch (opts.fluxType)`, and under
`Upwind` a `switch (bdrC)` whose cases each hold an inner `switch (f)`. -/
def boundaryPenaltyFluxCoefficient (f : FieldType) (bdrC : BdrCond)
    (opts : MaxwellEvolOptions) : Except String FluxCoefficient :=
  match opts.fluxType with
  | FluxType.Centered => Except.ok { alpha := 0, beta := 0 }
  | FluxType.Upwind =>
    match bdrC with
    | BdrCond.PEC => boundaryPenaltyFluxCoefficient.casePEC f
    | BdrCond.PMC => boundaryPenaltyFluxCoefficient.casePMC f
    | BdrCond.SMA => boundaryPenaltyFluxCoefficient.caseSMA f
    | BdrCond.other _ => boundaryPenaltyFluxCoefficient.caseDefaultBdr
  | FluxType.other _ => boundaryPenaltyFluxCoefficient.caseDefaultFlux

/-- Field swap `E <-> H`; any other value reaches the `throw` after the `switch`. -/
def altField (f : FieldType) : Except String FieldType :=
  match f with
  | FieldType.E => Except.ok FieldType.H
  | FieldType.H => Except.ok FieldType.E
  | FieldType.other _ => Except.error "Invalid field type for altField."

/-! ## Vectors and operators (the part of MFEM that `Mult` relies on) -/

/-- Data of an `mfem::Vector`: the value stored at each offset from `GetData()`. -/
abbrev Buffer := Nat → ℚ

/-- A `FiniteElementOperator` (bilinear form) over a space of `n` degrees of
freedom, as the square matrix it assembles to. -/
abbrev FiniteElementOperator (n : Nat) := Matrix (Fin n) (Fin n) ℚ

/-- The sub-vector of `n` entries that starts at offset `off` of `buf`, as made by
`SetDataAndSize(buf.GetData() + off, n)` or `MakeRef(&fes, &buf[off])`. -/
def window (n : Nat) (buf : Buffer) (off : Nat) : Fin n → ℚ :=
  fun i => buf (off + i.val)

/-- The buffer after the `n` entries from offset `off` have been overwritten with `w`;
every other entry keeps its value. -/
def store (n : Nat) (buf : Buffer) (off : Nat) (w : Fin n → ℚ) : Buffer :=
  fun k => if h : off ≤ k ∧ k < off + n then w ⟨k - off, by omega⟩ else buf k

/-- The two vectors that `MaxwellEvolution2D::Mult` receives by reference: `in` and `out`,
held in distinct storage. -/
structure Memory where
  input : Buffer
  output : Buffer

/-- Effect of `A->Mult(x, y)` with `x` a window of `in` at `xoff` and `y` a window of
`out` at `yoff`: `y = A x`. -/
def spMult {n : Nat} (A : FiniteElementOperator n) (xoff yoff : Nat) (m : Memory) : Memory :=
  { m with output := store n m.output yoff (Matrix.mulVec A (window n m.input xoff)) }

/-- Effect of `A->AddMult(x, y, a)` with `x` a window of `in` at `xoff` and `y` a window
of `out` at `yoff`: `y += a * (A x)`. -/
def spAddMult {n : Nat} (A : FiniteElementOperator n) (xoff yoff : Nat) (a : ℚ) (m : Memory) :
    Memory :=
  let y := window n m.output yoff
  { m with output := store n m.output yoff (y + a • Matrix.mulVec A (window n m.input xoff)) }

/-- Effect of `y.operator/=(c)` on a window `y` of `out` at `off`: every entry of the
window is multiplied by `1 / c`. -/
def divAssignOut (n : Nat) (off : Nat) (c : ℚ) (m : Memory) : Memory :=
  { m with output := store n m.output off ((1 / c) • window n m.output off) }

/-- Effect of `x.operator/=(c)` on a window `x` of `in` at `off`: every entry of the
window is multiplied by `1 / c`. The window shares the storage of `in`. -/
def divAssignIn (n : Nat) (off : Nat) (c : ℚ) (m : Memory) : Memory :=
  { m with input := store n m.input off ((1 / c) • window n m.input off) }

/-! ## The operator bank and `MaxwellEvolution2D::Mult` -/

/-- The members `MP_`, `MS_`, `MFN_`, `MFNN_` of a constructed `MaxwellEvolution2D`
over a space of `n` degrees of freedom, every entry built. -/
structure OperatorBank (n : Nat) where
  MP : FieldType → FiniteElementOperator n
  MS : FieldType → Direction → FiniteElementOperator n
  MFN : FieldType → FieldType → Direction → FiniteElementOperator n
  MFNN : FieldType → FieldType → Direction → Direction → FiniteElementOperator n

/-- Offset of `eOld[d]` in `in` and of `eNew[d]` in `out`: `d * fes_.GetNDofs()`. -/
def eOff (n : Nat) (d : Direction) : Nat := d * n

/-- Offset of `hOld[d]` in `in` and of `hNew[d]` in `out`: `(d + 3) * fes_.GetNDofs()`. -/
def hOff (n : Nat) (d : Direction) : Nat := (d + 3) * n

section MultBody

open FieldType

/-- The body of `MaxwellEvolution2D::Mult(in, out)`, statement by statement, for a space
of `n` degrees of freedom. The result holds both vectors as they are when it returns. -/
def MaxwellEvolution2D.Mult (n : Nat) (bank : OperatorBank n) (input output : Buffer) :
    Memory :=
  let m : Memory := { input := input, output := output }
  -- Flux term for Hx.
  let m := spMult (bank.MFNN H H X X) (hOff n X) (hOff n X) m
  let m := spAddMult (bank.MFNN H H Y X) (hOff n Y) (hOff n X) 1 m
  let m := spAddMult (bank.MP H) (hOff n X) (hOff n X) (-1) m
  let m := spAddMult (bank.MFN H E Y) (eOff n Z) (hOff n X) 1 m
  let m := divAssignOut n (hOff n X) 2 m
  -- Mass term for Hx.
  let m := spAddMult (bank.MS H Y) (eOff n Z) (hOff n X) (-1) m
  -- Flux term for Hy.
  let m := spMult (bank.MFNN H H X Y) (hOff n X) (hOff n Y) m
  let m := spAddMult (bank.MFNN H H Y Y) (hOff n Y) (hOff n Y) 1 m
  let m := spAddMult (bank.MP H) (hOff n Y) (hOff n Y) (-1) m
  let m := spAddMult (bank.MFN H E X) (eOff n Z) (hOff n Y) (-1) m
  let m := divAssignOut n (hOff n Y) 2 m
  -- Mass term for Hy.
  let m := spAddMult (bank.MS H X) (eOff n Z) (hOff n Y) 1 m
  -- Flux term for Ez.
  let m := spMult (bank.MFN H H Y) (hOff n X) (eOff n Z) m
  let m := spAddMult (bank.MFN H H X) (hOff n Y) (eOff n Z) (-1) m
  let m := spAddMult (bank.MP E) (eOff n Z) (eOff n Z) (-1) m
  let m := divAssignIn n (eOff n Z) 2 m
  -- Mass term for Ez.
  let m := spAddMult (bank.MS E X) (hOff n Y) (eOff n Z) 1 m
  let m := spAddMult (bank.MS E Y) (hOff n X) (eOff n Z) (-1) m
  m

end MultBody

/-! ## The constructor of `MaxwellEvolution2D` -/

/-- Effect of `buildByMult(op1, op2, fes)`: the result holds `mfem::Mult(op1.SpMat(),
op2.SpMat())`, the matrix product of `op1` by `op2` in that order. -/
def buildByMult {n : Nat} (op1 op2 : FiniteElementOperator n) : FiniteElementOperator n :=
  op1 * op2

/-- The operators that the builders called by the constructor return for the `fes_`,
`model_` and `opts_` of the object, or the exception they throw. Their assembly is
done by MFEM; `buildPenaltyOperator2D` and `buildFluxOperator2D` are not among the
sources. -/
structure OperatorBuilders (n : Nat) where
  buildInverseMassMatrix : FieldType → Except String (FiniteElementOperator n)
  buildPenaltyOperator2D : FieldType → List Direction → Except String (FiniteElementOperator n)
  buildDerivativeOperator : Direction → Except String (FiniteElementOperator n)
  buildFluxOperator2D : FieldType → List Direction → Except String (FiniteElementOperator n)

/-- The members `MP_`, `MS_`, `MFN_`, `MFNN_` while the constructor runs: an entry is
`none` until an operator is assigned to it. -/
structure BankMembers (n : Nat) where
  MP_ : FieldType → Option (FiniteElementOperator n)
  MS_ : FieldType → Direction → Option (FiniteElementOperator n)
  MFN_ : FieldType → FieldType → Direction → Option (FiniteElementOperator n)
  MFNN_ : FieldType → FieldType → Direction → Direction → Option (FiniteElementOperator n)

/-- The members before the body of the constructor runs: no entry holds an operator. -/
def BankMembers.empty (n : Nat) : BankMembers n :=
  { MP_ := fun _ => none
    MS_ := fun _ _ => none
    MFN_ := fun _ _ _ => none
    MFNN_ := fun _ _ _ _ => none }

/-- Assignment `MP_[f] = op`. -/
def BankMembers.assignMP {n : Nat} (bank : BankMembers n) (f : FieldType)
    (op : FiniteElementOperator n) : BankMembers n :=
  { bank with MP_ := Function.update bank.MP_ f (some op) }

/-- Assignment `MS_[f][d] = op`. -/
def BankMembers.assignMS {n : Nat} (bank : BankMembers n) (f : FieldType) (d : Direction)
    (op : FiniteElementOperator n) : BankMembers n :=
  let atF := Function.update (bank.MS_ f) d (some op)
  { bank with MS_ := Function.update bank.MS_ f atF }

/-- Assignment `MFN_[f][f2][d] = op`. -/
def BankMembers.assignMFN {n : Nat} (bank : BankMembers n) (f f2 : FieldType) (d : Direction)
    (op : FiniteElementOperator n) : BankMembers n :=
  let atFF2 := Function.update (bank.MFN_ f f2) d (some op)
  let atF := Function.update (bank.MFN_ f) f2 atFF2
  { bank with MFN_ := Function.update bank.MFN_ f atF }

/-- Assignment `MFNN_[f][f2][d][d2] = op`. -/
def BankMembers.assignMFNN {n : Nat} (bank : BankMembers n) (f f2 : FieldType)
    (d d2 : Direction) (op : FiniteElementOperator n) : BankMembers n :=
  let atFF2D := Function.update (bank.MFNN_ f f2 d) d2 (some op)
  let atFF2 := Function.update (bank.MFNN_ f f2) d atFF2D
  let atF := Function.update (bank.MFNN_ f) f2 atFF2
  { bank with MFNN_ := Function.update bank.MFNN_ f atF }

/-- The braced list `{ E, H }` that the loops over fields range over. -/
def fieldTypes : List FieldType := [FieldType.E, FieldType.H]

/-- The braced list `{ X, Y, Z }` that the loops over directions range over. -/
def directions : List Direction := [X, Y, Z]

/-- Body of `for (auto f2 : { E, H })` (lines 21-22), the two builders of each
statement being called in the order they are written. -/
def MaxwellEvolution2D.bodyF2 {n : Nat} (b : OperatorBuilders n) (f : FieldType)
    (d d2 : Direction) (bank : BankMembers n) (f2 : FieldType) :
    Except String (BankMembers n) := do
  let mInv ← b.buildInverseMassMatrix f
  let fn ← b.buildFluxOperator2D f2 [d]
  let bank := bank.assignMFN f f2 d (buildByMult mInv fn)
  let mInv ← b.buildInverseMassMatrix f
  let fnn ← b.buildFluxOperator2D f2 [d, d2]
  pure (bank.assignMFNN f f2 d d2 (buildByMult mInv fnn))

/-- Body of `for (auto d2 : { X,Y,Z })` (lines 19-24): the loop over `f2`. -/
def MaxwellEvolution2D.bodyD2 {n : Nat} (b : OperatorBuilders n) (f : FieldType)
    (d : Direction) (bank : BankMembers n) (d2 : Direction) :
    Except String (BankMembers n) :=
  fieldTypes.foldlM (MaxwellEvolution2D.bodyF2 b f d d2) bank

/-- Body of `for (auto d : { X, Y, Z })` (lines 17-25). -/
def MaxwellEvolution2D.bodyD {n : Nat} (b : OperatorBuilders n) (f : FieldType)
    (bank : BankMembers n) (d : Direction) : Except String (BankMembers n) := do
  let mInv ← b.buildInverseMassMatrix f
  let s ← b.buildDerivativeOperator d
  let bank := bank.assignMS f d (buildByMult mInv s)
  directions.foldlM (MaxwellEvolution2D.bodyD2 b f d) bank

/-- Body of `for (auto f : { E, H })` (lines 15-26). -/
def MaxwellEvolution2D.bodyF {n : Nat} (b : OperatorBuilders n) (bank : BankMembers n)
    (f : FieldType) : Except String (BankMembers n) := do
  let mInv ← b.buildInverseMassMatrix f
  let p ← b.buildPenaltyOperator2D f []
  let bank := bank.assignMP f (buildByMult mInv p)
  directions.foldlM (MaxwellEvolution2D.bodyD b f) bank

/-- The body of the constructor `MaxwellEvolution2D::MaxwellEvolution2D`: the members
it leaves, or the exception of the first builder that throws. -/
def MaxwellEvolution2D.construct {n : Nat} (b : OperatorBuilders n) :
    Except String (BankMembers n) :=
  fieldTypes.foldlM (MaxwellEvolution2D.bodyF b) (BankMembers.empty n)

/-- Sample builders over one degree of freedom: inverse mass `[2]` for `E` and `[4]` for
`H`, penalty `[3]`, derivative `[d + 5]`, flux `[10]` times the number of directions. -/
def sampleBuilders : OperatorBuilders 1 where
  buildInverseMassMatrix := fun f =>
    match f with
    | FieldType.E => Except.ok (fun _ _ => 2)
    | FieldType.H => Except.ok (fun _ _ => 4)
    | FieldType.other _ => Except.error "Invalid field type."
  buildPenaltyOperator2D := fun _ _ => Except.ok (fun _ _ => 3)
  buildDerivativeOperator := fun d => Except.ok (fun _ _ => (d : ℚ) + 5)
  buildFluxOperator2D := fun _ ds => Except.ok (fun _ _ => 10 * (ds.length : ℚ))

/-! ## Bookkeeping for the constructor: one index type for the four members -/

/-- An index into one of the four members of the bank. -/
inductive BankKey where
  | mp (f : FieldType) : BankKey
  | ms (f : FieldType) (d : Direction) : BankKey
  | mfn (f f2 : FieldType) (d : Direction) : BankKey
  | mfnn (f f2 : FieldType) (d d2 : Direction) : BankKey
  deriving DecidableEq

/-- The entry of the bank at an index. -/
def BankMembers.get {n : Nat} (bank : BankMembers n) : BankKey → Option (FiniteElementOperator n)
  | BankKey.mp f => bank.MP_ f
  | BankKey.ms f d => bank.MS_ f d
  | BankKey.mfn f f2 d => bank.MFN_ f f2 d
  | BankKey.mfnn f f2 d d2 => bank.MFNN_ f f2 d d2

/-- The target field of an entry: its first index. -/
def BankKey.target : BankKey → FieldType
  | BankKey.mp f => f
  | BankKey.ms f _ => f
  | BankKey.mfn f _ _ => f
  | BankKey.mfnn f _ _ _ => f

/-- The raw operator that the constructor multiplies by the inverse mass to fill an entry. -/
def BankKey.raw {n : Nat} (b : OperatorBuilders n) :
    BankKey → Except String (FiniteElementOperator n)
  | BankKey.mp f => b.buildPenaltyOperator2D f []
  | BankKey.ms _ d => b.buildDerivativeOperator d
  | BankKey.mfn _ f2 d => b.buildFluxOperator2D f2 [d]
  | BankKey.mfnn _ f2 d d2 => b.buildFluxOperator2D f2 [d, d2]

/-- The indices the loops of the constructor range over. -/
def BankKey.inRange : BankKey → Prop
  | BankKey.mp f => f ∈ fieldTypes
  | BankKey.ms f d => f ∈ fieldTypes ∧ d ∈ directions
  | BankKey.mfn f f2 d => f ∈ fieldTypes ∧ f2 ∈ fieldTypes ∧ d ∈ directions
  | BankKey.mfnn f f2 d d2 =>
    f ∈ fieldTypes ∧ f2 ∈ fieldTypes ∧ d ∈ directions ∧ d2 ∈ directions

/-- The operator `v` is what the constructor assigns at index `k`: the index is in range
and `v` is inverse mass of the target field times the raw operator. -/
def Built {n : Nat} (b : OperatorBuilders n) (k : BankKey) (v : FiniteElementOperator n) :
    Prop :=
  k.inRange ∧ ∃ mInv r, b.buildInverseMassMatrix k.target = Except.ok mInv
    ∧ k.raw b = Except.ok r ∧ v = buildByMult mInv r

/-- Every entry that holds an operator holds the one the constructor assigns there. -/
def BankMembers.Sound {n : Nat} (b : OperatorBuilders n) (bank : BankMembers n) : Prop :=
  ∀ k v, bank.get k = some v → Built b k v

/-- Progress of the constructor from `bank` to `next`: entries that hold an operator still
hold one, and soundness is kept. -/
def BankMembers.Step {n : Nat} (b : OperatorBuilders n) (bank next : BankMembers n) : Prop :=
  (∀ k, bank.get k ≠ none → next.get k ≠ none) ∧ (bank.Sound b → next.Sound b)

/-! ## The rate of `Ez` as the specification words it, and sample data -/

/-- The `Ez` rate in the words of the specification:
`( MFN[H][H][Y] Hx - MFN[H][H][X] Hy - MP[E] Ez ) / 2 + MS[E][X] Hy - MS[E][Y] Hx`,
the blocks being those of the packed input state. -/
def specRateEz (n : Nat) (bank : OperatorBank n) (input : Buffer) : Fin n → ℚ :=
  (1 / 2 : ℚ) •
      (Matrix.mulVec (bank.MFN FieldType.H FieldType.H Y) (window n input (hOff n X))
        - Matrix.mulVec (bank.MFN FieldType.H FieldType.H X) (window n input (hOff n Y))
        - Matrix.mulVec (bank.MP FieldType.E) (window n input (eOff n Z)))
    + Matrix.mulVec (bank.MS FieldType.E X) (window n input (hOff n Y))
    - Matrix.mulVec (bank.MS FieldType.E Y) (window n input (hOff n X))

/-- A bank over one degree of freedom: `MP[E]` is `[1]`, every other operator is `[0]`. -/
def sampleBank : OperatorBank 1 where
  MP := fun f =>
    match f with
    | FieldType.E => fun _ _ => 1
    | _ => fun _ _ => 0
  MS := fun _ _ => fun _ _ => 0
  MFN := fun _ _ _ => fun _ _ => 0
  MFNN := fun _ _ _ _ => fun _ _ => 0

/-- The packed state `(Ex, Ey, Ez, Hx, Hy, Hz) = (0, 0, 2, 0, 0, 0)` over one degree of
freedom. -/
def sampleInput : Buffer := fun k => if k = 2 then 2 else 0

/-- A vector whose entries all hold the value `c`. -/
def constBuffer (c : ℚ) : Buffer := fun _ => c

/-! ## The statements of `Mult` as data, and the layout of the packed vectors -/

/-- One of the six blocks of a packed vector: `e d` is the block of `eOld[d]` and
`eNew[d]`, `h d` the block of `hOld[d]` and `hNew[d]`. -/
inductive Block where
  | e (d : Direction) : Block
  | h (d : Direction) : Block
  deriving DecidableEq

/-- The field a block belongs to. -/
def Block.field : Block → FieldType
  | Block.e _ => FieldType.E
  | Block.h _ => FieldType.H

/-- The offset of a block in a packed vector (lines 34-37). -/
def Block.offset (n : Nat) : Block → Nat
  | Block.e d => eOff n d
  | Block.h d => hOff n d

/-- The entry of a built bank at an index. -/
def OperatorBank.get {n : Nat} (bank : OperatorBank n) : BankKey → FiniteElementOperator n
  | BankKey.mp f => bank.MP f
  | BankKey.ms f d => bank.MS f d
  | BankKey.mfn f f2 d => bank.MFN f f2 d
  | BankKey.mfnn f f2 d d2 => bank.MFNN f f2 d d2

/-- A statement of the body of `Mult`: `op->Mult(xOld, yNew)`, `op->AddMult(xOld, yNew, a)`,
`yNew.operator/=(c)` or `xOld.operator/=(c)`, the operator being named by its index in
the bank. -/
inductive MultStmt where
  | mult (op : BankKey) (x y : Block) : MultStmt
  | addMult (op : BankKey) (x y : Block) (a : ℚ) : MultStmt
  | divNew (y : Block) (c : ℚ) : MultStmt
  | divOld (x : Block) (c : ℚ) : MultStmt

/-- Effect of a statement on the two vectors. -/
def MultStmt.exec (n : Nat) (bank : OperatorBank n) : MultStmt → Memory → Memory
  | MultStmt.mult op x y, m => spMult (bank.get op) (x.offset n) (y.offset n) m
  | MultStmt.addMult op x y a, m => spAddMult (bank.get op) (x.offset n) (y.offset n) a m
  | MultStmt.divNew y c, m => divAssignOut n (y.offset n) c m
  | MultStmt.divOld x c, m => divAssignIn n (x.offset n) c m

/-- The operator a statement applies and the block of `out` it accumulates into, if it
applies one. -/
def MultStmt.applied : MultStmt → Option (BankKey × Block)
  | MultStmt.mult op _ y => some (op, y)
  | MultStmt.addMult op _ y _ => some (op, y)
  | MultStmt.divNew _ _ => none
  | MultStmt.divOld _ _ => none

section MultStatements

open FieldType

/-- The eighteen statements of lines 41-69 of `MaxwellEvolution2D::Mult`, in order. -/
def MaxwellEvolution2D.MultStatements : List MultStmt :=
  [ MultStmt.mult (BankKey.mfnn H H X X) (Block.h X) (Block.h X),
    MultStmt.addMult (BankKey.mfnn H H Y X) (Block.h Y) (Block.h X) 1,
    MultStmt.addMult (BankKey.mp H) (Block.h X) (Block.h X) (-1),
    MultStmt.addMult (BankKey.mfn H E Y) (Block.e Z) (Block.h X) 1,
    MultStmt.divNew (Block.h X) 2,
    MultStmt.addMult (BankKey.ms H Y) (Block.e Z) (Block.h X) (-1),
    MultStmt.mult (BankKey.mfnn H H X Y) (Block.h X) (Block.h Y),
    MultStmt.addMult (BankKey.mfnn H H Y Y) (Block.h Y) (Block.h Y) 1,
    MultStmt.addMult (BankKey.mp H) (Block.h Y) (Block.h Y) (-1),
    MultStmt.addMult (BankKey.mfn H E X) (Block.e Z) (Block.h Y) (-1),
    MultStmt.divNew (Block.h Y) 2,
    MultStmt.addMult (BankKey.ms H X) (Block.e Z) (Block.h Y) 1,
    MultStmt.mult (BankKey.mfn H H Y) (Block.h X) (Block.e Z),
    MultStmt.addMult (BankKey.mfn H H X) (Block.h Y) (Block.e Z) (-1),
    MultStmt.addMult (BankKey.mp E) (Block.e Z) (Block.e Z) (-1),
    MultStmt.divOld (Block.e Z) 2,
    MultStmt.addMult (BankKey.ms E X) (Block.h Y) (Block.e Z) 1,
    MultStmt.addMult (BankKey.ms E Y) (Block.h X) (Block.e Z) (-1) ]

end MultStatements

/-- The indices of the operators that `Mult` accumulates into a block of `out`, in the
order of the statements. -/
def MaxwellEvolution2D.operatorsInto (y : Block) : List BankKey :=
  MaxwellEvolution2D.MultStatements.filterMap (fun s =>
    match s.applied with
    | some (op, y2) => if y2 = y then some op else none
    | none => none)

/-- A bank over one degree of freedom whose flux operators with source `H` along `Y`
carry the inverse mass of their first index, `2` for `E` and `4` for `H`, times `[10]`:
`MFN[E][H][Y]` is `[20]`, `MFN[H][H][Y]` is `[40]`; every other operator is `[0]`. -/
def massBank : OperatorBank 1 where
  MP := fun _ => fun _ _ => 0
  MS := fun _ _ => fun _ _ => 0
  MFN := fun f f2 d =>
    match f, f2, d with
    | FieldType.E, FieldType.H, 1 => fun _ _ => 20
    | FieldType.H, FieldType.H, 1 => fun _ _ => 40
    | _, _, _ => fun _ _ => 0
  MFNN := fun _ _ _ _ => fun _ _ => 0

/-- The packed state `(Ex, Ey, Ez, Hx, Hy, Hz) = (0, 0, 0, 1, 0, 0)` over one degree of
freedom. -/
def unitHxInput : Buffer := fun k => if k = 3 then 1 else 0

/-- The size given to `TimeDependentOperator` by the constructor (line 10):
`numberOfFieldComponents * numberOfMaxDimensions * fes.GetNDofs()`. -/
def MaxwellEvolution2D.size (n : Nat) : Nat :=
  numberOfFieldComponents * numberOfMaxDimensions * n

/-- The offsets of the six blocks that the loop of lines 33-38 makes, in the order
`Ex, Ey, Ez, Hx, Hy, Hz`. -/
def MaxwellEvolution2D.blockOffsets (n : Nat) : List Nat :=
  [eOff n X, eOff n Y, eOff n Z, hOff n X, hOff n Y, hOff n Z]

/-- The index `k` lies in the block of `n` entries that starts at `off`. -/
def inBlock (n off k : Nat) : Prop := off ≤ k ∧ k < off + n

/-! ## Bilinear forms as the integrators attached to them (`MaxwellDefs.h`, lines 121-207) -/

/-- An `mfem::Mesh`, as far as the sources look at it: `Dimension()`. -/
structure Mesh where
  dimension : Nat
  deriving DecidableEq, Repr

/-- An `mfem::FiniteElementSpace`, as far as the sources look at it: `GetMesh()` and
`GetNDofs()`. -/
structure FiniteElementSpace where
  mesh : Mesh
  ndofs : Nat
  deriving DecidableEq, Repr

/-- A boundary marker, an `mfem::Array<int>`. -/
abbrev BoundaryMarker := List Int

/-- Modelled from the spec: `Model.h` is not among the sources. The model owns the map
from boundary conditions to boundary markers that `getBoundaryToMarker()` returns; the
list holds its entries in the order a range-based `for` visits them. -/
structure Model where
  boundaryToMarker : List (BdrCond × BoundaryMarker)
  deriving DecidableEq, Repr

/-- The accessor `getBoundaryToMarker()` of the model. -/
def Model.getBoundaryToMarker (model : Model) : List (BdrCond × BoundaryMarker) :=
  model.boundaryToMarker

/-- An integrator over the elements: `TransposeIntegrator(DerivativeIntegrator(coeff, d))`,
`DerivativeIntegrator(coeff, d)` or `InverseIntegrator(MassIntegrator)`. -/
inductive DomainIntegrator where
  | transposeDerivative (coeff : ℚ) (d : Nat) : DomainIntegrator
  | derivative (coeff : ℚ) (d : Nat) : DomainIntegrator
  | inverseMass : DomainIntegrator
  deriving DecidableEq, Repr

/-- An integrator over faces: `MaxwellDGTraceIntegrator(n, alpha, beta)`,
`TransposeIntegrator(DGTraceIntegrator(v, alpha, beta))`, and the two that only the
tests attach: `DGTraceIntegrator(v, alpha, beta)` and
`MaxwellDGTraceJumpIntegrator(dirs, beta)`. -/
inductive FaceIntegrator where
  | maxwellDGTrace (n : List ℚ) (alpha beta : ℚ) : FaceIntegrator
  | transposeDGTrace (v : List ℚ) (alpha beta : ℚ) : FaceIntegrator
  | dgTrace (v : List ℚ) (alpha beta : ℚ) : FaceIntegrator
  | maxwellDGTraceJump (dirs : List Direction) (beta : ℚ) : FaceIntegrator
  deriving DecidableEq, Repr

/-- An `mfem::BilinearForm`, as the integrators attached to it and whether `Assemble()`
and `Finalize()` have been called. -/
structure BilinearForm where
  fes : FiniteElementSpace
  domainIntegrators : List DomainIntegrator
  interiorFaceIntegrators : List FaceIntegrator
  bdrFaceIntegrators : List (FaceIntegrator × BoundaryMarker)
  assembled : Bool
  finalized : Bool
  deriving DecidableEq, Repr

/-- The form made by `BilinearForm(&fes)`: no integrator attached. -/
def BilinearForm.new (fes : FiniteElementSpace) : BilinearForm :=
  { fes := fes, domainIntegrators := [], interiorFaceIntegrators := [],
    bdrFaceIntegrators := [], assembled := false, finalized := false }

/-- Effect of `AddDomainIntegrator`. -/
def BilinearForm.AddDomainIntegrator (res : BilinearForm) (i : DomainIntegrator) :
    BilinearForm :=
  { res with domainIntegrators := res.domainIntegrators ++ [i] }

/-- Effect of `AddInteriorFaceIntegrator`. -/
def BilinearForm.AddInteriorFaceIntegrator (res : BilinearForm) (i : FaceIntegrator) :
    BilinearForm :=
  { res with interiorFaceIntegrators := res.interiorFaceIntegrators ++ [i] }

/-- Effect of `AddBdrFaceIntegrator(i, marker)`. -/
def BilinearForm.AddBdrFaceIntegrator (res : BilinearForm) (i : FaceIntegrator)
    (marker : BoundaryMarker) : BilinearForm :=
  { res with bdrFaceIntegrators := res.bdrFaceIntegrators ++ [(i, marker)] }

/-- Effect of `Assemble()`. -/
def BilinearForm.Assemble (res : BilinearForm) : BilinearForm :=
  { res with assembled := true }

/-- Effect of `Finalize()`. -/
def BilinearForm.Finalize (res : BilinearForm) : BilinearForm :=
  { res with finalized := true }

/-- The unit vector of `buildNVector(d, fes)`: `dim` zeros with a one at index `d`; the
`assert(d < dim)` stops the program otherwise. -/
def buildNVector (d : Direction) (fes : FiniteElementSpace) : Except String (List ℚ) :=
  let dim := fes.mesh.dimension
  if d < dim then
    Except.ok ((List.replicate dim (0 : ℚ)).set d 1)
  else
    Except.error "Assertion failed: d < dim"

/-- The form of `buildDerivativeOperator(d, fes)`: without integrator when `d` is not
below the mesh dimension, with the transposed derivative along `d` otherwise. -/
def buildDerivativeOperator (d : Direction) (fes : FiniteElementSpace) : BilinearForm :=
  let res := BilinearForm.new fes
  if d ≥ fes.mesh.dimension then
    res.Assemble.Finalize
  else
    let res := res.AddDomainIntegrator (DomainIntegrator.transposeDerivative 1 d)
    res.Assemble.Finalize

/-- The coefficient of the interior faces in `buildFluxOperator` (lines 181-187). -/
def buildFluxOperator.interiorCoefficient (usePenaltyCoefficients : Bool)
    (opts : MaxwellEvolOptions) : Except String FluxCoefficient :=
  if usePenaltyCoefficients then
    interiorPenaltyFluxCoefficient opts
  else
    Except.ok interiorFluxCoefficient

/-- The coefficient of a boundary in `buildFluxOperator` (lines 192-198). -/
def buildFluxOperator.boundaryCoefficient (f : FieldType) (usePenaltyCoefficients : Bool)
    (opts : MaxwellEvolOptions) (bdrC : BdrCond) : Except String FluxCoefficient :=
  if usePenaltyCoefficients then
    boundaryPenaltyFluxCoefficient f bdrC opts
  else
    boundaryFluxCoefficient f bdrC

/-- Body of `for (auto& kv : model.getBoundaryToMarker())` in `buildFluxOperator`
(lines 191-202). -/
def buildFluxOperator.bdrBody (f : FieldType) (usePenaltyCoefficients : Bool)
    (opts : MaxwellEvolOptions) (n : List ℚ) (res : BilinearForm)
    (kv : BdrCond × BoundaryMarker) : Except String BilinearForm := do
  let c ← buildFluxOperator.boundaryCoefficient f usePenaltyCoefficients opts kv.1
  pure (res.AddBdrFaceIntegrator (FaceIntegrator.maxwellDGTrace n c.alpha c.beta) kv.2)

/-- The form of `buildFluxOperator(f, d, usePenaltyCoefficients, model, fes, opts)`, or
the exception of the first lookup that throws. -/
def buildFluxOperator (f : FieldType) (d : Direction) (usePenaltyCoefficients : Bool)
    (model : Model) (fes : FiniteElementSpace) (opts : MaxwellEvolOptions) :
    Except String BilinearForm :=
  let res := BilinearForm.new fes
  if d ≥ fes.mesh.dimension then
    Except.ok res.Assemble.Finalize
  else do
    let n ← buildNVector d fes
    let c ← buildFluxOperator.interiorCoefficient usePenaltyCoefficients opts
    let res := res.AddInteriorFaceIntegrator (FaceIntegrator.maxwellDGTrace n c.alpha c.beta)
    let res ← model.getBoundaryToMarker.foldlM
      (buildFluxOperator.bdrBody f usePenaltyCoefficients opts n) res
    pure res.Assemble.Finalize

/-- A space over a two-dimensional mesh, with one degree of freedom. -/
def sampleFes2D : FiniteElementSpace := { mesh := { dimension := 2 }, ndofs := 1 }

/-- A model with a PEC boundary marked `[1, 0]` and an SMA boundary marked `[0, 1]`. -/
def sampleModel : Model :=
  { boundaryToMarker := [(BdrCond.PEC, [1, 0]), (BdrCond.SMA, [0, 1])] }

/-- A model that registers a boundary whose condition is none of PEC, PMC, SMA. -/
def unrecognizedModel : Model :=
  { boundaryToMarker := [(BdrCond.PEC, [1, 0]), (BdrCond.other 0, [0, 1])] }

/-! ## The legacy `Solver` (`Solver.cpp`) -/

/-- Modelled from the spec: `Solver.h` is not among the sources. The options that
`checkOptionsAreValid` reads: `order`, `vis_steps` and `precision` are `int`, `t_final`
and `dt` are `double`. -/
structure Solver.Options where
  order : Int
  t_final : ℚ
  dt : ℚ
  vis_steps : Int
  precision : Int
  deriving DecidableEq, Repr

/-- The check of `Solver::checkOptionsAreValid(opts, mesh)`: two `if` statements, each
throwing. -/
def Solver.checkOptionsAreValid (opts : Solver.Options) (mesh : Mesh) : Except String Unit :=
  if mesh.dimension ≠ 2 then
    Except.error "Incorrect Dimension for mesh"
  else if opts.order < 0 ∨ opts.t_final < 0 ∨ opts.dt < 0 ∨ opts.vis_steps < 1
      ∨ opts.precision < 1 then
    Except.error "Incorrect parameters in Options"
  else
    Except.ok ()

/-- Modelled from the spec: `Solver.h` is not among the sources. The members of a
`Solver` that the constructor assigns or reads; `none` is the state of a member that has
only been default-initialized (an empty mesh, default options, a null pointer). -/
structure Solver where
  mesh_ : Option Mesh
  opts_ : Option Solver.Options
  fes_ : Option FiniteElementSpace
  Kx_ : Option BilinearForm
  Ky_ : Option BilinearForm
  MInv_ : Option BilinearForm
  deriving DecidableEq, Repr

/-- The members when the body of the constructor starts. -/
def Solver.initial : Solver :=
  { mesh_ := none, opts_ := none, fes_ := none, Kx_ := none, Ky_ := none, MInv_ := none }

/-- The comparison `&direction == "X"` of `buildDerivativeOperators`: the address of the
parameter `direction` against the address of a string literal. They are two distinct
objects, so the comparison is false whatever character `direction` holds. -/
def Solver.addressEqualsLiteral (_direction : Char) (_literal : String) : Bool :=
  false

/-- The function `Solver::buildDerivativeOperators(direction)`. A form made over the null
`fes_` is an error. -/
def Solver.buildDerivativeOperators (s : Solver) (direction : Char) :
    Except String BilinearForm := do
  let sel : ℚ × Nat ←
    if Solver.addressEqualsLiteral direction "X" then
      Except.ok (0, 0)
    else if Solver.addressEqualsLiteral direction "Y" then
      Except.ok (1, 1)
    else
      Except.error "Incorrect argument for direction in buildDerivativeOperators()"
  let auxVec : List ℚ := [sel.1 - 0, sel.1 - 1]
  match s.fes_ with
  | none => Except.error "null FiniteElementSpace"
  | some fes =>
    let kDir := BilinearForm.new fes
    let kDir := kDir.AddDomainIntegrator (DomainIntegrator.derivative 1 sel.2)
    let kDir := kDir.AddInteriorFaceIntegrator (FaceIntegrator.transposeDGTrace auxVec (-1) 0)
    Except.ok kDir.Assemble.Finalize

/-- The function `Solver::buildMassMatrix()`. A form made over the null `fes_` is an
error. -/
def Solver.buildMassMatrix (s : Solver) : Except String Solver :=
  match s.fes_ with
  | none => Except.error "null FiniteElementSpace"
  | some fes =>
    let mInv := (BilinearForm.new fes).AddDomainIntegrator DomainIntegrator.inverseMass
    Except.ok { s with MInv_ := some mInv.Assemble.Finalize }

/-- The constructor `Solver::Solver(opts, mesh)`, statement by statement: the members as
they are when it returns or throws, and the exception if it throws. Lines 22 and 23 both
assign `Kx_`. -/
def Solver.new (opts : Solver.Options) (mesh : Mesh) : Solver × Except String Unit :=
  let s := Solver.initial
  match Solver.checkOptionsAreValid opts mesh with
  | Except.error e => (s, Except.error e)
  | Except.ok _ =>
    let s := { s with mesh_ := some mesh }
    let s := { s with opts_ := some opts }
    match Solver.buildDerivativeOperators s 'X' with
    | Except.error e => (s, Except.error e)
    | Except.ok kx =>
      let s := { s with Kx_ := some kx }
      match Solver.buildDerivativeOperators s 'Y' with
      | Except.error e => (s, Except.error e)
      | Except.ok ky =>
        let s := { s with Kx_ := some ky }
        match Solver.buildMassMatrix s with
        | Except.error e => (s, Except.error e)
        | Except.ok s2 => (s2, Except.ok ())

/-- Options with a negative time step, every other field in range. -/
def negativeDtOptions : Solver.Options :=
  { order := 2, t_final := 1, dt := -1, vis_steps := 1, precision := 8 }

/-! ## The constructor of `Solver` over any builder of derivative operators -/

/-- The body of `Solver::Solver(opts, mesh)` with the function called at lines 22 and 23
as a parameter: the same statements as `Solver.new`, whatever that function returns. -/
def Solver.newWith (build : Solver → Char → Except String BilinearForm)
    (opts : Solver.Options) (mesh : Mesh) : Solver × Except String Unit :=
  let s := Solver.initial
  match Solver.checkOptionsAreValid opts mesh with
  | Except.error e => (s, Except.error e)
  | Except.ok _ =>
    let s := { s with mesh_ := some mesh }
    let s := { s with opts_ := some opts }
    match build s 'X' with
    | Except.error e => (s, Except.error e)
    | Except.ok kx =>
      let s := { s with Kx_ := some kx }
      match build s 'Y' with
      | Except.error e => (s, Except.error e)
      | Except.ok ky =>
        let s := { s with Kx_ := some ky }
        match Solver.buildMassMatrix s with
        | Except.error e => (s, Except.error e)
        | Except.ok s2 => (s2, Except.ok ())

/-- Options that `checkOptionsAreValid` accepts: order 2, final time 1, time step 1/10,
one visualization step, precision 8. -/
def validOptions : Solver.Options :=
  { order := 2, t_final := 1, dt := 1 / 10, vis_steps := 1, precision := 8 }

/-! ## The function `Solver::run` (`Solver.cpp`, lines 122-169) -/

/-- Modelled from the spec: `Solver.h` is not among the sources. The members that
`Solver::run` reads and writes and the constructor does not assign: the fields `ez_`,
`hx_` and `hy_`, as their degrees of freedom, and the pointer `pd_`, which only
`collectParaviewData` sets. For `pd_`, `none` is the null pointer and `some saved` a data
collection that has saved the pairs `(cycle, time)` of `saved`. -/
structure Solver.Fields where
  ez_ : Buffer
  hx_ : Buffer
  hy_ : Buffer
  pd_ : Option (List (Nat × ℚ))

/-- The variables of `Solver::run` while its loop runs: the locals `time`, `cycle` and
`done`, and the members that the loop writes. `cycle` is the value of the `int` counter,
`time` the value of the `double` as an exact rational. -/
structure RunState where
  time : ℚ
  cycle : Nat
  done : Bool
  fields : Solver.Fields

/-- The largest value of an `int`, `2^31 - 1`. -/
def INT_MAX : Nat := 2147483647

/-- Effect of `pd_->SetCycle(cycle); pd_->SetTime(time); pd_->Save();` (lines 164-166):
the collection saves the pair; through a null `pd_` the call is an error. -/
def Solver.save (st : RunState) : Except String RunState :=
  match st.fields.pd_ with
  | none => Except.error "null pd_"
  | some saved =>
    let fields : Solver.Fields :=
      { ez_ := st.fields.ez_, hx_ := st.fields.hx_, hy_ := st.fields.hy_,
        pd_ := some (saved ++ [(st.cycle, st.time)]) }
    Except.ok { time := st.time, cycle := st.cycle, done := st.done, fields := fields }

/-- One pass of the body of the loop (lines 135-167), statement by statement, on an
object whose members are `s`. The argument `mult` is the product of the matrix of an
assembled form by a vector, what MFEM's `Mult` computes. A call through a null `Kx_`,
`Ky_`, `MInv_` or `pd_` is an error, and so are `cycle++` at `INT_MAX` and the remainder
by a zero `vis_steps`; `||` evaluates the remainder only when `done` is false. The
vectors are buffers: their sizes are not looked at. -/
def Solver.runCycle (mult : BilinearForm → Buffer → Buffer) (opts : Solver.Options)
    (s : Solver) (st : RunState) : Except String RunState :=
  match s.Kx_ with
  | none => Except.error "null Kx_"
  | some Kx =>
    match s.Ky_ with
    | none => Except.error "null Ky_"
    | some Ky =>
      match s.MInv_ with
      | none => Except.error "null MInv_"
      | some MInv =>
        let aux : Buffer := mult Kx st.fields.hy_
        let aux : Buffer := fun i => aux i + (-1) * mult Ky st.fields.hx_ i
        let ezNew : Buffer := mult MInv aux
        let ezNew : Buffer := fun i => ezNew i * (-opts.dt)
        let ezNew : Buffer := fun i => ezNew i + 1 * st.fields.ez_ i
        let aux : Buffer := mult Kx ezNew
        let hyNew : Buffer := mult MInv aux
        let hyNew : Buffer := fun i => hyNew i * (-opts.dt)
        let hyNew : Buffer := fun i => hyNew i + 1 * st.fields.hy_ i
        let aux : Buffer := mult Ky ezNew
        let hxNew : Buffer := mult MInv aux
        let hxNew : Buffer := fun i => hxNew i * opts.dt
        let hxNew : Buffer := fun i => hxNew i + 1 * st.fields.hx_ i
        let fields : Solver.Fields :=
          { ez_ := ezNew, hx_ := hxNew, hy_ := hyNew, pd_ := st.fields.pd_ }
        let time := st.time + opts.dt
        if INT_MAX ≤ st.cycle then
          Except.error "overflow of cycle"
        else
          let cycle := st.cycle + 1
          let done := decide (time ≥ opts.t_final - (1 / 100000000) * opts.dt)
          let st2 : RunState := { time := time, cycle := cycle, done := done, fields := fields }
          if done then
            Solver.save st2
          else if opts.vis_steps = 0 then
            Except.error "remainder by zero"
          else if (cycle : Int) % opts.vis_steps = 0 then
            Solver.save st2
          else
            Except.ok st2

/-- The loop `for (int cycle = 0; !done;)` for at most `fuel` passes: `some (ok st)` when
the loop is left with the variables `st`, `some (error e)` when a pass fails, `none` when
the loop has not been left after `fuel` passes. -/
def Solver.runLoop (mult : BilinearForm → Buffer → Buffer) (opts : Solver.Options)
    (s : Solver) : Nat → RunState → Option (Except String RunState)
  | 0, st => if st.done then some (Except.ok st) else none
  | fuel + 1, st =>
    if st.done then
      some (Except.ok st)
    else
      match Solver.runCycle mult opts s st with
      | Except.error e => some (Except.error e)
      | Except.ok st2 => Solver.runLoop mult opts s fuel st2

/-- The function `Solver::run()` on an object whose members are `s` and `fields`: lines
124-130, then the loop. The four vectors of lines 127-130 are sized by
`fes_->GetVSize()`, an error through a null `fes_`. The options are the member `opts_`;
`defaults` are the options it holds when it has only been default-initialized. -/
def Solver.run (mult : BilinearForm → Buffer → Buffer) (defaults : Solver.Options)
    (s : Solver) (fields : Solver.Fields) (fuel : Nat) : Option (Except String RunState) :=
  match s.fes_ with
  | none => some (Except.error "null fes_")
  | some _ =>
    Solver.runLoop mult (s.opts_.getD defaults) s fuel
      { time := 0, cycle := 0, done := false, fields := fields }

/-- The members of a `Solver` with every pointer set: the state that `run` needs and
that the constructor would leave if it assigned `fes_`, `Kx_`, `Ky_` and `MInv_`. -/
def builtSolver (opts : Solver.Options) : Solver :=
  let kx := (BilinearForm.new sampleFes2D).AddDomainIntegrator (DomainIntegrator.derivative 1 0)
  let ky := (BilinearForm.new sampleFes2D).AddDomainIntegrator (DomainIntegrator.derivative 1 1)
  let mInv := (BilinearForm.new sampleFes2D).AddDomainIntegrator DomainIntegrator.inverseMass
  { mesh_ := some sampleFes2D.mesh, opts_ := some opts, fes_ := some sampleFes2D,
    Kx_ := some kx.Assemble.Finalize, Ky_ := some ky.Assemble.Finalize,
    MInv_ := some mInv.Assemble.Finalize }

/-- Fields with `ez_` equal to one everywhere, `hx_` and `hy_` zero, and a data
collection that has saved nothing yet. -/
def sampleFields : Solver.Fields :=
  { ez_ := fun _ => 1, hx_ := fun _ => 0, hy_ := fun _ => 0, pd_ := some [] }

/-- Options that `checkOptionsAreValid` accepts with a zero time step and final time 1. -/
def zeroDtOptions : Solver.Options :=
  { order := 2, t_final := 1, dt := 0, vis_steps := 1, precision := 8 }

/-- Options that `checkOptionsAreValid` accepts with the time step `1e-10` and final
time 1: the final time is reached after `10^10` cycles, more than `INT_MAX`. -/
def tinyDtOptions : Solver.Options :=
  { order := 2, t_final := 1, dt := 1 / 10000000000, vis_steps := 1, precision := 8 }

/-! ## The expected jump matrix of the tests (`TestAux.cpp`, lines 204-225) -/

/-- An `mfem::DenseMatrix`: its size and its entries. -/
structure DenseMatrix where
  height : Nat
  width : Nat
  data : Nat → Nat → ℚ

/-- The square matrix made by `make_unique<DenseMatrix>(s)` and set to zero by
`operator=(0.0)`. -/
def DenseMatrix.square (s : Nat) : DenseMatrix :=
  { height := s, width := s, data := fun _ _ => 0 }

/-- Effect of `res->Elem(i, j) = v`: the entry is overwritten; an index outside the
matrix is an error. -/
def DenseMatrix.setElem (res : DenseMatrix) (i j : Nat) (v : ℚ) : Option DenseMatrix :=
  if i < res.height ∧ j < res.width then
    some { res with data := fun a b => if a = i ∧ b = j then v else res.data a b }
  else
    none

/-- Body of `for (int it = 0; it < elements - 1; it++)` in
`buildExpectedJumpDenseMatrix1D` (lines 214-220). -/
def buildExpectedJumpDenseMatrix1D.body (order i j : Nat) (res : DenseMatrix) (it : Nat) :
    Option DenseMatrix :=
  if (i + (order + 1) * it = order + ((order + 1) * it)
        ∧ j + (order + 1) * it = order + ((order + 1) * it))
      ∨ (i + (order + 1) * it = order + ((order + 1) * it)
        ∧ j + (order + 1) * it = (order + 1) + ((order + 1) * it)) then do
    let res ← res.setElem (i + (order + 1) * it) (j + (order + 1) * it) 1
    let res ← res.setElem (i + (order + 1) * it) (j + 1 + (order + 1) * it) (-1)
    let res ← res.setElem (i + 1 + (order + 1) * it) (j + (order + 1) * it) (-1)
    res.setElem (i + 1 + (order + 1) * it) (j + 1 + (order + 1) * it) 1
  else
    some res

/-- Body of `for (int j = 1; j <= order; j++)`: the loop over `it`. -/
def buildExpectedJumpDenseMatrix1D.bodyJ (elements order i : Nat) (res : DenseMatrix)
    (j : Nat) : Option DenseMatrix :=
  (List.range (elements - 1)).foldlM (buildExpectedJumpDenseMatrix1D.body order i j) res

/-- Body of `for (int i = 1; i <= order; i++)`: the loop over `j`. -/
def buildExpectedJumpDenseMatrix1D.bodyI (elements order : Nat) (res : DenseMatrix)
    (i : Nat) : Option DenseMatrix :=
  (List.range' 1 order).foldlM (buildExpectedJumpDenseMatrix1D.bodyJ elements order i) res

/-- The function `HelperFunctions::buildExpectedJumpDenseMatrix1D(elements, order)`: the
matrix it returns, or `none` when a written index is outside the matrix. The `int`
arguments are unbounded natural numbers. -/
def buildExpectedJumpDenseMatrix1D (elements order : Nat) : Option DenseMatrix :=
  (List.range' 1 order).foldlM (buildExpectedJumpDenseMatrix1D.bodyI elements order)
    (DenseMatrix.square ((order + 1) * elements))

/-- The index of the last node of element `k` for a given order: `(order + 1) * k + order`;
the next index is that of the first node of element `k + 1`. -/
def lastNode (order k : Nat) : Nat := (order + 1) * k + order

/-- The pair of indices `(a, b)` lies in the two-by-two block of the face between the
elements `k` and `k + 1`. -/
abbrev inFaceBlock (order k a b : Nat) : Prop :=
  (a = lastNode order k ∨ a = lastNode order k + 1)
    ∧ (b = lastNode order k ∨ b = lastNode order k + 1)

/-- The jump pattern over the first `faces` interior faces: `1` on the diagonal and `-1`
off the diagonal of the block of each face, `0` elsewhere. -/
def jumpPattern (order : Nat) : Nat → Nat → Nat → ℚ
  | 0, _, _ => 0
  | faces + 1, a, b =>
    if inFaceBlock order faces a b then (if a = b then 1 else -1)
    else jumpPattern order faces a b

/-! ## Assembled matrices of the tests (`TestAux.cpp`) -/

/-- Effect of `AddBdrFaceIntegrator(i)` without marker: MFEM keeps a null marker and the
integrator acts on every boundary face. The empty list stands for the null marker. -/
def BilinearForm.AddBdrFaceIntegratorAll (res : BilinearForm) (i : FaceIntegrator) :
    BilinearForm :=
  { res with bdrFaceIntegrators := res.bdrFaceIntegrators ++ [(i, [])] }

/-- A discontinuous Galerkin space over `Mesh::MakeCartesian1D(elements)` with
`DG_FECollection(order, 1, basis)`: `order + 1` degrees of freedom on each segment,
numbered element by element. -/
structure Space1D where
  elements : Nat
  order : Nat
  deriving DecidableEq, Repr

/-- The number of degrees of freedom of the space (`GetNDofs()`). -/
def Space1D.ndofs (sp : Space1D) : Nat := (sp.order + 1) * sp.elements

/-- The space as an `mfem::FiniteElementSpace`. -/
def Space1D.fes (sp : Space1D) : FiniteElementSpace :=
  { mesh := { dimension := 1 }, ndofs := sp.ndofs }

/-- The degrees of freedom of the element `e` (`GetElementVDofs`). -/
def Space1D.elementVDofs (sp : Space1D) (e : Nat) : List Nat :=
  (List.range (sp.order + 1)).map (fun i => (sp.order + 1) * e + i)

/-- The degrees of freedom of the interior face `k`, the point between the elements `k`
and `k + 1`: those of the element `k` followed by those of the element `k + 1`. -/
def Space1D.faceVDofs (sp : Space1D) (k : Nat) : List Nat :=
  sp.elementVDofs k ++ sp.elementVDofs (k + 1)

/-- The boundary faces of the mesh, by their index: the two end points of the segment
`[0, 1]`, the left one first. -/
def Space1D.bdrFaces (sp : Space1D) : List Nat :=
  if sp.elements = 0 then [] else [0, 1]

/-- The element of a boundary face: the element `0` for the left end point, the last
element for the right one. -/
def Space1D.bdrElement (sp : Space1D) (face : Nat) : Nat :=
  if face = 0 then 0 else sp.elements - 1

/-- The boundary attribute of a boundary face: 1 for the left end point, 2 for the
right one. -/
def Space1D.bdrAttribute (face : Nat) : Nat := face + 1

/-- The local matrices that the integrators of MFEM compute: `AssembleElementMatrix` of
a domain integrator on an element, `AssembleFaceMatrix` of a face integrator on an
interior face and on a boundary face, each as a function of the index of the element or
face and of the local row and column. -/
structure LocalMatrices where
  element : DomainIntegrator → Nat → Nat → Nat → ℚ
  interiorFace : FaceIntegrator → Nat → Nat → Nat → ℚ
  bdrFace : FaceIntegrator → Nat → Nat → Nat → ℚ

/-- The amount that `AddSubMatrix(vdofs, elmat)` adds to the global entry `(a, b)`: the
local entries `elmat(i, j)` with `vdofs[i] = a` and `vdofs[j] = b`. -/
def scatter (vdofs : List Nat) (elmat : Nat → Nat → ℚ) (a b : Nat) : ℚ :=
  Finset.sum (Finset.range vdofs.length) (fun i =>
    Finset.sum (Finset.range vdofs.length) (fun j =>
      if vdofs.getD i 0 = a ∧ vdofs.getD j 0 = b then elmat i j else 0))

/-- Effect of `mat->AddSubMatrix(vdofs, elmat)`: for all local `i` and `j`, `elmat(i, j)`
is added to the entry `(vdofs[i], vdofs[j])`. -/
def DenseMatrix.AddSubMatrix (mat : DenseMatrix) (vdofs : List Nat)
    (elmat : Nat → Nat → ℚ) : DenseMatrix :=
  { height := mat.height, width := mat.width,
    data := fun a b => mat.data a b + scatter vdofs elmat a b }

/-- The pass of `BilinearForm::Assemble()` on the element `e`: the element matrices of
the domain integrators are summed and added to the matrix at the degrees of freedom of
the element. -/
def BilinearForm.assembleElement (sp : Space1D) (L : LocalMatrices) (form : BilinearForm)
    (mat : DenseMatrix) (e : Nat) : DenseMatrix :=
  mat.AddSubMatrix (sp.elementVDofs e)
    (fun i j => (form.domainIntegrators.map (fun d => L.element d e i j)).sum)

/-- The pass of `BilinearForm::Assemble()` on the interior face `k`: the face matrix of
each interior-face integrator is added at the degrees of freedom of the two elements. -/
def BilinearForm.assembleInteriorFace (sp : Space1D) (L : LocalMatrices)
    (form : BilinearForm) (mat : DenseMatrix) (k : Nat) : DenseMatrix :=
  form.interiorFaceIntegrators.foldl
    (fun mat fi => mat.AddSubMatrix (sp.faceVDofs k) (L.interiorFace fi k)) mat

/-- The pass of `BilinearForm::Assemble()` on a boundary face: the face matrix of each
boundary-face integrator whose marker is null or marks the attribute of the face is
added at the degrees of freedom of the element of the face. -/
def BilinearForm.assembleBdrFace (sp : Space1D) (L : LocalMatrices) (form : BilinearForm)
    (mat : DenseMatrix) (face : Nat) : DenseMatrix :=
  form.bdrFaceIntegrators.foldl
    (fun mat p =>
      if p.2 = [] ∨ p.2.getD (Space1D.bdrAttribute face - 1) 0 ≠ 0 then
        mat.AddSubMatrix (sp.elementVDofs (sp.bdrElement face)) (L.bdrFace p.1 face)
      else
        mat)
    mat

/-- The amount that the loop of `Assemble()` over the elements adds to the entry
`(a, b)`, for the domain integrators `D`. -/
def Space1D.domainPart (sp : Space1D) (L : LocalMatrices) (D : List DomainIntegrator)
    (a b : Nat) : ℚ :=
  ((List.range sp.elements).map (fun e =>
    scatter (sp.elementVDofs e) (fun i j => (D.map (fun d => L.element d e i j)).sum) a b)).sum

/-- The amount that the loop of `Assemble()` over the interior faces adds to the entry
`(a, b)`, for the interior-face integrators `I`. -/
def Space1D.interiorPart (sp : Space1D) (L : LocalMatrices) (I : List FaceIntegrator)
    (a b : Nat) : ℚ :=
  ((List.range (sp.elements - 1)).map (fun k =>
    (I.map (fun fi => scatter (sp.faceVDofs k) (L.interiorFace fi k) a b)).sum)).sum

/-- The amount that the loop of `Assemble()` over the boundary faces adds to the entry
`(a, b)`, for the boundary-face integrators `B` with their markers. -/
def Space1D.bdrPart (sp : Space1D) (L : LocalMatrices)
    (B : List (FaceIntegrator × BoundaryMarker)) (a b : Nat) : ℚ :=
  (sp.bdrFaces.map (fun face =>
    (B.map (fun p : FaceIntegrator × BoundaryMarker =>
      if p.2 = [] ∨ p.2.getD (Space1D.bdrAttribute face - 1) 0 ≠ 0 then
        scatter (sp.elementVDofs (sp.bdrElement face)) (L.bdrFace p.1 face) a b
      else 0)).sum)).sum

/-- The matrix `SpMat().ToDenseMatrix()` of a form over a one-dimensional space, as
`BilinearForm::Assemble()` fills it: from the zero matrix, the loop over the elements
when there is a domain integrator, then the loop over the interior faces when there is
an interior-face integrator, then the loop over the boundary faces when there is a
boundary-face integrator. A form that has not been assembled has no matrix. -/
def BilinearForm.SpMat1D (sp : Space1D) (L : LocalMatrices) (form : BilinearForm) :
    Option DenseMatrix :=
  if form.assembled then
    let mat := DenseMatrix.square sp.ndofs
    let mat :=
      if form.domainIntegrators = [] then mat
      else (List.range sp.elements).foldl (form.assembleElement sp L) mat
    let mat :=
      if form.interiorFaceIntegrators = [] then mat
      else (List.range (sp.elements - 1)).foldl (form.assembleInteriorFace sp L) mat
    let mat :=
      if form.bdrFaceIntegrators = [] then mat
      else sp.bdrFaces.foldl (form.assembleBdrFace sp L) mat
    some mat
  else
    none

/-- The space of `TEST_F(Auxiliary, checkKOperators)`: `MakeCartesian1D(1)` with
`DG_FECollection(2, 1, GaussLobatto)`, one segment of order 2. -/
def checkKOperators.space : Space1D := { elements := 1, order := 2 }

/-- The form `kMat` of `checkKOperators` (lines 387-396) over the space `fes`. -/
def checkKOperators.kMat (fes : FiniteElementSpace) : BilinearForm :=
  let kMat := BilinearForm.new fes
  let kMat := kMat.AddDomainIntegrator (DomainIntegrator.transposeDerivative 1 0)
  let kMat := kMat.AddInteriorFaceIntegrator (FaceIntegrator.dgTrace [1] (-1) 0)
  let kMat := kMat.AddBdrFaceIntegratorAll (FaceIntegrator.dgTrace [1] (-1) 0)
  kMat.Assemble.Finalize

/-- The form `sMat` of `checkKOperators` (lines 398-403) over the space `fes`. -/
def checkKOperators.sMat (fes : FiniteElementSpace) : BilinearForm :=
  let sMat := BilinearForm.new fes
  let sMat := sMat.AddDomainIntegrator (DomainIntegrator.transposeDerivative 1 0)
  sMat.Assemble.Finalize

/-- The form `fMat` of `checkKOperators` (lines 405-411) over the space `fes`. -/
def checkKOperators.fMat (fes : FiniteElementSpace) : BilinearForm :=
  let fMat := BilinearForm.new fes
  let fMat := fMat.AddInteriorFaceIntegrator (FaceIntegrator.dgTrace [1] (-1) 0)
  let fMat := fMat.AddBdrFaceIntegratorAll (FaceIntegrator.dgTrace [1] (-1) 0)
  fMat.Assemble.Finalize

/-- Sample local matrices on a segment of order 2: the element matrix of every domain
integrator has the entries `i + 2 * j + 1`, every interior-face matrix is zero, and the
boundary-face matrix has `1/2` at the first node on the left end point and `-1/2` at the
last node on the right end point. -/
def sampleLocalMatrices : LocalMatrices where
  element := fun _ _ i j => (i : ℚ) + 2 * (j : ℚ) + 1
  interiorFace := fun _ _ _ _ => 0
  bdrFace := fun _ face i j =>
    if face = 0 then (if i = 0 ∧ j = 0 then 1 / 2 else 0)
    else (if i = 2 ∧ j = 2 then -1 / 2 else 0)

/-- The form of `HelperFunctions::buildMaxwellBilinearFormWith1DCartesianMesh(elements,
order, dir, beta)` (lines 163-179): over `Mesh::MakeCartesian1D(elements)` and the
Gauss-Lobatto DG collection of the given order, which has `order + 1` degrees of freedom
on each segment, one interior-face `MaxwellDGTraceJumpIntegrator(dir, beta)`. -/
def buildMaxwellBilinearFormWith1DCartesianMesh (elements order : Nat)
    (dir : List Direction) (beta : ℚ) : BilinearForm :=
  let mesh : Mesh := { dimension := 1 }
  let fes : FiniteElementSpace := { mesh := mesh, ndofs := (order + 1) * elements }
  let DGmat := BilinearForm.new fes
  let DGmat := DGmat.AddInteriorFaceIntegrator (FaceIntegrator.maxwellDGTraceJump dir beta)
  DGmat.Assemble.Finalize

/-- The unit normal of an interior face of `Mesh::MakeCartesian1D`: the face between the
elements `k` and `k + 1` is a point, and its normal points from `k` to `k + 1`. -/
def interiorFaceNormal1D : List ℚ := [1]

/-- The jump across the interior face `k` of the basis function of global index `a`:
the trace from element `k` minus the trace from element `k + 1`. The degrees of freedom
are numbered element by element, and a Gauss-Lobatto nodal basis function is `1` at its
own node and `0` at the others, so the trace from element `k` is `1` for the last node
of element `k`, the trace from element `k + 1` is `1` for its first node, and both are
`0` for every other index. -/
def traceJump (order k a : Nat) : ℚ :=
  (if a = lastNode order k then 1 else 0) - (if a = lastNode order k + 1 then 1 else 0)

/-- Modelled from the spec: `MaxwellDGTraceJumpIntegrator::AssembleFaceMatrix` is not
among the sources. The weight of the jump product `[v][w]` on a face of unit normal
`nor`: with no direction `beta`; with one direction `d`, `beta * |n_d|`; with two
directions, `beta * n_d1 * n_d2`, the projection of the jump on the tensor of the two
axes. A component of the normal beyond the dimension of the mesh is zero. The spec has
no rule for more than two directions. -/
def MaxwellDGTraceJumpIntegrator.weight (dirs : List Direction) (beta : ℚ) (nor : List ℚ) :
    Option ℚ :=
  match dirs with
  | [] => some beta
  | [d] => some (beta * |nor.getD d 0|)
  | [d1, d2] => some (beta * (nor.getD d1 0 * nor.getD d2 0))
  | _ => none

/-- Modelled from the spec: `MaxwellDGTraceJumpIntegrator::AssembleFaceMatrix` is not
among the sources. The entry `(a, b)` that the integrator contributes on the interior
face `k`: its weight times the jump of the test function times the jump of the trial
function. -/
def MaxwellDGTraceJumpIntegrator.faceEntry (order : Nat) (weight : ℚ) (k a b : Nat) : ℚ :=
  weight * (traceJump order k a * traceJump order k b)

/-- The dense matrix `SpMat().ToDenseMatrix()` of a form over the one-dimensional mesh of
`elements` segments whose only integrators are interior-face
`MaxwellDGTraceJumpIntegrator`s: the sum over the integrators and over the
`elements - 1` interior faces of the entries they contribute. Any other integrator, or a
list of more than two directions, gives `none`. -/
def assembleJumpForm1D (elements order : Nat) (form : BilinearForm) : Option DenseMatrix :=
  if form.domainIntegrators = [] ∧ form.bdrFaceIntegrators = [] then do
    let weights ← form.interiorFaceIntegrators.mapM (fun i =>
      match i with
      | FaceIntegrator.maxwellDGTraceJump dirs beta =>
        MaxwellDGTraceJumpIntegrator.weight dirs beta interiorFaceNormal1D
      | _ => none)
    pure
      { height := form.fes.ndofs, width := form.fes.ndofs,
        data := fun a b => (weights.map (fun w =>
          Finset.sum (Finset.range (elements - 1)) (fun k =>
            MaxwellDGTraceJumpIntegrator.faceEntry order w k a b))).sum }
  else
    none

/-! ## Lemmas on windows -/

theorem window_store_same (n : Nat) (buf : Buffer) (off : Nat) (w : Fin n → ℚ) :
    window n (store n buf off w) off = w := by
  funext i
  have hi := i.isLt
  simp [window, store, hi]

theorem window_store_disjoint (n : Nat) (buf : Buffer) (off off2 : Nat) (w : Fin n → ℚ)
    (h : off + n ≤ off2 ∨ off2 + n ≤ off) :
    window n (store n buf off w) off2 = window n buf off2 := by
  funext i
  have hi := i.isLt
  have hne : ¬ (off ≤ off2 + i.val ∧ off2 + i.val < off + n) := by omega
  simp [window, store, hne]

theorem store_outside (n : Nat) (buf : Buffer) (off : Nat) (w : Fin n → ℚ) (k : Nat)
    (h : k < off ∨ off + n ≤ k) : store n buf off w k = buf k := by
  have hne : ¬ (off ≤ k ∧ k < off + n) := by omega
  simp [store, hne]

theorem window_store_block (n : Nat) (buf : Buffer) (a b : Nat) (w : Fin n → ℚ)
    (h : a ≠ b) : window n (store n buf (a * n) w) (b * n) = window n buf (b * n) := by
  apply window_store_disjoint
  rcases Nat.lt_or_gt_of_ne h with hlt | hgt
  · left
    calc a * n + n = (a + 1) * n := by ring
      _ ≤ b * n := Nat.mul_le_mul_right n hlt
  · right
    calc b * n + n = (b + 1) * n := by ring
      _ ≤ a * n := Nat.mul_le_mul_right n hgt

/-! ## Closed forms of what `Mult` leaves in the two vectors -/

section ClosedForms

open FieldType

variable (n : Nat) (bank : OperatorBank n) (input output : Buffer)

theorem Mult_output_Hx :
    window n (MaxwellEvolution2D.Mult n bank input output).output (hOff n X) =
      (1 / 2 : ℚ) •
          (Matrix.mulVec (bank.MFNN H H X X) (window n input (hOff n X))
            + Matrix.mulVec (bank.MFNN H H Y X) (window n input (hOff n Y))
            - Matrix.mulVec (bank.MP H) (window n input (hOff n X))
            + Matrix.mulVec (bank.MFN H E Y) (window n input (eOff n Z)))
        - Matrix.mulVec (bank.MS H Y) (window n input (eOff n Z)) := by
  simp only [MaxwellEvolution2D.Mult, spMult, spAddMult, divAssignOut, divAssignIn, hOff, eOff,
    X, Y, Z, Nat.zero_add, Nat.reduceAdd]
  simp only [window_store_same, window_store_block, ne_eq, Nat.reduceEqDiff,
    not_false_eq_true]
  funext i
  simp only [Pi.add_apply, Pi.sub_apply, Pi.smul_apply, smul_eq_mul]
  ring

theorem Mult_output_Hy :
    window n (MaxwellEvolution2D.Mult n bank input output).output (hOff n Y) =
      (1 / 2 : ℚ) •
          (Matrix.mulVec (bank.MFNN H H X Y) (window n input (hOff n X))
            + Matrix.mulVec (bank.MFNN H H Y Y) (window n input (hOff n Y))
            - Matrix.mulVec (bank.MP H) (window n input (hOff n Y))
            - Matrix.mulVec (bank.MFN H E X) (window n input (eOff n Z)))
        + Matrix.mulVec (bank.MS H X) (window n input (eOff n Z)) := by
  simp only [MaxwellEvolution2D.Mult, spMult, spAddMult, divAssignOut, divAssignIn, hOff, eOff,
    X, Y, Z, Nat.zero_add, Nat.reduceAdd]
  simp only [window_store_same, window_store_block, ne_eq, Nat.reduceEqDiff,
    not_false_eq_true]
  funext i
  simp only [Pi.add_apply, Pi.sub_apply, Pi.smul_apply, smul_eq_mul]
  ring

/-- What the code leaves in the `Ez` block of `out`: the flux-and-penalty part is not
halved, because the division of line 65 is applied to `eOld[Z]`. -/
theorem Mult_output_Ez :
    window n (MaxwellEvolution2D.Mult n bank input output).output (eOff n Z) =
      (Matrix.mulVec (bank.MFN H H Y) (window n input (hOff n X))
          - Matrix.mulVec (bank.MFN H H X) (window n input (hOff n Y))
          - Matrix.mulVec (bank.MP E) (window n input (eOff n Z)))
        + Matrix.mulVec (bank.MS E X) (window n input (hOff n Y))
        - Matrix.mulVec (bank.MS E Y) (window n input (hOff n X)) := by
  simp only [MaxwellEvolution2D.Mult, spMult, spAddMult, divAssignOut, divAssignIn, hOff, eOff,
    X, Y, Z, Nat.zero_add, Nat.reduceAdd]
  simp only [window_store_same, window_store_block, ne_eq, Nat.reduceEqDiff,
    not_false_eq_true]
  funext i
  simp only [Pi.add_apply, Pi.sub_apply, Pi.smul_apply, smul_eq_mul]
  ring

/-- The blocks `Ex`, `Ey` and `Hz` of `out` are not written. -/
theorem Mult_output_untouched :
    window n (MaxwellEvolution2D.Mult n bank input output).output (eOff n X)
        = window n output (eOff n X)
      ∧ window n (MaxwellEvolution2D.Mult n bank input output).output (eOff n Y)
        = window n output (eOff n Y)
      ∧ window n (MaxwellEvolution2D.Mult n bank input output).output (hOff n Z)
        = window n output (hOff n Z) := by
  simp only [MaxwellEvolution2D.Mult, spMult, spAddMult, divAssignOut, divAssignIn, hOff, eOff,
    X, Y, Z, Nat.zero_add, Nat.reduceAdd]
  simp only [window_store_same, window_store_block, ne_eq, Nat.reduceEqDiff,
    not_false_eq_true, and_self]

/-- The vector `in` when `Mult` returns: its `Ez` block has been halved. -/
theorem Mult_input :
    (MaxwellEvolution2D.Mult n bank input output).input =
      store n input (eOff n Z) ((1 / 2 : ℚ) • window n input (eOff n Z)) := by
  simp only [MaxwellEvolution2D.Mult, spMult, spAddMult, divAssignOut, divAssignIn]

end ClosedForms

/-! ## Lemmas on the constructor -/

section Constructor

variable {n : Nat}

theorem get_assignMP (bank : BankMembers n) (f : FieldType) (op : FiniteElementOperator n)
    (k : BankKey) :
    (bank.assignMP f op).get k = if k = BankKey.mp f then some op else bank.get k := by
  cases k with
  | mp g =>
    by_cases hg : g = f
    · simp [BankMembers.get, BankMembers.assignMP, hg]
    · simp [BankMembers.get, BankMembers.assignMP, hg, Function.update_noteq]
  | ms g d => simp [BankMembers.get, BankMembers.assignMP]
  | mfn g g2 d => simp [BankMembers.get, BankMembers.assignMP]
  | mfnn g g2 d d2 => simp [BankMembers.get, BankMembers.assignMP]

theorem get_assignMS (bank : BankMembers n) (f : FieldType) (d : Direction)
    (op : FiniteElementOperator n) (k : BankKey) :
    (bank.assignMS f d op).get k = if k = BankKey.ms f d then some op else bank.get k := by
  cases k with
  | mp g => simp [BankMembers.get, BankMembers.assignMS]
  | ms g e =>
    by_cases hg : g = f <;> by_cases he : e = d <;>
      simp [BankMembers.get, BankMembers.assignMS, hg, he, Function.update]
  | mfn g g2 d => simp [BankMembers.get, BankMembers.assignMS]
  | mfnn g g2 d d2 => simp [BankMembers.get, BankMembers.assignMS]

theorem get_assignMFN (bank : BankMembers n) (f f2 : FieldType) (d : Direction)
    (op : FiniteElementOperator n) (k : BankKey) :
    (bank.assignMFN f f2 d op).get k
      = if k = BankKey.mfn f f2 d then some op else bank.get k := by
  cases k with
  | mp g => simp [BankMembers.get, BankMembers.assignMFN]
  | ms g e => simp [BankMembers.get, BankMembers.assignMFN]
  | mfn g g2 e =>
    by_cases hg : g = f <;> by_cases hg2 : g2 = f2 <;> by_cases he : e = d <;>
      simp [BankMembers.get, BankMembers.assignMFN, hg, hg2, he, Function.update]
  | mfnn g g2 d d2 => simp [BankMembers.get, BankMembers.assignMFN]

theorem get_assignMFNN (bank : BankMembers n) (f f2 : FieldType) (d d2 : Direction)
    (op : FiniteElementOperator n) (k : BankKey) :
    (bank.assignMFNN f f2 d d2 op).get k
      = if k = BankKey.mfnn f f2 d d2 then some op else bank.get k := by
  cases k with
  | mp g => simp [BankMembers.get, BankMembers.assignMFNN]
  | ms g e => simp [BankMembers.get, BankMembers.assignMFNN]
  | mfn g g2 e => simp [BankMembers.get, BankMembers.assignMFNN]
  | mfnn g g2 e e2 =>
    by_cases hg : g = f <;> by_cases hg2 : g2 = f2 <;> by_cases he : e = d <;>
      by_cases he2 : e2 = d2 <;>
      simp [BankMembers.get, BankMembers.assignMFNN, hg, hg2, he, he2, Function.update]

theorem Step.refl (b : OperatorBuilders n) (bank : BankMembers n) :
    BankMembers.Step b bank bank :=
  ⟨fun _ h => h, fun h => h⟩

theorem Step.trans (b : OperatorBuilders n) (s1 s2 s3 : BankMembers n)
    (h12 : BankMembers.Step b s1 s2) (h23 : BankMembers.Step b s2 s3) :
    BankMembers.Step b s1 s3 :=
  ⟨fun k h => h23.1 k (h12.1 k h), fun h => h23.2 (h12.2 h)⟩

/-- An assignment of the right operator at an index is a step that fills the index. -/
theorem Step.of_assign (b : OperatorBuilders n) (bank next : BankMembers n) (k : BankKey)
    (v : FiniteElementOperator n)
    (hget : ∀ j, next.get j = if j = k then some v else bank.get j)
    (hv : Built b k v) :
    BankMembers.Step b bank next ∧ next.get k ≠ none := by
  refine ⟨⟨?_, ?_⟩, ?_⟩
  · intro j hj
    rw [hget j]
    by_cases hjk : j = k
    · simp [hjk]
    · simpa [hjk] using hj
  · intro hs j w hw
    rw [hget j] at hw
    by_cases hjk : j = k
    · subst hjk
      simp only [if_true, Option.some.injEq] at hw
      subst hw
      exact hv
    · simp only [hjk, if_false] at hw
      exact hs j w hw
  · rw [hget k]
    simp

/-- A loop whose body makes steps makes a step, and what each pass establishes
still holds at the end when steps keep it. -/
theorem foldlM_step {σ α : Type} (R : σ → σ → Prop) (Q : α → σ → Prop)
    (body : σ → α → Except String σ)
    (hrefl : ∀ s, R s s) (htrans : ∀ s1 s2 s3, R s1 s2 → R s2 s3 → R s1 s3)
    (hkeep : ∀ a s t, Q a s → R s t → Q a t) :
    ∀ (l : List α), (∀ a ∈ l, ∀ s t, body s a = Except.ok t → R s t ∧ Q a t) →
      ∀ s t, l.foldlM body s = Except.ok t → R s t ∧ ∀ a ∈ l, Q a t := by
  intro l
  induction l with
  | nil =>
    intro _ s t h
    simp only [List.foldlM, pure, Except.pure, Except.ok.injEq] at h
    subst h
    exact ⟨hrefl s, by simp⟩
  | cons x xs ih =>
    intro hbody s t h
    simp only [List.foldlM, bind, Except.bind] at h
    cases hx : body s x with
    | error e => simp [hx] at h
    | ok u =>
      simp only [hx] at h
      have hu := hbody x (by simp) s u hx
      have hrest := ih (fun a ha => hbody a (List.mem_cons_of_mem x ha)) u t h
      refine ⟨htrans s u t hu.1 hrest.1, ?_⟩
      intro a ha
      rcases List.mem_cons.mp ha with rfl | hmem
      · exact hkeep _ u t hu.2 hrest.1
      · exact hrest.2 a hmem

theorem bodyF2_step (b : OperatorBuilders n) (f : FieldType) (d d2 : Direction)
    (hf : f ∈ fieldTypes) (hd : d ∈ directions) (hd2 : d2 ∈ directions)
    (f2 : FieldType) (hf2 : f2 ∈ fieldTypes) (bank next : BankMembers n)
    (h : MaxwellEvolution2D.bodyF2 b f d d2 bank f2 = Except.ok next) :
    BankMembers.Step b bank next
      ∧ (next.get (BankKey.mfn f f2 d) ≠ none ∧ next.get (BankKey.mfnn f f2 d d2) ≠ none) := by
  simp only [MaxwellEvolution2D.bodyF2, bind, Except.bind, pure, Except.pure] at h
  cases hm : b.buildInverseMassMatrix f with
  | error e => simp [hm] at h
  | ok mInv =>
    cases hfn : b.buildFluxOperator2D f2 [d] with
    | error e => simp [hm, hfn] at h
    | ok fn =>
      cases hfnn : b.buildFluxOperator2D f2 [d, d2] with
      | error e => simp [hm, hfn, hfnn] at h
      | ok fnn =>
        simp only [hm, hfn, hfnn, Except.ok.injEq] at h
        have h1 := Step.of_assign b bank (bank.assignMFN f f2 d (buildByMult mInv fn))
          (BankKey.mfn f f2 d) (buildByMult mInv fn) (get_assignMFN bank f f2 d _)
          ⟨⟨hf, hf2, hd⟩, mInv, fn, hm, hfn, rfl⟩
        have h2 := Step.of_assign b (bank.assignMFN f f2 d (buildByMult mInv fn)) next
          (BankKey.mfnn f f2 d d2) (buildByMult mInv fnn)
          (by rw [← h]; exact get_assignMFNN _ f f2 d d2 _)
          ⟨⟨hf, hf2, hd, hd2⟩, mInv, fnn, hm, hfnn, rfl⟩
        exact ⟨Step.trans b _ _ _ h1.1 h2.1, h2.1.1 _ h1.2, h2.2⟩

theorem bodyD2_step (b : OperatorBuilders n) (f : FieldType) (d : Direction)
    (hf : f ∈ fieldTypes) (hd : d ∈ directions)
    (d2 : Direction) (hd2 : d2 ∈ directions) (bank next : BankMembers n)
    (h : MaxwellEvolution2D.bodyD2 b f d bank d2 = Except.ok next) :
    BankMembers.Step b bank next
      ∧ ∀ f2 ∈ fieldTypes,
          next.get (BankKey.mfn f f2 d) ≠ none ∧ next.get (BankKey.mfnn f f2 d d2) ≠ none :=
  foldlM_step (BankMembers.Step b)
    (fun f2 s => s.get (BankKey.mfn f f2 d) ≠ none ∧ s.get (BankKey.mfnn f f2 d d2) ≠ none)
    (MaxwellEvolution2D.bodyF2 b f d d2) (Step.refl b) (Step.trans b)
    (fun _ _ _ hq hst => ⟨hst.1 _ hq.1, hst.1 _ hq.2⟩) fieldTypes
    (fun f2 hf2 s t hst => bodyF2_step b f d d2 hf hd hd2 f2 hf2 s t hst) bank next h

theorem bodyD_step (b : OperatorBuilders n) (f : FieldType) (hf : f ∈ fieldTypes)
    (d : Direction) (hd : d ∈ directions) (bank next : BankMembers n)
    (h : MaxwellEvolution2D.bodyD b f bank d = Except.ok next) :
    BankMembers.Step b bank next
      ∧ (next.get (BankKey.ms f d) ≠ none
        ∧ ∀ d2 ∈ directions, ∀ f2 ∈ fieldTypes,
            next.get (BankKey.mfn f f2 d) ≠ none
              ∧ next.get (BankKey.mfnn f f2 d d2) ≠ none) := by
  simp only [MaxwellEvolution2D.bodyD, bind, Except.bind] at h
  cases hm : b.buildInverseMassMatrix f with
  | error e => simp [hm] at h
  | ok mInv =>
    cases hs : b.buildDerivativeOperator d with
    | error e => simp [hm, hs] at h
    | ok sOp =>
      simp only [hm, hs] at h
      have h1 := Step.of_assign b bank (bank.assignMS f d (buildByMult mInv sOp))
        (BankKey.ms f d) (buildByMult mInv sOp) (get_assignMS bank f d _)
        ⟨⟨hf, hd⟩, mInv, sOp, hm, hs, rfl⟩
      have h2 := foldlM_step (BankMembers.Step b)
        (fun d2 s => ∀ f2 ∈ fieldTypes,
          s.get (BankKey.mfn f f2 d) ≠ none ∧ s.get (BankKey.mfnn f f2 d d2) ≠ none)
        (MaxwellEvolution2D.bodyD2 b f d) (Step.refl b) (Step.trans b)
        (fun _ _ _ hq hst f2 hf2 => ⟨hst.1 _ (hq f2 hf2).1, hst.1 _ (hq f2 hf2).2⟩) directions
        (fun d2 hd2 s t hst => bodyD2_step b f d hf hd d2 hd2 s t hst) _ next h
      exact ⟨Step.trans b _ _ _ h1.1 h2.1, h2.1.1 _ h1.2, h2.2⟩

theorem bodyF_step (b : OperatorBuilders n) (f : FieldType) (hf : f ∈ fieldTypes)
    (bank next : BankMembers n)
    (h : MaxwellEvolution2D.bodyF b bank f = Except.ok next) :
    BankMembers.Step b bank next
      ∧ (next.get (BankKey.mp f) ≠ none
        ∧ ∀ d ∈ directions, next.get (BankKey.ms f d) ≠ none
          ∧ ∀ d2 ∈ directions, ∀ f2 ∈ fieldTypes,
              next.get (BankKey.mfn f f2 d) ≠ none
                ∧ next.get (BankKey.mfnn f f2 d d2) ≠ none) := by
  simp only [MaxwellEvolution2D.bodyF, bind, Except.bind] at h
  cases hm : b.buildInverseMassMatrix f with
  | error e => simp [hm] at h
  | ok mInv =>
    cases hp : b.buildPenaltyOperator2D f [] with
    | error e => simp [hm, hp] at h
    | ok pOp =>
      simp only [hm, hp] at h
      have h1 := Step.of_assign b bank (bank.assignMP f (buildByMult mInv pOp))
        (BankKey.mp f) (buildByMult mInv pOp) (get_assignMP bank f _)
        ⟨hf, mInv, pOp, hm, hp, rfl⟩
      have h2 := foldlM_step (BankMembers.Step b)
        (fun d s => s.get (BankKey.ms f d) ≠ none
          ∧ ∀ d2 ∈ directions, ∀ f2 ∈ fieldTypes,
              s.get (BankKey.mfn f f2 d) ≠ none ∧ s.get (BankKey.mfnn f f2 d d2) ≠ none)
        (MaxwellEvolution2D.bodyD b f) (Step.refl b) (Step.trans b)
        (fun _ _ _ hq hst => ⟨hst.1 _ hq.1, fun d2 hd2 f2 hf2 =>
          ⟨hst.1 _ (hq.2 d2 hd2 f2 hf2).1, hst.1 _ (hq.2 d2 hd2 f2 hf2).2⟩⟩) directions
        (fun d hd s t hst => bodyD_step b f hf d hd s t hst) _ next h
      exact ⟨Step.trans b _ _ _ h1.1 h2.1, h2.1.1 _ h1.2, h2.2⟩

/-- When the constructor returns, the bank is sound and every index in range is filled. -/
theorem construct_sound_filled (b : OperatorBuilders n) (bank : BankMembers n)
    (h : MaxwellEvolution2D.construct b = Except.ok bank) :
    bank.Sound b ∧ ∀ k : BankKey, k.inRange → bank.get k ≠ none := by
  have hfold := foldlM_step (BankMembers.Step b)
    (fun f s => s.get (BankKey.mp f) ≠ none
      ∧ ∀ d ∈ directions, s.get (BankKey.ms f d) ≠ none
        ∧ ∀ d2 ∈ directions, ∀ f2 ∈ fieldTypes,
            s.get (BankKey.mfn f f2 d) ≠ none ∧ s.get (BankKey.mfnn f f2 d d2) ≠ none)
    (MaxwellEvolution2D.bodyF b) (Step.refl b) (Step.trans b)
    (fun _ _ _ hq hst => ⟨hst.1 _ hq.1, fun d hd => ⟨hst.1 _ (hq.2 d hd).1,
      fun d2 hd2 f2 hf2 => ⟨hst.1 _ ((hq.2 d hd).2 d2 hd2 f2 hf2).1,
        hst.1 _ ((hq.2 d hd).2 d2 hd2 f2 hf2).2⟩⟩⟩) fieldTypes
    (fun f hf s t hst => bodyF_step b f hf s t hst) (BankMembers.empty n) bank h
  have hempty : (BankMembers.empty n).Sound b := by
    intro k v hk
    cases k <;> simp [BankMembers.get, BankMembers.empty] at hk
  refine ⟨hfold.1.2 hempty, ?_⟩
  intro k hk
  cases k with
  | mp f => exact (hfold.2 f hk).1
  | ms f d => exact ((hfold.2 f hk.1).2 d hk.2).1
  | mfn f f2 d =>
    exact (((hfold.2 f hk.1).2 d hk.2.2).2 d (by exact hk.2.2) f2 hk.2.1).1
  | mfnn f f2 d d2 =>
    exact (((hfold.2 f hk.1).2 d hk.2.2.1).2 d2 hk.2.2.2 f2 hk.2.1).2

/-- When the constructor returns, the entry at an index in range is inverse mass of
the target field times the raw operator. -/
theorem construct_entry (b : OperatorBuilders n) (bank : BankMembers n)
    (h : MaxwellEvolution2D.construct b = Except.ok bank) (k : BankKey) (hk : k.inRange) :
    ∃ mInv r, b.buildInverseMassMatrix k.target = Except.ok mInv
      ∧ k.raw b = Except.ok r ∧ bank.get k = some (buildByMult mInv r) := by
  have hsf := construct_sound_filled b bank h
  cases hget : bank.get k with
  | none => exact absurd hget (hsf.2 k hk)
  | some v =>
    obtain ⟨_, mInv, r, hm, hr, hv⟩ := hsf.1 k v hget
    exact ⟨mInv, r, hm, hr, by rw [hv]⟩

/-- A loop whose body returns on every element of the list returns. -/
theorem foldlM_returns {σ α : Type} (body : σ → α → Except String σ) :
    ∀ (l : List α), (∀ a ∈ l, ∀ s, ∃ t, body s a = Except.ok t) →
      ∀ s, ∃ t, l.foldlM body s = Except.ok t := by
  intro l
  induction l with
  | nil =>
    intro _ s
    exact ⟨s, rfl⟩
  | cons x xs ih =>
    intro hbody s
    obtain ⟨u, hu⟩ := hbody x (by simp) s
    obtain ⟨t, ht⟩ := ih (fun a ha => hbody a (List.mem_cons_of_mem x ha)) u
    refine ⟨t, ?_⟩
    simp only [List.foldlM, bind, Except.bind, hu]
    exact ht

/-- The constructor returns when every builder returns on the arguments it is called
with. -/
theorem construct_returns (b : OperatorBuilders n)
    (hm : ∀ f ∈ fieldTypes, ∃ m, b.buildInverseMassMatrix f = Except.ok m)
    (hp : ∀ f ∈ fieldTypes, ∃ p, b.buildPenaltyOperator2D f [] = Except.ok p)
    (hs : ∀ d ∈ directions, ∃ s, b.buildDerivativeOperator d = Except.ok s)
    (hfn : ∀ f2 ∈ fieldTypes, ∀ d ∈ directions, ∃ r, b.buildFluxOperator2D f2 [d] = Except.ok r)
    (hfnn : ∀ f2 ∈ fieldTypes, ∀ d ∈ directions, ∀ d2 ∈ directions,
      ∃ r, b.buildFluxOperator2D f2 [d, d2] = Except.ok r) :
    ∃ bank, MaxwellEvolution2D.construct b = Except.ok bank := by
  apply foldlM_returns
  intro f hf s
  obtain ⟨m, hmf⟩ := hm f hf
  obtain ⟨p, hpf⟩ := hp f hf
  simp only [MaxwellEvolution2D.bodyF, bind, Except.bind, hmf, hpf]
  apply foldlM_returns
  intro d hd s
  obtain ⟨sOp, hsd⟩ := hs d hd
  simp only [MaxwellEvolution2D.bodyD, bind, Except.bind, hmf, hsd]
  apply foldlM_returns
  intro d2 hd2 s
  apply foldlM_returns
  intro f2 hf2 s
  obtain ⟨r1, hr1⟩ := hfn f2 hf2 d hd
  obtain ⟨r2, hr2⟩ := hfnn f2 hf2 d hd d2 hd2
  simp only [MaxwellEvolution2D.bodyF2, bind, Except.bind, hmf, hr1, hr2, pure, Except.pure]
  exact ⟨_, rfl⟩

end Constructor

/-! ## The flux-coefficient table -/

/-- C1: for the fields E and H and the conditions PEC, PMC and SMA,
`boundaryFluxCoefficient` returns the pair of the table: PEC gives E (0,0) and H (2,0),
PMC gives E (2,0) and H (0,0), SMA gives (1,0) for both. -/
theorem boundaryFluxCoefficient_table :
    boundaryFluxCoefficient FieldType.E BdrCond.PEC = Except.ok { alpha := 0, beta := 0 }
    ∧ boundaryFluxCoefficient FieldType.H BdrCond.PEC = Except.ok { alpha := 2, beta := 0 }
    ∧ boundaryFluxCoefficient FieldType.E BdrCond.PMC = Except.ok { alpha := 2, beta := 0 }
    ∧ boundaryFluxCoefficient FieldType.H BdrCond.PMC = Except.ok { alpha := 0, beta := 0 }
    ∧ boundaryFluxCoefficient FieldType.E BdrCond.SMA = Except.ok { alpha := 1, beta := 0 }
    ∧ boundaryFluxCoefficient FieldType.H BdrCond.SMA = Except.ok { alpha := 1, beta := 0 } :=
  ⟨rfl, rfl, rfl, rfl, rfl, rfl⟩

/-- C2: `boundaryPenaltyFluxCoefficient` returns (0,0) under the Centered flux whatever
the field and the condition, and under the Upwind flux returns (0,0) for PEC and PMC and
(-1,0) for SMA, for both fields E and H. -/
theorem boundaryPenaltyFluxCoefficient_table :
    (∀ (f : FieldType) (bdrC : BdrCond),
      boundaryPenaltyFluxCoefficient f bdrC { fluxType := FluxType.Centered }
        = Except.ok { alpha := 0, beta := 0 })
    ∧ boundaryPenaltyFluxCoefficient FieldType.E BdrCond.PEC { fluxType := FluxType.Upwind }
        = Except.ok { alpha := 0, beta := 0 }
    ∧ boundaryPenaltyFluxCoefficient FieldType.H BdrCond.PEC { fluxType := FluxType.Upwind }
        = Except.ok { alpha := 0, beta := 0 }
    ∧ boundaryPenaltyFluxCoefficient FieldType.E BdrCond.PMC { fluxType := FluxType.Upwind }
        = Except.ok { alpha := 0, beta := 0 }
    ∧ boundaryPenaltyFluxCoefficient FieldType.H BdrCond.PMC { fluxType := FluxType.Upwind }
        = Except.ok { alpha := 0, beta := 0 }
    ∧ boundaryPenaltyFluxCoefficient FieldType.E BdrCond.SMA { fluxType := FluxType.Upwind }
        = Except.ok { alpha := -1, beta := 0 }
    ∧ boundaryPenaltyFluxCoefficient FieldType.H BdrCond.SMA { fluxType := FluxType.Upwind }
        = Except.ok { alpha := -1, beta := 0 } :=
  ⟨fun _ _ => rfl, rfl, rfl, rfl, rfl, rfl, rfl⟩

/-- C3: `interiorFluxCoefficient` is (1, 0), a value that takes no flux type, and
`interiorPenaltyFluxCoefficient` returns (0, 0) under Centered and (0, 1/2) under Upwind. -/
theorem interiorFluxCoefficient_table :
    interiorFluxCoefficient = { alpha := 1, beta := 0 }
    ∧ interiorPenaltyFluxCoefficient { fluxType := FluxType.Centered }
        = Except.ok { alpha := 0, beta := 0 }
    ∧ interiorPenaltyFluxCoefficient { fluxType := FluxType.Upwind }
        = Except.ok { alpha := 0, beta := 1 / 2 } :=
  ⟨rfl, rfl, rfl⟩

/-! ## The rate written by `Mult` -/

/-- C4: the `Hx` block of the rate is
`( MFNN[H][H][X][X] Hx + MFNN[H][H][Y][X] Hy - MP[H] Hx + MFN[H][E][Y] Ez ) / 2
 - MS[H][Y] Ez`, for every bank, input state and prior content of `out`. -/
theorem Mult_rate_Hx (n : Nat) (bank : OperatorBank n) (input output : Buffer) :
    window n (MaxwellEvolution2D.Mult n bank input output).output (hOff n X) =
      (1 / 2 : ℚ) •
          (Matrix.mulVec (bank.MFNN FieldType.H FieldType.H X X) (window n input (hOff n X))
            + Matrix.mulVec (bank.MFNN FieldType.H FieldType.H Y X) (window n input (hOff n Y))
            - Matrix.mulVec (bank.MP FieldType.H) (window n input (hOff n X))
            + Matrix.mulVec (bank.MFN FieldType.H FieldType.E Y) (window n input (eOff n Z)))
        - Matrix.mulVec (bank.MS FieldType.H Y) (window n input (eOff n Z)) :=
  Mult_output_Hx n bank input output

/-- C5: the `Hy` block of the rate is
`( MFNN[H][H][X][Y] Hx + MFNN[H][H][Y][Y] Hy - MP[H] Hy - MFN[H][E][X] Ez ) / 2
 + MS[H][X] Ez`, for every bank, input state and prior content of `out`. -/
theorem Mult_rate_Hy (n : Nat) (bank : OperatorBank n) (input output : Buffer) :
    window n (MaxwellEvolution2D.Mult n bank input output).output (hOff n Y) =
      (1 / 2 : ℚ) •
          (Matrix.mulVec (bank.MFNN FieldType.H FieldType.H X Y) (window n input (hOff n X))
            + Matrix.mulVec (bank.MFNN FieldType.H FieldType.H Y Y) (window n input (hOff n Y))
            - Matrix.mulVec (bank.MP FieldType.H) (window n input (hOff n Y))
            - Matrix.mulVec (bank.MFN FieldType.H FieldType.E X) (window n input (eOff n Z)))
        + Matrix.mulVec (bank.MS FieldType.H X) (window n input (eOff n Z)) :=
  Mult_output_Hy n bank input output

/-- C6 (defect of the code): on the sample bank and state the `Ez` entry of the rate that
`Mult` writes is `-2`, the flux-and-penalty part not being halved, while the rate of the
specification is `-1`. -/
theorem Mult_rate_Ez_not_halved :
    window 1 (MaxwellEvolution2D.Mult 1 sampleBank sampleInput (constBuffer 0)).output
        (eOff 1 Z) 0 = -2
    ∧ specRateEz 1 sampleBank sampleInput 0 = -1 := by
  constructor
  · rw [Mult_output_Ez]
    simp [sampleBank, sampleInput, window, Matrix.mulVec, Matrix.dotProduct, eOff, hOff]
  · simp [specRateEz, sampleBank, sampleInput, window, Matrix.mulVec, Matrix.dotProduct,
      eOff, hOff]

/-- C7 (defect of the code): on the sample bank and state the `Ez` entry of the input
vector holds `2` before the call and `1` after it. -/
theorem Mult_halves_input_Ez :
    sampleInput 2 = 2
    ∧ (MaxwellEvolution2D.Mult 1 sampleBank sampleInput (constBuffer 0)).input 2 = 1 := by
  constructor
  · simp [sampleInput]
  · rw [Mult_input]
    simp [store, sampleInput, window, eOff]

/-- C8, as stated, fails: from the same bank and state, a call that starts from an output
vector of zeros and a call that starts from an output vector of sevens leave different
values in the `Ex` block. -/
theorem Mult_output_Ex_depends_on_prior :
    window 1 (MaxwellEvolution2D.Mult 1 sampleBank sampleInput (constBuffer 0)).output
        (eOff 1 X)
      ≠ window 1 (MaxwellEvolution2D.Mult 1 sampleBank sampleInput (constBuffer 7)).output
        (eOff 1 X) := by
  rw [(Mult_output_untouched 1 sampleBank sampleInput (constBuffer 0)).1,
    (Mult_output_untouched 1 sampleBank sampleInput (constBuffer 7)).1]
  intro h
  have h0 := congrFun h 0
  simp [window, constBuffer] at h0

/-- C8, amended: two calls on the same bank and state that start from output vectors with
different prior contents leave equal `Ez`, `Hx` and `Hy` blocks; the `Ex`, `Ey` and `Hz`
blocks are not written and keep the prior contents of each output vector. -/
theorem Mult_output_prior_contents (n : Nat) (bank : OperatorBank n)
    (input out1 out2 : Buffer) :
    (window n (MaxwellEvolution2D.Mult n bank input out1).output (eOff n Z)
        = window n (MaxwellEvolution2D.Mult n bank input out2).output (eOff n Z)
      ∧ window n (MaxwellEvolution2D.Mult n bank input out1).output (hOff n X)
        = window n (MaxwellEvolution2D.Mult n bank input out2).output (hOff n X)
      ∧ window n (MaxwellEvolution2D.Mult n bank input out1).output (hOff n Y)
        = window n (MaxwellEvolution2D.Mult n bank input out2).output (hOff n Y))
    ∧ (window n (MaxwellEvolution2D.Mult n bank input out1).output (eOff n X)
        = window n out1 (eOff n X)
      ∧ window n (MaxwellEvolution2D.Mult n bank input out1).output (eOff n Y)
        = window n out1 (eOff n Y)
      ∧ window n (MaxwellEvolution2D.Mult n bank input out1).output (hOff n Z)
        = window n out1 (hOff n Z))
    ∧ (window n (MaxwellEvolution2D.Mult n bank input out2).output (eOff n X)
        = window n out2 (eOff n X)
      ∧ window n (MaxwellEvolution2D.Mult n bank input out2).output (eOff n Y)
        = window n out2 (eOff n Y)
      ∧ window n (MaxwellEvolution2D.Mult n bank input out2).output (hOff n Z)
        = window n out2 (hOff n Z)) := by
  refine ⟨⟨?_, ?_, ?_⟩, Mult_output_untouched n bank input out1,
    Mult_output_untouched n bank input out2⟩
  · rw [Mult_output_Ez, Mult_output_Ez]
  · rw [Mult_output_Hx, Mult_output_Hx]
  · rw [Mult_output_Hy, Mult_output_Hy]

/-- C9: `Mult` is linear in the state: for all states `s`, `t` and every scalar `c`, the
`Ez`, `Hx` and `Hy` rate blocks computed for `c * s + t` equal `c` times the blocks
computed for `s` plus the blocks computed for `t`, whatever the output vectors held. -/
theorem Mult_linear (n : Nat) (bank : OperatorBank n) (s t : Buffer) (c : ℚ)
    (o1 o2 o3 : Buffer) :
    window n (MaxwellEvolution2D.Mult n bank (fun k => c * s k + t k) o1).output (eOff n Z)
        = c • window n (MaxwellEvolution2D.Mult n bank s o2).output (eOff n Z)
          + window n (MaxwellEvolution2D.Mult n bank t o3).output (eOff n Z)
    ∧ window n (MaxwellEvolution2D.Mult n bank (fun k => c * s k + t k) o1).output (hOff n X)
        = c • window n (MaxwellEvolution2D.Mult n bank s o2).output (hOff n X)
          + window n (MaxwellEvolution2D.Mult n bank t o3).output (hOff n X)
    ∧ window n (MaxwellEvolution2D.Mult n bank (fun k => c * s k + t k) o1).output (hOff n Y)
        = c • window n (MaxwellEvolution2D.Mult n bank s o2).output (hOff n Y)
          + window n (MaxwellEvolution2D.Mult n bank t o3).output (hOff n Y) := by
  have hw : ∀ off, window n (fun k => c * s k + t k) off
      = c • window n s off + window n t off := by
    intro off
    funext i
    simp [window]
  refine ⟨?_, ?_, ?_⟩
  · simp only [Mult_output_Ez, hw, Matrix.mulVec_add, Matrix.mulVec_smul]
    funext i
    simp only [Pi.add_apply, Pi.sub_apply, Pi.smul_apply, smul_eq_mul]
    ring
  · simp only [Mult_output_Hx, hw, Matrix.mulVec_add, Matrix.mulVec_smul]
    funext i
    simp only [Pi.add_apply, Pi.sub_apply, Pi.smul_apply, smul_eq_mul]
    ring
  · simp only [Mult_output_Hy, hw, Matrix.mulVec_add, Matrix.mulVec_smul]
    funext i
    simp only [Pi.add_apply, Pi.sub_apply, Pi.smul_apply, smul_eq_mul]
    ring

/-! ## The bank left by the constructor -/

/-- C10: when the constructor returns, every entry of the bank with fields in `{E, H}` and
directions in `{X, Y, Z}` holds the product, in that order, of the inverse mass of its
first field by the raw operator: penalty with no direction for `MP_`, derivative along
`d` for `MS_`, flux of `f2` with directions `[d]` for `MFN_` and `[d, d2]` for `MFNN_`;
no other entry is filled, and the entries number 2, 6, 12 and 36 for every size of the
space. -/
theorem construct_bank {n : Nat} (b : OperatorBuilders n) (bank : BankMembers n)
    (h : MaxwellEvolution2D.construct b = Except.ok bank) :
    (∀ f ∈ fieldTypes, ∃ mInv p,
        b.buildInverseMassMatrix f = Except.ok mInv
        ∧ b.buildPenaltyOperator2D f [] = Except.ok p
        ∧ bank.MP_ f = some (mInv * p))
    ∧ (∀ f ∈ fieldTypes, ∀ d ∈ directions, ∃ mInv s,
        b.buildInverseMassMatrix f = Except.ok mInv
        ∧ b.buildDerivativeOperator d = Except.ok s
        ∧ bank.MS_ f d = some (mInv * s))
    ∧ (∀ f ∈ fieldTypes, ∀ f2 ∈ fieldTypes, ∀ d ∈ directions, ∃ mInv fl,
        b.buildInverseMassMatrix f = Except.ok mInv
        ∧ b.buildFluxOperator2D f2 [d] = Except.ok fl
        ∧ bank.MFN_ f f2 d = some (mInv * fl))
    ∧ (∀ f ∈ fieldTypes, ∀ f2 ∈ fieldTypes, ∀ d ∈ directions, ∀ d2 ∈ directions, ∃ mInv fl,
        b.buildInverseMassMatrix f = Except.ok mInv
        ∧ b.buildFluxOperator2D f2 [d, d2] = Except.ok fl
        ∧ bank.MFNN_ f f2 d d2 = some (mInv * fl))
    ∧ (∀ f, bank.MP_ f ≠ none → f ∈ fieldTypes)
    ∧ (∀ f d, bank.MS_ f d ≠ none → f ∈ fieldTypes ∧ d ∈ directions)
    ∧ (∀ f f2 d, bank.MFN_ f f2 d ≠ none → f ∈ fieldTypes ∧ f2 ∈ fieldTypes ∧ d ∈ directions)
    ∧ (∀ f f2 d d2, bank.MFNN_ f f2 d d2 ≠ none →
        f ∈ fieldTypes ∧ f2 ∈ fieldTypes ∧ d ∈ directions ∧ d2 ∈ directions)
    ∧ fieldTypes.Nodup ∧ directions.Nodup
    ∧ fieldTypes.length = 2
    ∧ fieldTypes.length * directions.length = 6
    ∧ fieldTypes.length * fieldTypes.length * directions.length = 12
    ∧ fieldTypes.length * fieldTypes.length * directions.length * directions.length = 36 := by
  have hsf := construct_sound_filled b bank h
  have hin : ∀ k, bank.get k ≠ none → k.inRange := by
    intro k hk
    cases hget : bank.get k with
    | none => exact absurd hget hk
    | some v => exact (hsf.1 k v hget).1
  refine ⟨?_, ?_, ?_, ?_, ?_, ?_, ?_, ?_, by decide, by decide, rfl, rfl, rfl, rfl⟩
  · intro f hf
    exact construct_entry b bank h (BankKey.mp f) hf
  · intro f hf d hd
    exact construct_entry b bank h (BankKey.ms f d) ⟨hf, hd⟩
  · intro f hf f2 hf2 d hd
    exact construct_entry b bank h (BankKey.mfn f f2 d) ⟨hf, hf2, hd⟩
  · intro f hf f2 hf2 d hd d2 hd2
    exact construct_entry b bank h (BankKey.mfnn f f2 d d2) ⟨hf, hf2, hd, hd2⟩
  · intro f hf
    exact hin (BankKey.mp f) hf
  · intro f d hf
    exact hin (BankKey.ms f d) hf
  · intro f f2 d hf
    exact hin (BankKey.mfn f f2 d) hf
  · intro f f2 d d2 hf
    exact hin (BankKey.mfnn f f2 d d2) hf

/-- Witness of C10: the constructor returns on the sample builders, and the bank it
leaves holds at `MP_[E]` the inverse mass of `E` times the penalty operator of `E`. -/
theorem construct_bank_witness :
    ∃ bank, MaxwellEvolution2D.construct sampleBuilders = Except.ok bank
      ∧ ∃ mInv p, sampleBuilders.buildInverseMassMatrix FieldType.E = Except.ok mInv
        ∧ sampleBuilders.buildPenaltyOperator2D FieldType.E [] = Except.ok p
        ∧ bank.MP_ FieldType.E = some (mInv * p) :=
  ⟨_, rfl, (construct_bank sampleBuilders _ rfl).1 FieldType.E (by simp [fieldTypes])⟩

/-! ## Failures of the lookups -/

/-- C12: `altField` maps `E` to `H` and `H` to `E`, and throws for every value of the
field type that is neither `E` nor `H`. -/
theorem altField_swaps_or_throws :
    altField FieldType.E = Except.ok FieldType.H
    ∧ altField FieldType.H = Except.ok FieldType.E
    ∧ ∀ f : FieldType, f ≠ FieldType.E → f ≠ FieldType.H →
        altField f = Except.error "Invalid field type for altField." := by
  refine ⟨rfl, rfl, ?_⟩
  intro f hE hH
  cases f with
  | E => exact absurd rfl hE
  | H => exact absurd rfl hH
  | other raw => rfl

/-- Witness of C12: the value `other 7` is neither `E` nor `H`, and `altField` throws
on it. -/
theorem altField_swaps_or_throws_witness :
    FieldType.other 7 ≠ FieldType.E ∧ FieldType.other 7 ≠ FieldType.H
      ∧ altField (FieldType.other 7) = Except.error "Invalid field type for altField." :=
  ⟨by decide, by decide,
    altField_swaps_or_throws.2.2 (FieldType.other 7) (by decide) (by decide)⟩

/-- C13, as stated, fails: under the Centered flux `boundaryPenaltyFluxCoefficient`
returns (0,0) for the field `E` and a boundary condition that is none of PEC, PMC,
SMA. -/
theorem boundaryPenaltyFluxCoefficient_centered_unrecognized :
    boundaryPenaltyFluxCoefficient FieldType.E (BdrCond.other 0)
        { fluxType := FluxType.Centered }
      = Except.ok { alpha := 0, beta := 0 } :=
  rfl

/-- C13, amended: `interiorPenaltyFluxCoefficient` and `boundaryPenaltyFluxCoefficient`
throw for every flux type that is neither Centered nor Upwind, whatever the field and
the boundary condition; `boundaryFluxCoefficient` throws for every boundary condition
that is none of PEC, PMC, SMA, whatever the field; `boundaryPenaltyFluxCoefficient`
throws for such a boundary condition under the Upwind flux, whatever the field, and
under the Centered flux returns (0,0) without looking at the boundary condition. -/
theorem lookups_throw_on_unrecognized :
    (∀ raw, interiorPenaltyFluxCoefficient { fluxType := FluxType.other raw }
        = Except.error "No defined FluxType.")
    ∧ (∀ f bdrC raw, boundaryPenaltyFluxCoefficient f bdrC { fluxType := FluxType.other raw }
        = Except.error "No defined FluxType.")
    ∧ (∀ f raw, boundaryFluxCoefficient f (BdrCond.other raw)
        = Except.error "No defined BdrCond.")
    ∧ (∀ f raw, boundaryPenaltyFluxCoefficient f (BdrCond.other raw)
          { fluxType := FluxType.Upwind }
        = Except.error "No defined BdrCond.")
    ∧ (∀ f raw, boundaryPenaltyFluxCoefficient f (BdrCond.other raw)
          { fluxType := FluxType.Centered }
        = Except.ok { alpha := 0, beta := 0 }) :=
  ⟨fun _ => rfl, fun _ _ _ => rfl, fun _ _ => rfl, fun _ _ => rfl, fun _ _ => rfl⟩

/-- C17: for every boundary condition, recognized or not, and every value of the field
type that is neither `E` nor `H`, `boundaryFluxCoefficient` throws: no inner
`switch (f)` matches, and control falls through to the `default:` label. -/
theorem boundaryFluxCoefficient_throws_on_unrecognized_field :
    ∀ (bdrC : BdrCond) (raw : Nat),
      boundaryFluxCoefficient (FieldType.other raw) bdrC
        = Except.error "No defined BdrCond." := by
  intro bdrC raw
  cases bdrC <;> rfl

/-! ## The operators `Mult` applies, and the layout of the blocks -/

/-- The body of `Mult` is the run of its eighteen statements. -/
theorem Mult_eq_statements (n : Nat) (bank : OperatorBank n) (input output : Buffer) :
    MaxwellEvolution2D.Mult n bank input output
      = MaxwellEvolution2D.MultStatements.foldl (fun m s => s.exec n bank m)
          { input := input, output := output } :=
  rfl

/-- C11 (defect of the code): the operators that `Mult` accumulates into the `Hx` and
`Hy` blocks all have first index `H`, but of the five it accumulates into the `Ez` block
the first two, `MFN_[H][H][Y]` and `MFN_[H][H][X]`, have first index `H` and not `E`; on
the sample bank, where `MFN[E][H][Y]` is `[20]` and `MFN[H][H][Y]` is `[40]`, the state
`Hx = 1` gets the `Ez` rate `40`. -/
theorem Mult_Ez_applies_operators_of_H :
    (MaxwellEvolution2D.operatorsInto (Block.h X)).map BankKey.target
        = [FieldType.H, FieldType.H, FieldType.H, FieldType.H, FieldType.H]
    ∧ (MaxwellEvolution2D.operatorsInto (Block.h Y)).map BankKey.target
        = [FieldType.H, FieldType.H, FieldType.H, FieldType.H, FieldType.H]
    ∧ MaxwellEvolution2D.operatorsInto (Block.e Z)
        = [BankKey.mfn FieldType.H FieldType.H Y, BankKey.mfn FieldType.H FieldType.H X,
            BankKey.mp FieldType.E, BankKey.ms FieldType.E X, BankKey.ms FieldType.E Y]
    ∧ (MaxwellEvolution2D.operatorsInto (Block.e Z)).map BankKey.target
        = [FieldType.H, FieldType.H, FieldType.E, FieldType.E, FieldType.E]
    ∧ window 1 (MaxwellEvolution2D.Mult 1 massBank unitHxInput (constBuffer 0)).output
        (eOff 1 Z) 0 = 40
    ∧ Matrix.mulVec (massBank.MFN FieldType.E FieldType.H Y) (window 1 unitHxInput (hOff 1 X)) 0
        = 20 := by
  refine ⟨by decide, by decide, by decide, by decide, ?_, ?_⟩
  · rw [Mult_output_Ez]
    simp [massBank, unitHxInput, window, Matrix.mulVec, Matrix.dotProduct, eOff, hOff]
  · simp [massBank, unitHxInput, window, Matrix.mulVec, Matrix.dotProduct, hOff]

/-- C20: for every number `n` of degrees of freedom the six blocks that `Mult` addresses
start at `0, n, 2n, 3n, 4n, 5n` in the order `Ex, Ey, Ez, Hx, Hy, Hz`, each block
starting where the one before it ends and the last ending at the operator size
`numberOfFieldComponents * numberOfMaxDimensions * n = 6 n`; the blocks are pairwise
disjoint, an index lies in one of them exactly when it is below the operator size, and
every entry of every block is inside the vector. -/
theorem Mult_blocks_partition (n : Nat) :
    MaxwellEvolution2D.blockOffsets n = [0, n, 2 * n, 3 * n, 4 * n, 5 * n]
    ∧ List.Chain' (fun a b => b = a + n) (MaxwellEvolution2D.blockOffsets n)
    ∧ hOff n Z + n = MaxwellEvolution2D.size n
    ∧ MaxwellEvolution2D.size n = 6 * n
    ∧ (MaxwellEvolution2D.blockOffsets n).Pairwise
        (fun a b => ∀ k, ¬ (inBlock n a k ∧ inBlock n b k))
    ∧ (∀ k, k < MaxwellEvolution2D.size n
        ↔ ∃ off ∈ MaxwellEvolution2D.blockOffsets n, inBlock n off k)
    ∧ (∀ off ∈ MaxwellEvolution2D.blockOffsets n, ∀ i : Fin n,
        off + i.val < MaxwellEvolution2D.size n) := by
  have hoffs : MaxwellEvolution2D.blockOffsets n = [0, n, 2 * n, 3 * n, 4 * n, 5 * n] := by
    simp [MaxwellEvolution2D.blockOffsets, eOff, hOff]
  have hsize : MaxwellEvolution2D.size n = 6 * n := by
    simp [MaxwellEvolution2D.size, numberOfFieldComponents, numberOfMaxDimensions]
  refine ⟨hoffs, ?_, ?_, hsize, ?_, ?_, ?_⟩
  · rw [hoffs]
    simp only [List.chain'_cons, List.chain'_singleton, and_true]
    omega
  · rw [hsize]
    simp only [hOff, Z, Nat.reduceAdd]
    omega
  · rw [hoffs]
    simp only [List.pairwise_cons, List.mem_cons, List.mem_singleton, List.not_mem_nil,
      forall_eq_or_imp, forall_eq, inBlock, List.Pairwise.nil, and_true, false_implies,
      implies_true]
    repeat' constructor
    all_goals (intro k; omega)
  · intro k
    rw [hoffs, hsize]
    simp only [List.mem_cons, List.mem_singleton, List.not_mem_nil, or_false, inBlock,
      exists_eq_or_imp, exists_eq_left]
    omega
  · intro off hoff i
    have hi := i.isLt
    rw [hoffs] at hoff
    rw [hsize]
    simp only [List.mem_cons, List.mem_singleton, List.not_mem_nil, or_false] at hoff
    omega

/-- Witness of C20: with two degrees of freedom the block `Hz` starts at offset `10`,
and its last entry, at index `11`, is below the operator size `12`. -/
theorem Mult_blocks_partition_witness :
    hOff 2 Z ∈ MaxwellEvolution2D.blockOffsets 2
      ∧ hOff 2 Z + 1 < MaxwellEvolution2D.size 2 :=
  ⟨by simp [MaxwellEvolution2D.blockOffsets],
    (Mult_blocks_partition 2).2.2.2.2.2.2 (hOff 2 Z)
      (by simp [MaxwellEvolution2D.blockOffsets]) ⟨1, by decide⟩⟩

/-! ## The builders of `MaxwellDefs.h` -/

/-- The loop over the boundaries of `buildFluxOperator` returns when every lookup
returns; it touches only the boundary-face integrators, to which it adds one per entry
of the map, in order, with the coefficient of the lookup and the marker of the entry. -/
theorem bdrLoop_returns (f : FieldType) (usePenalty : Bool) (opts : MaxwellEvolOptions)
    (n : List ℚ) :
    ∀ (entries : List (BdrCond × BoundaryMarker)) (res : BilinearForm),
      (∀ kv ∈ entries, ∃ c, buildFluxOperator.boundaryCoefficient f usePenalty opts kv.1
        = Except.ok c) →
      ∃ out added,
        entries.foldlM (buildFluxOperator.bdrBody f usePenalty opts n) res = Except.ok out
        ∧ out.fes = res.fes
        ∧ out.domainIntegrators = res.domainIntegrators
        ∧ out.interiorFaceIntegrators = res.interiorFaceIntegrators
        ∧ out.assembled = res.assembled ∧ out.finalized = res.finalized
        ∧ out.bdrFaceIntegrators = res.bdrFaceIntegrators ++ added
        ∧ List.Forall₂ (fun kv bi => ∃ c,
            buildFluxOperator.boundaryCoefficient f usePenalty opts kv.1 = Except.ok c
            ∧ bi = (FaceIntegrator.maxwellDGTrace n c.alpha c.beta, kv.2)) entries added := by
  intro entries
  induction entries with
  | nil =>
    intro res _
    exact ⟨res, [], rfl, rfl, rfl, rfl, rfl, rfl, by simp, List.Forall₂.nil⟩
  | cons kv rest ih =>
    intro res hall
    obtain ⟨c, hc⟩ := hall kv (by simp)
    obtain ⟨out, added, hrun, h1, h2, h3, h4, h5, h6, h7⟩ :=
      ih (res.AddBdrFaceIntegrator (FaceIntegrator.maxwellDGTrace n c.alpha c.beta) kv.2)
        (fun kv2 hkv2 => hall kv2 (List.mem_cons_of_mem kv hkv2))
    refine ⟨out, (FaceIntegrator.maxwellDGTrace n c.alpha c.beta, kv.2) :: added,
      ?_, h1, h2, h3, h4, h5, ?_, ?_⟩
    · simp only [List.foldlM, bind, Except.bind, buildFluxOperator.bdrBody, hc, pure,
        Except.pure]
      exact hrun
    · rw [h6]
      simp [BilinearForm.AddBdrFaceIntegrator]
    · exact List.Forall₂.cons ⟨c, hc, rfl⟩ h7

/-- A loop fails when the body fails on one of the elements whatever the state. -/
theorem foldlM_fails {σ α : Type} (body : σ → α → Except String σ) :
    ∀ (l : List α), (∃ a ∈ l, ∀ s, ∃ e, body s a = Except.error e) →
      ∀ s, ∃ e, l.foldlM body s = Except.error e := by
  intro l
  induction l with
  | nil =>
    intro h
    obtain ⟨a, ha, _⟩ := h
    simp at ha
  | cons x xs ih =>
    intro h s
    simp only [List.foldlM, bind, Except.bind]
    cases hx : body s x with
    | error e => exact ⟨e, rfl⟩
    | ok u =>
      obtain ⟨a, ha, hfail⟩ := h
      rcases List.mem_cons.mp ha with rfl | hmem
      · obtain ⟨e, he⟩ := hfail s
        rw [he] at hx
        cases hx
      · exact ih ⟨a, hmem, hfail⟩ u

/-- C14: for every direction that is not below the mesh dimension,
`buildDerivativeOperator` and `buildFluxOperator` return the assembled and finalized
form with no integrator attached, whatever the field, the penalty flag, the model and
the options. -/
theorem builders_out_of_dimension (fes : FiniteElementSpace) (d : Direction)
    (hd : fes.mesh.dimension ≤ d) :
    buildDerivativeOperator d fes
        = { fes := fes, domainIntegrators := [], interiorFaceIntegrators := [],
            bdrFaceIntegrators := [], assembled := true, finalized := true }
    ∧ ∀ (f : FieldType) (usePenalty : Bool) (model : Model) (opts : MaxwellEvolOptions),
        buildFluxOperator f d usePenalty model fes opts
          = Except.ok
              { fes := fes, domainIntegrators := [], interiorFaceIntegrators := [],
                bdrFaceIntegrators := [], assembled := true, finalized := true } := by
  constructor
  · simp [buildDerivativeOperator, hd, BilinearForm.new, BilinearForm.Assemble,
      BilinearForm.Finalize]
  · intro f usePenalty model opts
    simp [buildFluxOperator, hd, BilinearForm.new, BilinearForm.Assemble,
      BilinearForm.Finalize]

/-- Witness of C14: on a two-dimensional mesh the direction `Z` is not below the mesh
dimension, and the flux operator built for it over a model with an unrecognized
boundary has no integrator. -/
theorem builders_out_of_dimension_witness :
    sampleFes2D.mesh.dimension ≤ Z
      ∧ buildFluxOperator FieldType.E Z true unrecognizedModel sampleFes2D
          { fluxType := FluxType.Upwind }
        = Except.ok
            { fes := sampleFes2D, domainIntegrators := [], interiorFaceIntegrators := [],
              bdrFaceIntegrators := [], assembled := true, finalized := true } :=
  ⟨by decide, (builders_out_of_dimension sampleFes2D Z (by decide)).2 FieldType.E true
    unrecognizedModel { fluxType := FluxType.Upwind }⟩

/-- The lookup of a boundary coefficient returns for the fields `E` and `H`, the
conditions PEC, PMC and SMA, and, when penalty coefficients are asked for, the flux
types Centered and Upwind. -/
theorem boundaryCoefficient_returns (f : FieldType) (hf : f = FieldType.E ∨ f = FieldType.H)
    (usePenalty : Bool) (opts : MaxwellEvolOptions)
    (hopts : usePenalty = true →
      opts.fluxType = FluxType.Centered ∨ opts.fluxType = FluxType.Upwind)
    (bdrC : BdrCond) (hb : bdrC = BdrCond.PEC ∨ bdrC = BdrCond.PMC ∨ bdrC = BdrCond.SMA) :
    ∃ c, buildFluxOperator.boundaryCoefficient f usePenalty opts bdrC = Except.ok c := by
  cases usePenalty with
  | false =>
    rcases hf with rfl | rfl <;> rcases hb with rfl | rfl | rfl <;> exact ⟨_, rfl⟩
  | true =>
    obtain ⟨ft⟩ := opts
    rcases hopts rfl with h | h <;> simp only at h <;> subst h <;>
      rcases hf with rfl | rfl <;> rcases hb with rfl | rfl | rfl <;> exact ⟨_, rfl⟩

/-- The vector of `buildNVector` for a direction below the mesh dimension: as many
entries as the mesh has dimensions, a one at index `d` and zeros elsewhere. -/
theorem buildNVector_unit (d : Direction) (fes : FiniteElementSpace)
    (hd : d < fes.mesh.dimension) :
    ∃ n, buildNVector d fes = Except.ok n ∧ n.length = fes.mesh.dimension
      ∧ ∀ i, n.getD i 0 = if i = d then 1 else 0 := by
  refine ⟨(List.replicate fes.mesh.dimension (0 : ℚ)).set d 1, ?_, by simp, ?_⟩
  · simp [buildNVector, hd]
  · intro i
    by_cases hid : i = d
    · subst hid
      simp [List.getD_eq_getElem?_getD, List.getElem?_set, hd]
    · have hne : d ≠ i := fun h => hid h.symm
      by_cases hi : i < fes.mesh.dimension
      · simp [List.getD_eq_getElem?_getD, List.getElem?_set, hid, hne, hi,
          List.getElem?_replicate]
      · simp [List.getD_eq_getElem?_getD, List.getElem?_set, hid, hne, hi,
          List.getElem?_replicate]

/-- For a direction below the mesh dimension, the fields `E` and `H`, a model whose
boundaries carry the conditions PEC, PMC or SMA and a recognized flux type,
`buildFluxOperator` returns, and the form it returns has exactly the integrators of the
lookups. -/
theorem buildFluxOperator_recognized (fes : FiniteElementSpace) (d : Direction)
    (hd : d < fes.mesh.dimension) (f : FieldType)
    (hf : f = FieldType.E ∨ f = FieldType.H) (usePenalty : Bool) (model : Model)
    (hmodel : ∀ kv ∈ model.getBoundaryToMarker,
      kv.1 = BdrCond.PEC ∨ kv.1 = BdrCond.PMC ∨ kv.1 = BdrCond.SMA)
    (opts : MaxwellEvolOptions)
    (hopts : usePenalty = true →
      opts.fluxType = FluxType.Centered ∨ opts.fluxType = FluxType.Upwind) :
    ∃ op n c,
      buildFluxOperator f d usePenalty model fes opts = Except.ok op
      ∧ n.length = fes.mesh.dimension ∧ (∀ i, n.getD i 0 = if i = d then 1 else 0)
      ∧ (if usePenalty = true then interiorPenaltyFluxCoefficient opts
          else Except.ok interiorFluxCoefficient) = Except.ok c
      ∧ op.interiorFaceIntegrators = [FaceIntegrator.maxwellDGTrace n c.alpha c.beta]
      ∧ List.Forall₂
          (fun kv bi => ∃ cb,
            (if usePenalty = true then boundaryPenaltyFluxCoefficient f kv.1 opts
              else boundaryFluxCoefficient f kv.1) = Except.ok cb
            ∧ bi = (FaceIntegrator.maxwellDGTrace n cb.alpha cb.beta, kv.2))
          model.getBoundaryToMarker op.bdrFaceIntegrators
      ∧ op.domainIntegrators = []
      ∧ op.assembled = true ∧ op.finalized = true := by
  obtain ⟨n, hn, hlen, hunit⟩ := buildNVector_unit d fes hd
  have hint : ∃ c, buildFluxOperator.interiorCoefficient usePenalty opts = Except.ok c := by
    cases usePenalty with
    | false => exact ⟨_, rfl⟩
    | true =>
      obtain ⟨ft⟩ := opts
      rcases hopts rfl with h | h <;> simp only at h <;> subst h <;> exact ⟨_, rfl⟩
  obtain ⟨c, hc⟩ := hint
  obtain ⟨out, added, hrun, _, h2, h3, _, _, h6, h7⟩ :=
    bdrLoop_returns f usePenalty opts n model.getBoundaryToMarker
      ((BilinearForm.new fes).AddInteriorFaceIntegrator
        (FaceIntegrator.maxwellDGTrace n c.alpha c.beta))
      (fun kv hkv => boundaryCoefficient_returns f hf usePenalty opts hopts kv.1 (hmodel kv hkv))
  have hnd : ¬ d ≥ fes.mesh.dimension := Nat.not_le.mpr hd
  refine ⟨out.Assemble.Finalize, n, c, ?_, hlen, hunit, ?_, ?_, ?_, ?_, rfl, rfl⟩
  · simp only [buildFluxOperator, hnd, if_false, bind, Except.bind, hn, hc, hrun, pure,
      Except.pure]
  · simpa [buildFluxOperator.interiorCoefficient] using hc
  · simp [BilinearForm.Assemble, BilinearForm.Finalize, h3, BilinearForm.new,
      BilinearForm.AddInteriorFaceIntegrator]
  · have hadded : out.Assemble.Finalize.bdrFaceIntegrators = added := by
      simp [BilinearForm.Assemble, BilinearForm.Finalize, h6, BilinearForm.new,
        BilinearForm.AddInteriorFaceIntegrator]
    rw [hadded]
    simpa [buildFluxOperator.boundaryCoefficient] using h7
  · simp [BilinearForm.Assemble, BilinearForm.Finalize, h2, BilinearForm.new,
      BilinearForm.AddInteriorFaceIntegrator]

/-- What the loop over the boundaries of `buildFluxOperator` has done when it returns:
every lookup has returned, and one boundary-face integrator per entry of the map has been
added, in order; nothing else has changed. -/
theorem bdrLoop_ok (f : FieldType) (usePenalty : Bool) (opts : MaxwellEvolOptions)
    (n : List ℚ) :
    ∀ (entries : List (BdrCond × BoundaryMarker)) (res out : BilinearForm),
      entries.foldlM (buildFluxOperator.bdrBody f usePenalty opts n) res = Except.ok out →
      ∃ added,
        out.domainIntegrators = res.domainIntegrators
        ∧ out.interiorFaceIntegrators = res.interiorFaceIntegrators
        ∧ out.bdrFaceIntegrators = res.bdrFaceIntegrators ++ added
        ∧ List.Forall₂ (fun kv bi => ∃ c,
            buildFluxOperator.boundaryCoefficient f usePenalty opts kv.1 = Except.ok c
            ∧ bi = (FaceIntegrator.maxwellDGTrace n c.alpha c.beta, kv.2)) entries added := by
  intro entries
  induction entries with
  | nil =>
    intro res out h
    simp only [List.foldlM, pure, Except.pure, Except.ok.injEq] at h
    subst h
    exact ⟨[], rfl, rfl, by simp, List.Forall₂.nil⟩
  | cons kv rest ih =>
    intro res out h
    simp only [List.foldlM, bind, Except.bind, buildFluxOperator.bdrBody] at h
    cases hc : buildFluxOperator.boundaryCoefficient f usePenalty opts kv.1 with
    | error e => simp [hc] at h
    | ok c =>
      simp only [hc, pure, Except.pure] at h
      obtain ⟨added, h2, h3, h6, h7⟩ := ih _ out h
      refine ⟨(FaceIntegrator.maxwellDGTrace n c.alpha c.beta, kv.2) :: added, ?_, ?_, ?_, ?_⟩
      · rw [h2]; rfl
      · rw [h3]; rfl
      · rw [h6]
        simp [BilinearForm.AddBdrFaceIntegrator]
      · exact List.Forall₂.cons ⟨c, hc, rfl⟩ h7

/-- C15: for a direction below the mesh dimension, a form returned by
`buildFluxOperator` has exactly one interior-face integrator, whose normal is the unit
vector along `d` and whose weights are those of `interiorFluxCoefficient` or, with the
penalty flag, `interiorPenaltyFluxCoefficient`; one boundary-face integrator per entry
of the boundary map, in order, restricted to the marker of the entry and weighted by
`boundaryFluxCoefficient` or, with the penalty flag, `boundaryPenaltyFluxCoefficient`;
and no other integrator. For the fields `E` and `H`, boundaries with the conditions
PEC, PMC or SMA and a recognized flux type, `buildFluxOperator` returns such a form. -/
theorem buildFluxOperator_integrators (fes : FiniteElementSpace) (d : Direction)
    (hd : d < fes.mesh.dimension) (f : FieldType) (usePenalty : Bool) (model : Model)
    (opts : MaxwellEvolOptions) :
    (∀ op, buildFluxOperator f d usePenalty model fes opts = Except.ok op →
      ∃ n c,
        n.length = fes.mesh.dimension ∧ (∀ i, n.getD i 0 = if i = d then 1 else 0)
        ∧ (if usePenalty = true then interiorPenaltyFluxCoefficient opts
            else Except.ok interiorFluxCoefficient) = Except.ok c
        ∧ op.interiorFaceIntegrators = [FaceIntegrator.maxwellDGTrace n c.alpha c.beta]
        ∧ List.Forall₂
            (fun kv bi => ∃ cb,
              (if usePenalty = true then boundaryPenaltyFluxCoefficient f kv.1 opts
                else boundaryFluxCoefficient f kv.1) = Except.ok cb
              ∧ bi = (FaceIntegrator.maxwellDGTrace n cb.alpha cb.beta, kv.2))
            model.getBoundaryToMarker op.bdrFaceIntegrators
        ∧ op.domainIntegrators = []
        ∧ op.assembled = true ∧ op.finalized = true)
    ∧ ((f = FieldType.E ∨ f = FieldType.H) →
      (∀ kv ∈ model.getBoundaryToMarker,
        kv.1 = BdrCond.PEC ∨ kv.1 = BdrCond.PMC ∨ kv.1 = BdrCond.SMA) →
      (usePenalty = true →
        opts.fluxType = FluxType.Centered ∨ opts.fluxType = FluxType.Upwind) →
      ∃ op, buildFluxOperator f d usePenalty model fes opts = Except.ok op) := by
  constructor
  · intro op hop
    obtain ⟨n, hn, hlen, hunit⟩ := buildNVector_unit d fes hd
    have hnd : ¬ d ≥ fes.mesh.dimension := Nat.not_le.mpr hd
    simp only [buildFluxOperator, hnd, if_false, bind, Except.bind, hn] at hop
    cases hc : buildFluxOperator.interiorCoefficient usePenalty opts with
    | error e => simp [hc] at hop
    | ok c =>
      simp only [hc] at hop
      cases hloop : List.foldlM (buildFluxOperator.bdrBody f usePenalty opts n)
          ((BilinearForm.new fes).AddInteriorFaceIntegrator
            (FaceIntegrator.maxwellDGTrace n c.alpha c.beta))
          model.getBoundaryToMarker with
      | error e => simp [hloop] at hop
      | ok out =>
        simp only [hloop, pure, Except.pure, Except.ok.injEq] at hop
        obtain ⟨added, h2, h3, h6, h7⟩ := bdrLoop_ok f usePenalty opts n _ _ out hloop
        subst hop
        refine ⟨n, c, hlen, hunit, ?_, ?_, ?_, ?_, rfl, rfl⟩
        · simpa [buildFluxOperator.interiorCoefficient] using hc
        · simp [BilinearForm.Assemble, BilinearForm.Finalize, h3, BilinearForm.new,
            BilinearForm.AddInteriorFaceIntegrator]
        · have hadded : out.Assemble.Finalize.bdrFaceIntegrators = added := by
            simp [BilinearForm.Assemble, BilinearForm.Finalize, h6, BilinearForm.new,
              BilinearForm.AddInteriorFaceIntegrator]
          rw [hadded]
          simpa [buildFluxOperator.boundaryCoefficient] using h7
        · simp [BilinearForm.Assemble, BilinearForm.Finalize, h2, BilinearForm.new,
            BilinearForm.AddInteriorFaceIntegrator]
  · intro hf hmodel hopts
    obtain ⟨op, _, _, hop, _⟩ :=
      buildFluxOperator_recognized fes d hd f hf usePenalty model hmodel opts hopts
    exact ⟨op, hop⟩

/-- Witness of C15: over the two-dimensional sample space and the sample model (PEC and
SMA boundaries), the non-penalty flux operator of `H` along `X` is returned with one
interior-face integrator and two boundary-face integrators: normal `(1, 0)`, weights
`(1, 0)` inside, `(2, 0)` on the PEC boundary and `(1, 0)` on the SMA boundary. -/
theorem buildFluxOperator_integrators_witness :
    (∃ op, buildFluxOperator FieldType.H X false sampleModel sampleFes2D { }
        = Except.ok op
      ∧ op.interiorFaceIntegrators.length = 1
      ∧ op.bdrFaceIntegrators.length = 2)
    ∧ buildFluxOperator FieldType.H X false sampleModel sampleFes2D { }
        = Except.ok
            { fes := sampleFes2D, domainIntegrators := [],
              interiorFaceIntegrators := [FaceIntegrator.maxwellDGTrace [1, 0] 1 0],
              bdrFaceIntegrators :=
                [(FaceIntegrator.maxwellDGTrace [1, 0] 2 0, [1, 0]),
                 (FaceIntegrator.maxwellDGTrace [1, 0] 1 0, [0, 1])],
              assembled := true, finalized := true } := by
  constructor
  · have hthm := buildFluxOperator_integrators sampleFes2D X (by decide) FieldType.H false
      sampleModel { }
    obtain ⟨op, hop⟩ := hthm.2 (Or.inr rfl)
      (by simp [sampleModel, Model.getBoundaryToMarker]) (by simp)
    obtain ⟨n, c, _, _, _, hint, hbdr, _⟩ := hthm.1 op hop
    refine ⟨op, hop, by simp [hint], ?_⟩
    have hlen := hbdr.length_eq
    simpa [sampleModel, Model.getBoundaryToMarker] using hlen.symm
  · rfl

/-- C16, as stated, fails: over a model that registers a boundary whose condition is
none of PEC, PMC, SMA, `buildFluxOperator` returns the form without integrator for the
direction `Z` on a two-dimensional mesh, and under the Centered flux with the penalty
flag returns a form for the direction `X` with weights `(0, 0)` on that boundary. -/
theorem buildFluxOperator_returns_on_unrecognized_boundary :
    buildFluxOperator FieldType.E Z false unrecognizedModel sampleFes2D
        { fluxType := FluxType.Upwind }
      = Except.ok
          { fes := sampleFes2D, domainIntegrators := [], interiorFaceIntegrators := [],
            bdrFaceIntegrators := [], assembled := true, finalized := true }
    ∧ buildFluxOperator FieldType.E X true unrecognizedModel sampleFes2D
        { fluxType := FluxType.Centered }
      = Except.ok
          { fes := sampleFes2D, domainIntegrators := [],
            interiorFaceIntegrators := [FaceIntegrator.maxwellDGTrace [1, 0] 0 0],
            bdrFaceIntegrators :=
              [(FaceIntegrator.maxwellDGTrace [1, 0] 0 0, [1, 0]),
               (FaceIntegrator.maxwellDGTrace [1, 0] 0 0, [0, 1])],
            assembled := true, finalized := true } :=
  ⟨rfl, rfl⟩

/-- C16, amended: for every field and every direction below the mesh dimension,
`buildFluxOperator` throws whenever the model registers a boundary whose condition is
none of PEC, PMC, SMA, unless penalty coefficients are asked for under the Centered
flux; in that case it returns a form, the boundary condition not being looked at, and
for a direction that is not below the mesh dimension it returns the form without
integrator whatever the model registers. -/
theorem buildFluxOperator_unrecognized_boundary (fes : FiniteElementSpace) (d : Direction)
    (f : FieldType) (usePenalty : Bool) (model : Model) (opts : MaxwellEvolOptions) :
    (d < fes.mesh.dimension →
      (∃ kv ∈ model.getBoundaryToMarker, ∃ raw, kv.1 = BdrCond.other raw) →
      ¬ (usePenalty = true ∧ opts.fluxType = FluxType.Centered) →
      ∃ msg, buildFluxOperator f d usePenalty model fes opts = Except.error msg)
    ∧ (d < fes.mesh.dimension → usePenalty = true → opts.fluxType = FluxType.Centered →
      ∃ op, buildFluxOperator f d usePenalty model fes opts = Except.ok op)
    ∧ (fes.mesh.dimension ≤ d →
      buildFluxOperator f d usePenalty model fes opts
        = Except.ok
            { fes := fes, domainIntegrators := [], interiorFaceIntegrators := [],
              bdrFaceIntegrators := [], assembled := true, finalized := true }) := by
  refine ⟨?_, ?_, ?_⟩
  · intro hd hex hnot
    obtain ⟨n, hn, _, _⟩ := buildNVector_unit d fes hd
    have hnd : ¬ d ≥ fes.mesh.dimension := Nat.not_le.mpr hd
    obtain ⟨kv, hkv, raw, hraw⟩ := hex
    obtain ⟨ft⟩ := opts
    cases usePenalty with
    | false =>
      have hloop := foldlM_fails
        (buildFluxOperator.bdrBody f false { fluxType := ft } n) model.getBoundaryToMarker
        ⟨kv, hkv, fun s => ⟨"No defined BdrCond.", by
          simp [buildFluxOperator.bdrBody, buildFluxOperator.boundaryCoefficient, hraw,
            boundaryFluxCoefficient, boundaryFluxCoefficient.caseDefault, bind,
            Except.bind]⟩⟩
      obtain ⟨e, he⟩ := hloop ((BilinearForm.new fes).AddInteriorFaceIntegrator
        (FaceIntegrator.maxwellDGTrace n interiorFluxCoefficient.alpha
          interiorFluxCoefficient.beta))
      refine ⟨e, ?_⟩
      simp only [buildFluxOperator, hnd, if_false, bind, Except.bind, hn,
        buildFluxOperator.interiorCoefficient, Bool.false_eq_true, he]
    | true =>
      cases ft with
      | Centered => exact absurd ⟨rfl, rfl⟩ hnot
      | Upwind =>
        have hloop := foldlM_fails
          (buildFluxOperator.bdrBody f true { fluxType := FluxType.Upwind } n)
          model.getBoundaryToMarker
          ⟨kv, hkv, fun s => ⟨"No defined BdrCond.", by
            simp [buildFluxOperator.bdrBody, buildFluxOperator.boundaryCoefficient, hraw,
              boundaryPenaltyFluxCoefficient, boundaryPenaltyFluxCoefficient.caseDefaultBdr,
              bind, Except.bind]⟩⟩
        obtain ⟨e, he⟩ := hloop ((BilinearForm.new fes).AddInteriorFaceIntegrator
          (FaceIntegrator.maxwellDGTrace n 0 (1 / 2)))
        refine ⟨e, ?_⟩
        simp only [buildFluxOperator, hnd, if_false, bind, Except.bind, hn,
          buildFluxOperator.interiorCoefficient, if_true, interiorPenaltyFluxCoefficient, he]
      | other raw2 =>
        refine ⟨"No defined FluxType.", ?_⟩
        simp only [buildFluxOperator, hnd, if_false, bind, Except.bind, hn,
          buildFluxOperator.interiorCoefficient, if_true, interiorPenaltyFluxCoefficient]
  · intro hd hpen hflux
    obtain ⟨n, hn, _, _⟩ := buildNVector_unit d fes hd
    have hnd : ¬ d ≥ fes.mesh.dimension := Nat.not_le.mpr hd
    obtain ⟨ft⟩ := opts
    simp only at hflux
    subst hflux
    subst hpen
    obtain ⟨out, _, hrun, _⟩ :=
      bdrLoop_returns f true { fluxType := FluxType.Centered } n model.getBoundaryToMarker
        ((BilinearForm.new fes).AddInteriorFaceIntegrator
          (FaceIntegrator.maxwellDGTrace n 0 0))
        (fun kv _ => ⟨_, rfl⟩)
    refine ⟨out.Assemble.Finalize, ?_⟩
    simp only [buildFluxOperator, hnd, if_false, bind, Except.bind, hn,
      buildFluxOperator.interiorCoefficient, if_true, interiorPenaltyFluxCoefficient, hrun,
      pure, Except.pure]
  · intro hd
    simp [buildFluxOperator, hd, BilinearForm.new, BilinearForm.Assemble,
      BilinearForm.Finalize]

/-- Witness of C16: over the two-dimensional sample space and the model with an
unrecognized boundary, the non-penalty flux operator of `E` along `X` is not built:
`buildFluxOperator` throws. -/
theorem buildFluxOperator_unrecognized_boundary_witness :
    X < sampleFes2D.mesh.dimension
    ∧ (∃ kv ∈ unrecognizedModel.getBoundaryToMarker, ∃ raw, kv.1 = BdrCond.other raw)
    ∧ ∃ msg, buildFluxOperator FieldType.E X false unrecognizedModel sampleFes2D { }
        = Except.error msg :=
  ⟨by decide, ⟨(BdrCond.other 0, [0, 1]), by simp [unrecognizedModel,
      Model.getBoundaryToMarker], 0, rfl⟩,
    (buildFluxOperator_unrecognized_boundary sampleFes2D X FieldType.E false
      unrecognizedModel { }).1 (by decide)
      ⟨(BdrCond.other 0, [0, 1]), by simp [unrecognizedModel, Model.getBoundaryToMarker],
        0, rfl⟩
      (by simp)⟩

/-! ## Dimension and option checks -/

/-- C19: `Solver::checkOptionsAreValid` throws exactly when the mesh dimension is not 2,
or `order < 0`, or `t_final < 0`, or `dt < 0`, or `vis_steps < 1`, or `precision < 1`;
and when it throws, the constructor of `Solver` throws the same exception with every
member as it was before the body ran: nothing is assigned, no operator is built. -/
theorem Solver_rejects_invalid_options (opts : Solver.Options) (mesh : Mesh) :
    ((∃ msg, Solver.checkOptionsAreValid opts mesh = Except.error msg)
      ↔ (mesh.dimension ≠ 2 ∨ opts.order < 0 ∨ opts.t_final < 0 ∨ opts.dt < 0
          ∨ opts.vis_steps < 1 ∨ opts.precision < 1))
    ∧ (∀ msg, Solver.checkOptionsAreValid opts mesh = Except.error msg →
        Solver.new opts mesh = (Solver.initial, Except.error msg)) := by
  constructor
  · by_cases hdim : mesh.dimension ≠ 2
    · simp [Solver.checkOptionsAreValid, hdim]
    · by_cases hopt : opts.order < 0 ∨ opts.t_final < 0 ∨ opts.dt < 0 ∨ opts.vis_steps < 1
          ∨ opts.precision < 1
      · simp [Solver.checkOptionsAreValid, hdim, hopt]
      · simp [Solver.checkOptionsAreValid, hdim, hopt]
  · intro msg hmsg
    simp [Solver.new, hmsg]

/-- Witness of C19: on a two-dimensional mesh the options with `dt = -1` are rejected,
and the constructor of `Solver` throws with no member assigned. -/
theorem Solver_rejects_invalid_options_witness :
    Solver.checkOptionsAreValid negativeDtOptions { dimension := 2 }
        = Except.error "Incorrect parameters in Options"
    ∧ Solver.new negativeDtOptions { dimension := 2 }
        = (Solver.initial, Except.error "Incorrect parameters in Options") :=
  ⟨by simp [Solver.checkOptionsAreValid, negativeDtOptions],
    (Solver_rejects_invalid_options negativeDtOptions { dimension := 2 }).2
      "Incorrect parameters in Options"
      (by simp [Solver.checkOptionsAreValid, negativeDtOptions])⟩

/-! ## Duality of the boundary coefficients -/

/-- C25: whenever `altField` returns, that is for the fields `E` and `H`, the boundary
coefficient of a field under PEC is that of the other field under PMC and conversely,
and under SMA the two fields have the same coefficient; the same holds for the penalty
coefficients under every flux type. -/
theorem boundary_coefficients_dual (f g : FieldType) (h : altField f = Except.ok g) :
    boundaryFluxCoefficient f BdrCond.PEC = boundaryFluxCoefficient g BdrCond.PMC
    ∧ boundaryFluxCoefficient f BdrCond.PMC = boundaryFluxCoefficient g BdrCond.PEC
    ∧ boundaryFluxCoefficient f BdrCond.SMA = boundaryFluxCoefficient g BdrCond.SMA
    ∧ ∀ opts : MaxwellEvolOptions,
        boundaryPenaltyFluxCoefficient f BdrCond.PEC opts
          = boundaryPenaltyFluxCoefficient g BdrCond.PMC opts
        ∧ boundaryPenaltyFluxCoefficient f BdrCond.PMC opts
          = boundaryPenaltyFluxCoefficient g BdrCond.PEC opts
        ∧ boundaryPenaltyFluxCoefficient f BdrCond.SMA opts
          = boundaryPenaltyFluxCoefficient g BdrCond.SMA opts := by
  cases f with
  | E =>
    simp only [altField, Except.ok.injEq] at h
    subst h
    refine ⟨rfl, rfl, rfl, ?_⟩
    intro opts
    obtain ⟨ft⟩ := opts
    cases ft <;> exact ⟨rfl, rfl, rfl⟩
  | H =>
    simp only [altField, Except.ok.injEq] at h
    subst h
    refine ⟨rfl, rfl, rfl, ?_⟩
    intro opts
    obtain ⟨ft⟩ := opts
    cases ft <;> exact ⟨rfl, rfl, rfl⟩
  | other raw => simp [altField] at h

/-- Witness of C25: `altField` maps `E` to `H`, and the coefficient of `E` under PEC is
that of `H` under PMC, `(0, 0)`. -/
theorem boundary_coefficients_dual_witness :
    altField FieldType.E = Except.ok FieldType.H
    ∧ boundaryFluxCoefficient FieldType.E BdrCond.PEC
        = boundaryFluxCoefficient FieldType.H BdrCond.PMC
    ∧ boundaryFluxCoefficient FieldType.H BdrCond.PMC
        = Except.ok { alpha := 0, beta := 0 } :=
  ⟨rfl, (boundary_coefficients_dual FieldType.E FieldType.H rfl).1, rfl⟩

/-! ## The constructor of `Solver` -/

/-- C27 (defect of the code): on options that the check accepts and a two-dimensional
mesh the constructor of `Solver` does not complete: the call of line 22 throws, because
`buildDerivativeOperators` compares addresses, and `Kx_` and `Ky_` are left null. No
call of the constructor completes or assigns `Kx_`, and whatever the function called at
lines 22 and 23 returns, `Ky_` is never assigned, both lines assigning `Kx_`. -/
theorem Solver_constructor_leaves_Ky_null :
    Solver.checkOptionsAreValid validOptions { dimension := 2 } = Except.ok ()
    ∧ Solver.new validOptions { dimension := 2 }
        = ({ mesh_ := some { dimension := 2 }, opts_ := some validOptions, fes_ := none,
             Kx_ := none, Ky_ := none, MInv_ := none },
           Except.error "Incorrect argument for direction in buildDerivativeOperators()")
    ∧ (∀ opts mesh, (Solver.new opts mesh).1.Kx_ = none
        ∧ (Solver.new opts mesh).1.Ky_ = none
        ∧ ∃ msg, (Solver.new opts mesh).2 = Except.error msg)
    ∧ (∀ opts mesh, Solver.new opts mesh
        = Solver.newWith Solver.buildDerivativeOperators opts mesh)
    ∧ (∀ build opts mesh, (Solver.newWith build opts mesh).1.Ky_ = none) := by
  have hcheck : Solver.checkOptionsAreValid validOptions { dimension := 2 } = Except.ok () := by
    simp [Solver.checkOptionsAreValid, validOptions]
  have hbuild : ∀ (s : Solver) (c : Char), Solver.buildDerivativeOperators s c
      = Except.error "Incorrect argument for direction in buildDerivativeOperators()" := by
    intro s c
    simp [Solver.buildDerivativeOperators, Solver.addressEqualsLiteral, bind, Except.bind]
  refine ⟨hcheck, ?_, ?_, fun _ _ => rfl, ?_⟩
  · simp [Solver.new, hcheck, hbuild, Solver.initial]
  · intro opts mesh
    cases hc : Solver.checkOptionsAreValid opts mesh with
    | error e => simp [Solver.new, hc, Solver.initial]
    | ok u => simp [Solver.new, hc, hbuild, Solver.initial]
  · intro build opts mesh
    simp only [Solver.newWith, Solver.initial]
    split
    · rfl
    · split
      · rfl
      · split
        · rfl
        · simp [Solver.buildMassMatrix]

/-! ## Termination of the time loop -/

/-- The loop returns the state it is given when `done` holds, whatever the fuel. -/
theorem runLoop_done (mult : BilinearForm → Buffer → Buffer) (opts : Solver.Options)
    (s : Solver) (fuel : Nat) (st : RunState) (h : st.done = true) :
    Solver.runLoop mult opts s fuel st = some (Except.ok st) := by
  cases fuel <;> simp [Solver.runLoop, h]

/-- A pass that returns has added `dt` to `time` and one to `cycle`, which was below
`INT_MAX`, and has set `done` by the comparison of line 161. -/
theorem runCycle_ok (mult : BilinearForm → Buffer → Buffer) (opts : Solver.Options)
    (s : Solver) (st st2 : RunState)
    (h : Solver.runCycle mult opts s st = Except.ok st2) :
    st2.time = st.time + opts.dt ∧ st2.cycle = st.cycle + 1 ∧ st.cycle < INT_MAX
      ∧ st2.done
        = decide (st.time + opts.dt ≥ opts.t_final - (1 / 100000000) * opts.dt) := by
  have hsave : ∀ a b : RunState, Solver.save a = Except.ok b →
      b.time = a.time ∧ b.cycle = a.cycle ∧ b.done = a.done := by
    intro a b hab
    simp only [Solver.save] at hab
    split at hab
    · cases hab
    · simp only [Except.ok.injEq] at hab
      subst hab
      exact ⟨rfl, rfl, rfl⟩
  simp only [Solver.runCycle] at h
  split at h
  · cases h
  · split at h
    · cases h
    · split at h
      · cases h
      · split at h
        · cases h
        · rename_i hc
          have hlt : st.cycle < INT_MAX := Nat.not_le.mp hc
          split at h
          · obtain ⟨h1, h2, h3⟩ := hsave _ _ h
            exact ⟨h1, h2, hlt, h3⟩
          · split at h
            · cases h
            · split at h
              · obtain ⟨h1, h2, h3⟩ := hsave _ _ h
                exact ⟨h1, h2, hlt, h3⟩
              · simp only [Except.ok.injEq] at h
                subst h
                exact ⟨rfl, rfl, hlt, rfl⟩

/-- On an object whose pointers `Kx_`, `Ky_`, `MInv_` and `pd_` are set, with a nonzero
`vis_steps`, a pass that starts below `INT_MAX` returns, and `pd_` stays set. -/
theorem runCycle_returns (mult : BilinearForm → Buffer → Buffer) (opts : Solver.Options)
    (s : Solver) (st : RunState) (hKx : s.Kx_ ≠ none) (hKy : s.Ky_ ≠ none)
    (hMInv : s.MInv_ ≠ none) (hpd : st.fields.pd_ ≠ none) (hvis : opts.vis_steps ≠ 0)
    (hc : st.cycle < INT_MAX) :
    ∃ st2, Solver.runCycle mult opts s st = Except.ok st2 ∧ st2.fields.pd_ ≠ none := by
  obtain ⟨kx, hkx⟩ := Option.ne_none_iff_exists'.mp hKx
  obtain ⟨ky, hky⟩ := Option.ne_none_iff_exists'.mp hKy
  obtain ⟨mInv, hmInv⟩ := Option.ne_none_iff_exists'.mp hMInv
  obtain ⟨saved, hsaved⟩ := Option.ne_none_iff_exists'.mp hpd
  have hsave : ∀ a : RunState, a.fields.pd_ = some saved →
      ∃ b, Solver.save a = Except.ok b ∧ b.fields.pd_ ≠ none := by
    intro a ha
    simp only [Solver.save, ha]
    exact ⟨_, rfl, by simp⟩
  simp only [Solver.runCycle, hkx, hky, hmInv, if_neg (Nat.not_le.mpr hc), if_neg hvis]
  split
  · exact hsave _ hsaved
  · split
    · exact hsave _ hsaved
    · exact ⟨_, rfl, by simp [hsaved]⟩

/-- From the state reached after `k` passes, when the pass `n = k + j` is the first to
reach the final time and `n` is at most `INT_MAX`, on an object whose pointers are set
the loop is left after pass `n` given fuel for `j` passes, and not before. -/
theorem runLoop_reaches (mult : BilinearForm → Buffer → Buffer) (opts : Solver.Options)
    (s : Solver) (hKx : s.Kx_ ≠ none) (hKy : s.Ky_ ≠ none) (hMInv : s.MInv_ ≠ none)
    (hvis : opts.vis_steps ≠ 0) (n : Nat) (hmax : n ≤ INT_MAX)
    (hn : (n : ℚ) * opts.dt ≥ opts.t_final - (1 / 100000000) * opts.dt)
    (hmin : ∀ m, 1 ≤ m → m < n →
      (m : ℚ) * opts.dt < opts.t_final - (1 / 100000000) * opts.dt) :
    ∀ (j fuel : Nat) (st : RunState), st.cycle + j = n → 1 ≤ j →
      st.time = (st.cycle : ℚ) * opts.dt → st.done = false → st.fields.pd_ ≠ none →
      (j ≤ fuel → ∃ st2, Solver.runLoop mult opts s fuel st = some (Except.ok st2)
          ∧ st2.time = (n : ℚ) * opts.dt ∧ st2.cycle = n ∧ st2.done = true)
      ∧ (fuel < j → Solver.runLoop mult opts s fuel st = none) := by
  intro j
  induction j with
  | zero => intro fuel st _ h1; omega
  | succ j ih =>
    intro fuel st hk _ htime hdone hpd
    obtain ⟨st2, hst2, hpd2⟩ := runCycle_returns mult opts s st hKx hKy hMInv hpd hvis
      (by omega)
    obtain ⟨ht2, hc2, _, hd2⟩ := runCycle_ok mult opts s st st2 hst2
    have htime2 : st2.time = (st2.cycle : ℚ) * opts.dt := by
      rw [ht2, hc2, htime]
      push_cast
      ring
    rw [← ht2, htime2] at hd2
    cases fuel with
    | zero =>
      constructor
      · intro hle; omega
      · intro _; simp [Solver.runLoop, hdone]
    | succ f =>
      have hstep : Solver.runLoop mult opts s (f + 1) st
          = Solver.runLoop mult opts s f st2 := by
        simp only [Solver.runLoop, hdone, Bool.false_eq_true, if_false, hst2]
      rw [hstep]
      by_cases hj : j = 0
      · have hkn : st2.cycle = n := by omega
        rw [hkn] at hd2 htime2
        have hdone2 : st2.done = true := by
          rw [hd2]
          exact decide_eq_true hn
        constructor
        · intro _
          exact ⟨st2, runLoop_done mult opts s f st2 hdone2, htime2, hkn, hdone2⟩
        · intro hlt; omega
      · have hlt := hmin st2.cycle (by omega) (by omega)
        have hdone2 : st2.done = false := by
          rw [hd2]
          exact decide_eq_false (not_le.mpr hlt)
        obtain ⟨h1, h2⟩ := ih f st2 (by omega) (by omega) htime2 hdone2 hpd2
        exact ⟨fun hle => h1 (by omega), fun hlt2 => h2 (by omega)⟩

/-- When no pass up to `INT_MAX` reaches the final time, the loop is never left with
`done`: it is still running, or `cycle++` has overflowed, or a pass has failed. -/
theorem runLoop_never_done (mult : BilinearForm → Buffer → Buffer) (opts : Solver.Options)
    (s : Solver)
    (hmin : ∀ m, 1 ≤ m → m ≤ INT_MAX →
      (m : ℚ) * opts.dt < opts.t_final - (1 / 100000000) * opts.dt) :
    ∀ (fuel : Nat) (st : RunState), st.time = (st.cycle : ℚ) * opts.dt →
      st.done = false → ∀ r, Solver.runLoop mult opts s fuel st ≠ some (Except.ok r) := by
  intro fuel
  induction fuel with
  | zero => intro st _ hdone r; simp [Solver.runLoop, hdone]
  | succ f ih =>
    intro st htime hdone r
    simp only [Solver.runLoop, hdone, Bool.false_eq_true, if_false]
    cases hcycle : Solver.runCycle mult opts s st with
    | error e => simp
    | ok st2 =>
      obtain ⟨ht2, hc2, hlt, hd2⟩ := runCycle_ok mult opts s st st2 hcycle
      have htime2 : st2.time = (st2.cycle : ℚ) * opts.dt := by
        rw [ht2, hc2, htime]
        push_cast
        ring
      rw [← ht2, htime2] at hd2
      have hnot := hmin st2.cycle (by omega) (by omega)
      have hdone2 : st2.done = false := by
        rw [hd2]
        exact decide_eq_false (not_le.mpr hnot)
      exact ih st2 htime2 hdone2 r

/-- The constructor leaves `fes_` null on every path, and `run()` on the members it
leaves fails at line 127, before the loop. -/
theorem run_on_constructed_members (mult : BilinearForm → Buffer → Buffer)
    (defaults opts : Solver.Options) (mesh : Mesh) (fields : Solver.Fields) (fuel : Nat) :
    (Solver.new opts mesh).1.fes_ = none
    ∧ Solver.run mult defaults (Solver.new opts mesh).1 fields fuel
        = some (Except.error "null fes_") := by
  have hbuild : ∀ (s : Solver) (c : Char), Solver.buildDerivativeOperators s c
      = Except.error "Incorrect argument for direction in buildDerivativeOperators()" := by
    intro s c
    simp [Solver.buildDerivativeOperators, Solver.addressEqualsLiteral, bind, Except.bind]
  have hfes : (Solver.new opts mesh).1.fes_ = none := by
    cases hc : Solver.checkOptionsAreValid opts mesh with
    | error e => simp [Solver.new, hc, Solver.initial]
    | ok u => simp [Solver.new, hc, hbuild, Solver.initial]
  exact ⟨hfes, by simp only [Solver.run, hfes]⟩

/-- C26, as stated, fails: the options with `dt = 0` and `t_final = 1` are accepted by
`checkOptionsAreValid`, no cycle `n` has `n * dt ≥ t_final - 1e-8 * dt`, and on no object
that holds these options is the loop of `Solver::run` left with `done`, whatever its
other members and the number of passes. The options with `dt = 1e-10` and `t_final = 1`
are accepted too, and on no object that holds them is the loop left with `done`: no
cycle up to `INT_MAX` reaches the final time. -/
theorem run_does_not_stop_with_zero_dt :
    Solver.checkOptionsAreValid zeroDtOptions { dimension := 2 } = Except.ok ()
    ∧ (¬ ∃ n : Nat, (n : ℚ) * zeroDtOptions.dt
          ≥ zeroDtOptions.t_final - (1 / 100000000) * zeroDtOptions.dt)
    ∧ (∀ (mult : BilinearForm → Buffer → Buffer) (defaults : Solver.Options) (s : Solver)
        (fields : Solver.Fields) (fuel : Nat) (st : RunState),
        s.opts_ = some zeroDtOptions →
        Solver.run mult defaults s fields fuel ≠ some (Except.ok st))
    ∧ Solver.checkOptionsAreValid tinyDtOptions { dimension := 2 } = Except.ok ()
    ∧ ∀ (mult : BilinearForm → Buffer → Buffer) (defaults : Solver.Options) (s : Solver)
        (fields : Solver.Fields) (fuel : Nat) (st : RunState),
        s.opts_ = some tinyDtOptions →
        Solver.run mult defaults s fields fuel ≠ some (Except.ok st) := by
  have hlt : ∀ m : Nat, (m : ℚ) * zeroDtOptions.dt
      < zeroDtOptions.t_final - (1 / 100000000) * zeroDtOptions.dt := by
    intro m
    simp [zeroDtOptions]
  have htiny : ∀ m : Nat, m ≤ INT_MAX → (m : ℚ) * tinyDtOptions.dt
      < tinyDtOptions.t_final - (1 / 100000000) * tinyDtOptions.dt := by
    intro m hm
    have hq : (m : ℚ) ≤ 2147483647 := by exact_mod_cast hm
    simp only [tinyDtOptions]
    linarith
  refine ⟨by simp [Solver.checkOptionsAreValid, zeroDtOptions], ?_, ?_,
    by simp [Solver.checkOptionsAreValid, tinyDtOptions], ?_⟩
  · rintro ⟨n, hn⟩
    exact absurd hn (not_le.mpr (hlt n))
  · intro mult defaults s fields fuel st hopts
    simp only [Solver.run, hopts, Option.getD_some]
    split
    · simp
    · exact runLoop_never_done mult zeroDtOptions s (fun m _ _ => hlt m) fuel _
        (by simp) rfl st
  · intro mult defaults s fields fuel st hopts
    simp only [Solver.run, hopts, Option.getD_some]
    split
    · simp
    · exact runLoop_never_done mult tinyDtOptions s (fun m _ hm => htiny m hm) fuel _
        (by simp) rfl st

/-- C26, amended: on an object that holds options accepted by `checkOptionsAreValid` and
whose pointers `fes_`, `Kx_`, `Ky_`, `MInv_` and `pd_` are set, when the time step is
positive or the final time is zero there is a first cycle `n ≥ 1` with
`n * dt ≥ t_final - 1e-8 * dt`; if `n` is at most `INT_MAX` the loop of `Solver::run`
makes exactly `n` passes and is left with `time = n * dt` and `cycle = n`, and if `n` is
above `INT_MAX` the loop is never left with `done`, `cycle++` overflowing first. For
accepted options with a zero time step and a positive final time the loop is never left
with `done`. -/
theorem run_stops (mult : BilinearForm → Buffer → Buffer) (defaults : Solver.Options)
    (s : Solver) (fields : Solver.Fields) (opts : Solver.Options) (mesh : Mesh)
    (hopts : s.opts_ = some opts)
    (hvalid : Solver.checkOptionsAreValid opts mesh = Except.ok ())
    (hfes : s.fes_ ≠ none) (hKx : s.Kx_ ≠ none) (hKy : s.Ky_ ≠ none)
    (hMInv : s.MInv_ ≠ none) (hpd : fields.pd_ ≠ none) :
    ((0 < opts.dt ∨ opts.t_final = 0) →
      ∃ n : Nat, 1 ≤ n
        ∧ (n : ℚ) * opts.dt ≥ opts.t_final - (1 / 100000000) * opts.dt
        ∧ (∀ m : Nat, 1 ≤ m → m < n →
            (m : ℚ) * opts.dt < opts.t_final - (1 / 100000000) * opts.dt)
        ∧ (n ≤ INT_MAX →
            (∀ fuel, n ≤ fuel →
              ∃ st, Solver.run mult defaults s fields fuel = some (Except.ok st)
                ∧ st.time = (n : ℚ) * opts.dt ∧ st.cycle = n ∧ st.done = true)
            ∧ ∀ fuel, fuel < n → Solver.run mult defaults s fields fuel = none)
        ∧ (INT_MAX < n →
            ∀ fuel st, Solver.run mult defaults s fields fuel ≠ some (Except.ok st)))
    ∧ (opts.dt = 0 → 0 < opts.t_final →
      ∀ fuel st, Solver.run mult defaults s fields fuel ≠ some (Except.ok st)) := by
  have hfields : ¬ (opts.order < 0 ∨ opts.t_final < 0 ∨ opts.dt < 0 ∨ opts.vis_steps < 1
      ∨ opts.precision < 1) := by
    intro hbad
    by_cases hdim : mesh.dimension ≠ 2 <;>
      simp [Solver.checkOptionsAreValid, hdim, hbad] at hvalid
  have hvis : opts.vis_steps ≠ 0 := by
    intro h0
    exact hfields (Or.inr (Or.inr (Or.inr (Or.inl (by omega)))))
  obtain ⟨fes, hfes2⟩ := Option.ne_none_iff_exists'.mp hfes
  have hrun : ∀ fuel, Solver.run mult defaults s fields fuel
      = Solver.runLoop mult opts s fuel
          { time := 0, cycle := 0, done := false, fields := fields } := by
    intro fuel
    simp only [Solver.run, hfes2, hopts, Option.getD_some]
  constructor
  · intro hcase
    have hex : ∃ n : Nat, 1 ≤ n
        ∧ (n : ℚ) * opts.dt ≥ opts.t_final - (1 / 100000000) * opts.dt := by
      rcases hcase with hpos | hzero
      · obtain ⟨q, hq⟩ := exists_nat_ge ((opts.t_final - (1 / 100000000) * opts.dt) / opts.dt)
        refine ⟨q + 1, by omega, ?_⟩
        have h1 : opts.t_final - (1 / 100000000) * opts.dt ≤ (q : ℚ) * opts.dt :=
          (div_le_iff₀ hpos).mp hq
        push_cast
        nlinarith
      · have hdt0 : 0 ≤ opts.dt := by
          by_contra hneg
          exact hfields (Or.inr (Or.inr (Or.inl (not_le.mp hneg))))
        refine ⟨1, le_refl 1, ?_⟩
        rw [hzero]
        push_cast
        nlinarith
    classical
    let n := Nat.find hex
    have hn : 1 ≤ n ∧ (n : ℚ) * opts.dt ≥ opts.t_final - (1 / 100000000) * opts.dt :=
      Nat.find_spec hex
    have hmin : ∀ m : Nat, 1 ≤ m → m < n →
        (m : ℚ) * opts.dt < opts.t_final - (1 / 100000000) * opts.dt := by
      intro m hm1 hmn
      have hnot := Nat.find_min hex hmn
      by_contra hge
      exact hnot ⟨hm1, not_lt.mp hge⟩
    refine ⟨n, hn.1, hn.2, hmin, ?_, ?_⟩
    · intro hmax
      have hreach := fun fuel => runLoop_reaches mult opts s hKx hKy hMInv hvis n hmax hn.2
        hmin n fuel { time := 0, cycle := 0, done := false, fields := fields }
        (by simp) hn.1 (by simp) rfl hpd
      constructor
      · intro fuel hfuel
        rw [hrun]
        exact (hreach fuel).1 hfuel
      · intro fuel hfuel
        rw [hrun]
        exact (hreach fuel).2 hfuel
    · intro hmax fuel st
      rw [hrun]
      exact runLoop_never_done mult opts s (fun m hm1 hm2 => hmin m hm1 (by omega)) fuel _
        (by simp) rfl st
  · intro hdt ht fuel st
    rw [hrun]
    refine runLoop_never_done mult opts s ?_ fuel _ (by simp) rfl st
    intro m _ _
    rw [hdt]
    simpa using ht

/-- Witness of C26: on the object with every pointer set that holds the accepted options
with `t_final = 1` and `dt = 1/10`, the loop is left after a first cycle `n` with
`n / 10 ≥ 1 - 1e-9`, and `n` is at most `INT_MAX` since the tenth cycle reaches the
final time. -/
theorem run_stops_witness :
    Solver.checkOptionsAreValid validOptions { dimension := 2 } = Except.ok ()
    ∧ ∃ n : Nat, 1 ≤ n ∧ n ≤ 10
        ∧ (n : ℚ) * validOptions.dt
            ≥ validOptions.t_final - (1 / 100000000) * validOptions.dt
        ∧ ∀ fuel, n ≤ fuel →
            ∃ st, Solver.run (fun _ x => x) validOptions (builtSolver validOptions)
                sampleFields fuel = some (Except.ok st)
              ∧ st.time = (n : ℚ) * validOptions.dt ∧ st.cycle = n ∧ st.done = true := by
  have hvalid : Solver.checkOptionsAreValid validOptions { dimension := 2 } = Except.ok () := by
    simp [Solver.checkOptionsAreValid, validOptions]
  obtain ⟨n, h1, h2, h3, h4, _⟩ :=
    (run_stops (fun _ x => x) validOptions (builtSolver validOptions) sampleFields
      validOptions { dimension := 2 } rfl hvalid (by simp [builtSolver])
      (by simp [builtSolver]) (by simp [builtSolver]) (by simp [builtSolver])
      (by simp [sampleFields])).1 (Or.inl (by simp [validOptions]))
  have hle : n ≤ 10 := by
    by_contra hgt
    have h10 := h3 10 (by norm_num) (by omega)
    simp [validOptions] at h10
    norm_num at h10
  exact ⟨hvalid, n, h1, hle, h2, (h4 (by simp only [INT_MAX]; omega)).1⟩

/-! ## The expected jump matrix -/

/-- A loop whose body returns the state it is given returns the state it is given. -/
theorem foldlM_id {σ α : Type} (body : σ → α → Option σ) :
    ∀ (l : List α), (∀ a ∈ l, ∀ s, body s a = some s) → ∀ s, l.foldlM body s = some s := by
  intro l
  induction l with
  | nil => intro _ s; rfl
  | cons x xs ih =>
    intro h s
    simp only [List.foldlM, h x (by simp) s, Option.bind_eq_bind, Option.some_bind]
    exact ih (fun a ha => h a (List.mem_cons_of_mem x ha)) s

/-- The body of the innermost loop writes nothing unless `i` and `j` are both `order`. -/
theorem body_off_diagonal (order i j : Nat) (hj : j ≤ order)
    (hne : ¬ (i = order ∧ j = order)) (res : DenseMatrix) (it : Nat) :
    buildExpectedJumpDenseMatrix1D.body order i j res it = some res := by
  unfold buildExpectedJumpDenseMatrix1D.body
  rw [if_neg]
  rintro (⟨h1, h2⟩ | ⟨h1, h2⟩)
  · exact hne ⟨by omega, by omega⟩
  · omega

/-- For `i = j = order` the body of the innermost loop writes the block of the face `it`:
`1` on its diagonal, `-1` off it. -/
theorem body_at_order (order : Nat) (res : DenseMatrix) (it : Nat)
    (hh : lastNode order it + 1 < res.height) (hw : lastNode order it + 1 < res.width) :
    buildExpectedJumpDenseMatrix1D.body order order order res it
      = some { height := res.height, width := res.width,
               data := fun a b =>
                 if inFaceBlock order it a b then (if a = b then 1 else -1)
                 else res.data a b } := by
  have h1 : order + (order + 1) * it = lastNode order it := by
    simp only [lastNode]; omega
  have h2 : order + 1 + (order + 1) * it = lastNode order it + 1 := by
    simp only [lastNode]; omega
  have hh0 : lastNode order it < res.height := by omega
  have hw0 : lastNode order it < res.width := by omega
  unfold buildExpectedJumpDenseMatrix1D.body
  rw [if_pos (Or.inl ⟨rfl, rfl⟩)]
  simp only [h1, h2, DenseMatrix.setElem, hh0, hw0, hh, hw, and_self, if_true,
    Option.bind_eq_bind, Option.some_bind, Option.some.injEq]
  congr 1
  funext a b
  show _ = if (a = lastNode order it ∨ a = lastNode order it + 1)
      ∧ (b = lastNode order it ∨ b = lastNode order it + 1) then (if a = b then 1 else -1)
    else res.data a b
  generalize lastNode order it = r
  by_cases ha : a = r <;> by_cases ha1 : a = r + 1 <;>
    by_cases hb : b = r <;> by_cases hb1 : b = r + 1 <;>
    simp [ha, ha1, hb, hb1]

/-- The last index of the block of a face is inside the matrix. -/
theorem lastNode_succ_lt (order elements m : Nat) (hm : m < elements - 1) :
    lastNode order m + 1 < (order + 1) * elements := by
  have h1 : lastNode order m + 1 = (order + 1) * (m + 1) := by
    simp only [lastNode]; ring
  have h2 : (order + 1) * (m + 1) + (order + 1) = (order + 1) * (m + 2) := by ring
  have h3 : (order + 1) * (m + 2) ≤ (order + 1) * elements :=
    Nat.mul_le_mul_left _ (by omega)
  omega

/-- The innermost loop for `i = j = order`, run over the first `m` faces from the zero
matrix, leaves the jump pattern of these faces. -/
theorem loopIt_at_order (elements order : Nat) :
    ∀ m, m ≤ elements - 1 →
      (List.range m).foldlM (buildExpectedJumpDenseMatrix1D.body order order order)
          (DenseMatrix.square ((order + 1) * elements))
        = some { height := (order + 1) * elements, width := (order + 1) * elements,
                 data := jumpPattern order m } := by
  intro m
  induction m with
  | zero =>
    intro _
    rfl
  | succ m ih =>
    intro hm
    have hb := lastNode_succ_lt order elements m (by omega)
    rw [List.range_succ, List.foldlM_append, ih (by omega)]
    simp only [Option.bind_eq_bind, Option.some_bind, List.foldlM, Option.pure_def]
    rw [body_at_order order _ m hb hb]
    rfl

/-- The loop over `it` for indices `i`, `j` that are not both `order` writes nothing. -/
theorem bodyJ_off_diagonal (elements order i j : Nat) (hj : j ≤ order)
    (hne : ¬ (i = order ∧ j = order)) (res : DenseMatrix) :
    buildExpectedJumpDenseMatrix1D.bodyJ elements order i res j = some res :=
  foldlM_id _ _ (fun it _ s => body_off_diagonal order i j hj hne s it) res

/-- The loop over `j` for an index `i` below `order` writes nothing. -/
theorem bodyI_below_order (elements order i : Nat) (hi : i < order) (res : DenseMatrix) :
    buildExpectedJumpDenseMatrix1D.bodyI elements order res i = some res := by
  apply foldlM_id
  intro j hj s
  have hjle : j ≤ order := by
    have := List.mem_range'_1.mp hj
    omega
  exact bodyJ_off_diagonal elements order i j hjle (by omega) s

/-- What `buildExpectedJumpDenseMatrix1D` returns for an order of at least one: the
square matrix of size `(order + 1) * elements` that holds the jump pattern of the
`elements - 1` interior faces. -/
theorem buildExpectedJumpDenseMatrix1D_eq (elements order : Nat) (ho : 1 ≤ order) :
    buildExpectedJumpDenseMatrix1D elements order
      = some { height := (order + 1) * elements, width := (order + 1) * elements,
               data := jumpPattern order (elements - 1) } := by
  obtain ⟨p, rfl⟩ : ∃ p, order = p + 1 := ⟨order - 1, by omega⟩
  have hsplit : List.range' 1 (p + 1) = List.range' 1 p ++ [p + 1] := by
    rw [List.range'_concat]
    simp [Nat.add_comm]
  have hbelow : ∀ (body : DenseMatrix → Nat → Option DenseMatrix) (res : DenseMatrix),
      (∀ k, k < p + 1 → ∀ s, body s k = some s) →
      (List.range' 1 p).foldlM body res = some res := by
    intro body res hbody
    apply foldlM_id
    intro k hk s
    have := List.mem_range'_1.mp hk
    exact hbody k (by omega) s
  unfold buildExpectedJumpDenseMatrix1D
  rw [hsplit, List.foldlM_append,
    hbelow _ _ (fun k hk s => bodyI_below_order elements (p + 1) k hk s)]
  simp only [Option.bind_eq_bind, Option.some_bind, List.foldlM, Option.pure_def,
    Option.bind_some]
  unfold buildExpectedJumpDenseMatrix1D.bodyI
  rw [hsplit, List.foldlM_append,
    hbelow _ _ (fun k hk s =>
      bodyJ_off_diagonal elements (p + 1) (p + 1) k (by omega) (by omega) s)]
  simp only [Option.bind_eq_bind, Option.some_bind, List.foldlM, Option.pure_def,
    Option.bind_some]
  exact loopIt_at_order elements (p + 1) (elements - 1) (le_refl _)

/-- The jump pattern inside the block of one of its faces. -/
theorem jumpPattern_block (order : Nat) :
    ∀ faces k a b, k < faces → inFaceBlock order k a b →
      jumpPattern order faces a b = if a = b then 1 else -1 := by
  intro faces
  induction faces with
  | zero => intro k a b hk; omega
  | succ faces ih =>
    intro k a b hk hblock
    simp only [jumpPattern]
    by_cases hin : inFaceBlock order faces a b
    · rw [if_pos hin]
    · rw [if_neg hin]
      have hne : k ≠ faces := by
        rintro rfl
        exact hin hblock
      exact ih k a b (by omega) hblock

/-- The jump pattern outside the blocks of its faces. -/
theorem jumpPattern_outside (order : Nat) :
    ∀ faces a b, (∀ k, k < faces → ¬ inFaceBlock order k a b) →
      jumpPattern order faces a b = 0 := by
  intro faces
  induction faces with
  | zero => intro a b _; rfl
  | succ faces ih =>
    intro a b hout
    simp only [jumpPattern]
    rw [if_neg (hout faces (by omega))]
    exact ih a b (fun k hk => hout k (by omega))

/-- C24: for every number of elements and every order of at least one,
`buildExpectedJumpDenseMatrix1D` returns, every index it writes lying inside the matrix,
the square matrix of size `(order + 1) * elements` whose entries are, for each face `k`
below `elements - 1` with `r = (order + 1) * k + order`: `(r, r) = 1`, `(r, r+1) = -1`,
`(r+1, r) = -1`, `(r+1, r+1) = 1`, and `0` everywhere else; for two elements the
entries that are not zero are exactly the four at the indices `order` and `order + 1`. -/
theorem buildExpectedJumpDenseMatrix1D_entries (elements order : Nat) (ho : 1 ≤ order) :
    ∃ res, buildExpectedJumpDenseMatrix1D elements order = some res
      ∧ res.height = (order + 1) * elements ∧ res.width = (order + 1) * elements
      ∧ (∀ k, k < elements - 1 →
          res.data (lastNode order k) (lastNode order k) = 1
          ∧ res.data (lastNode order k) (lastNode order k + 1) = -1
          ∧ res.data (lastNode order k + 1) (lastNode order k) = -1
          ∧ res.data (lastNode order k + 1) (lastNode order k + 1) = 1
          ∧ lastNode order k + 1 < (order + 1) * elements)
      ∧ (∀ a b, (∀ k, k < elements - 1 → ¬ inFaceBlock order k a b) → res.data a b = 0)
      ∧ (elements = 2 → ∀ a b,
          res.data a b ≠ 0 ↔ (a = order ∨ a = order + 1) ∧ (b = order ∨ b = order + 1)) := by
  refine ⟨_, buildExpectedJumpDenseMatrix1D_eq elements order ho, rfl, rfl, ?_, ?_, ?_⟩
  · intro k hk
    refine ⟨?_, ?_, ?_, ?_, lastNode_succ_lt order elements k hk⟩
    · show jumpPattern order (elements - 1) _ _ = _
      rw [jumpPattern_block order _ k _ _ hk ⟨Or.inl rfl, Or.inl rfl⟩]
      simp
    · show jumpPattern order (elements - 1) _ _ = _
      rw [jumpPattern_block order _ k _ _ hk ⟨Or.inl rfl, Or.inr rfl⟩]
      simp
    · show jumpPattern order (elements - 1) _ _ = _
      rw [jumpPattern_block order _ k _ _ hk ⟨Or.inr rfl, Or.inl rfl⟩]
      simp
    · show jumpPattern order (elements - 1) _ _ = _
      rw [jumpPattern_block order _ k _ _ hk ⟨Or.inr rfl, Or.inr rfl⟩]
      simp
  · intro a b hout
    exact jumpPattern_outside order _ a b hout
  · intro he a b
    subst he
    have h0 : lastNode order 0 = order := by simp [lastNode]
    constructor
    · intro hne
      by_contra hnot
      apply hne
      apply jumpPattern_outside
      intro k hk hblock
      have hk0 : k = 0 := by omega
      subst hk0
      rw [inFaceBlock, h0] at hblock
      exact hnot hblock
    · intro hblock
      have hb : inFaceBlock order 0 a b := by
        rw [inFaceBlock, h0]
        exact hblock
      show jumpPattern order 1 a b ≠ 0
      rw [jumpPattern_block order 1 0 a b (by omega) hb]
      split <;> norm_num

/-- Witness of C24: for two elements of order one the matrix is returned with size 4 and
the entries `(1, 1) = 1`, `(1, 2) = -1`, `(2, 1) = -1`, `(2, 2) = 1`. -/
theorem buildExpectedJumpDenseMatrix1D_entries_witness :
    ∃ res, buildExpectedJumpDenseMatrix1D 2 1 = some res
      ∧ res.height = 4 ∧ res.width = 4
      ∧ res.data 1 1 = 1 ∧ res.data 1 2 = -1 ∧ res.data 2 1 = -1 ∧ res.data 2 2 = 1 := by
  obtain ⟨res, hres, hh, hw, hfaces, _, _⟩ :=
    buildExpectedJumpDenseMatrix1D_entries 2 1 (le_refl 1)
  have h := hfaces 0 (by decide)
  have h0 : lastNode 1 0 = 1 := by decide
  rw [h0] at h
  exact ⟨res, hres, hh, hw, h.1, h.2.1, h.2.2.1, h.2.2.2.1⟩

/-! ## The assembled matrices of the tests -/

/-- A loop whose passes each add to the matrix an amount that does not depend on the
matrix leaves the matrix it is given plus the sum of these amounts, with the same
size. -/
theorem foldl_adds {α : Type} (step : DenseMatrix → α → DenseMatrix)
    (c : α → Nat → Nat → ℚ)
    (hdata : ∀ mat x a b, (step mat x).data a b = mat.data a b + c x a b)
    (hsize : ∀ mat x, (step mat x).height = mat.height ∧ (step mat x).width = mat.width) :
    ∀ (l : List α) (mat : DenseMatrix),
      (∀ a b, (l.foldl step mat).data a b = mat.data a b + (l.map (fun x => c x a b)).sum)
      ∧ (l.foldl step mat).height = mat.height ∧ (l.foldl step mat).width = mat.width := by
  intro l
  induction l with
  | nil => intro mat; simp
  | cons x xs ih =>
    intro mat
    obtain ⟨h1, h2, h3⟩ := ih (step mat x)
    simp only [List.foldl_cons, List.map_cons, List.sum_cons]
    refine ⟨?_, by rw [h2, (hsize mat x).1], by rw [h3, (hsize mat x).2]⟩
    intro a b
    rw [h1, hdata]
    ring

/-- The loop of `Assemble()` over the elements adds `domainPart` to every entry and
keeps the size. -/
theorem assembleElement_loop (sp : Space1D) (L : LocalMatrices) (form : BilinearForm)
    (mat : DenseMatrix) :
    (∀ a b, ((List.range sp.elements).foldl (form.assembleElement sp L) mat).data a b
        = mat.data a b + sp.domainPart L form.domainIntegrators a b)
    ∧ ((List.range sp.elements).foldl (form.assembleElement sp L) mat).height = mat.height
    ∧ ((List.range sp.elements).foldl (form.assembleElement sp L) mat).width = mat.width :=
  foldl_adds (form.assembleElement sp L)
    (fun e a b => scatter (sp.elementVDofs e)
      (fun i j => (form.domainIntegrators.map (fun d => L.element d e i j)).sum) a b)
    (fun _ _ _ _ => rfl) (fun _ _ => ⟨rfl, rfl⟩) (List.range sp.elements) mat

/-- The pass of `Assemble()` on an interior face adds the sum of the amounts of the
interior-face integrators and keeps the size. -/
theorem assembleInteriorFace_adds (sp : Space1D) (L : LocalMatrices) (form : BilinearForm)
    (mat : DenseMatrix) (k : Nat) :
    (∀ a b, (form.assembleInteriorFace sp L mat k).data a b
        = mat.data a b + (form.interiorFaceIntegrators.map
            (fun fi => scatter (sp.faceVDofs k) (L.interiorFace fi k) a b)).sum)
    ∧ (form.assembleInteriorFace sp L mat k).height = mat.height
    ∧ (form.assembleInteriorFace sp L mat k).width = mat.width :=
  foldl_adds (fun mat fi => mat.AddSubMatrix (sp.faceVDofs k) (L.interiorFace fi k))
    (fun fi a b => scatter (sp.faceVDofs k) (L.interiorFace fi k) a b)
    (fun _ _ _ _ => rfl) (fun _ _ => ⟨rfl, rfl⟩) form.interiorFaceIntegrators mat

/-- The loop of `Assemble()` over the interior faces adds `interiorPart` to every entry
and keeps the size. -/
theorem assembleInteriorFace_loop (sp : Space1D) (L : LocalMatrices) (form : BilinearForm)
    (mat : DenseMatrix) :
    (∀ a b, ((List.range (sp.elements - 1)).foldl
          (form.assembleInteriorFace sp L) mat).data a b
        = mat.data a b + sp.interiorPart L form.interiorFaceIntegrators a b)
    ∧ ((List.range (sp.elements - 1)).foldl
          (form.assembleInteriorFace sp L) mat).height = mat.height
    ∧ ((List.range (sp.elements - 1)).foldl
          (form.assembleInteriorFace sp L) mat).width = mat.width :=
  foldl_adds (form.assembleInteriorFace sp L)
    (fun k a b => (form.interiorFaceIntegrators.map
      (fun fi => scatter (sp.faceVDofs k) (L.interiorFace fi k) a b)).sum)
    (fun mat k => (assembleInteriorFace_adds sp L form mat k).1)
    (fun mat k => (assembleInteriorFace_adds sp L form mat k).2)
    (List.range (sp.elements - 1)) mat

/-- The pass of `Assemble()` on a boundary face adds the sum of the amounts of the
boundary-face integrators that act on the face and keeps the size. -/
theorem assembleBdrFace_adds (sp : Space1D) (L : LocalMatrices) (form : BilinearForm)
    (mat : DenseMatrix) (face : Nat) :
    (∀ a b, (form.assembleBdrFace sp L mat face).data a b
        = mat.data a b + (form.bdrFaceIntegrators.map
            (fun p : FaceIntegrator × BoundaryMarker =>
              if p.2 = [] ∨ p.2.getD (Space1D.bdrAttribute face - 1) 0 ≠ 0 then
                scatter (sp.elementVDofs (sp.bdrElement face)) (L.bdrFace p.1 face) a b
              else 0)).sum)
    ∧ (form.assembleBdrFace sp L mat face).height = mat.height
    ∧ (form.assembleBdrFace sp L mat face).width = mat.width := by
  apply foldl_adds
      (fun (mat : DenseMatrix) (p : FaceIntegrator × BoundaryMarker) =>
        if p.2 = [] ∨ p.2.getD (Space1D.bdrAttribute face - 1) 0 ≠ 0 then
          mat.AddSubMatrix (sp.elementVDofs (sp.bdrElement face)) (L.bdrFace p.1 face)
        else mat)
      (fun (p : FaceIntegrator × BoundaryMarker) a b =>
        if p.2 = [] ∨ p.2.getD (Space1D.bdrAttribute face - 1) 0 ≠ 0 then
          scatter (sp.elementVDofs (sp.bdrElement face)) (L.bdrFace p.1 face) a b
        else 0)
  · intro mat p a b
    by_cases hp : p.2 = [] ∨ p.2.getD (Space1D.bdrAttribute face - 1) 0 ≠ 0
    · rw [if_pos hp, if_pos hp]
      rfl
    · rw [if_neg hp, if_neg hp, add_zero]
  · intro mat p
    by_cases hp : p.2 = [] ∨ p.2.getD (Space1D.bdrAttribute face - 1) 0 ≠ 0
    · rw [if_pos hp]
      exact ⟨rfl, rfl⟩
    · rw [if_neg hp]
      exact ⟨rfl, rfl⟩

/-- The loop of `Assemble()` over the boundary faces adds `bdrPart` to every entry and
keeps the size. -/
theorem assembleBdrFace_loop (sp : Space1D) (L : LocalMatrices) (form : BilinearForm)
    (mat : DenseMatrix) :
    (∀ a b, (sp.bdrFaces.foldl (form.assembleBdrFace sp L) mat).data a b
        = mat.data a b + sp.bdrPart L form.bdrFaceIntegrators a b)
    ∧ (sp.bdrFaces.foldl (form.assembleBdrFace sp L) mat).height = mat.height
    ∧ (sp.bdrFaces.foldl (form.assembleBdrFace sp L) mat).width = mat.width :=
  foldl_adds (form.assembleBdrFace sp L)
    (fun face a b => (form.bdrFaceIntegrators.map
      (fun p : FaceIntegrator × BoundaryMarker =>
        if p.2 = [] ∨ p.2.getD (Space1D.bdrAttribute face - 1) 0 ≠ 0 then
          scatter (sp.elementVDofs (sp.bdrElement face)) (L.bdrFace p.1 face) a b
        else 0)).sum)
    (fun mat face => (assembleBdrFace_adds sp L form mat face).1)
    (fun mat face => (assembleBdrFace_adds sp L form mat face).2)
    sp.bdrFaces mat

/-- Without integrator a loop of `Assemble()` adds nothing. -/
theorem parts_nil (sp : Space1D) (L : LocalMatrices) (a b : Nat) :
    sp.domainPart L [] a b = 0 ∧ sp.interiorPart L [] a b = 0 ∧ sp.bdrPart L [] a b = 0 := by
  refine ⟨?_, ?_, ?_⟩
  · simp [Space1D.domainPart, scatter]
  · simp [Space1D.interiorPart]
  · simp [Space1D.bdrPart]

/-- The matrix of an assembled form: its size is the number of degrees of freedom of the
space, and each entry is the sum of what the three loops of `Assemble()` add. -/
theorem SpMat1D_parts (sp : Space1D) (L : LocalMatrices) (form : BilinearForm)
    (hform : form.assembled = true) :
    ∃ mat, form.SpMat1D sp L = some mat
      ∧ mat.height = sp.ndofs ∧ mat.width = sp.ndofs
      ∧ ∀ a b, mat.data a b
          = sp.domainPart L form.domainIntegrators a b
            + sp.interiorPart L form.interiorFaceIntegrators a b
            + sp.bdrPart L form.bdrFaceIntegrators a b := by
  have hD : ∀ mat : DenseMatrix,
      (∀ a b, (if form.domainIntegrators = [] then mat
            else (List.range sp.elements).foldl (form.assembleElement sp L) mat).data a b
          = mat.data a b + sp.domainPart L form.domainIntegrators a b)
      ∧ (if form.domainIntegrators = [] then mat
          else (List.range sp.elements).foldl (form.assembleElement sp L) mat).height
          = mat.height
      ∧ (if form.domainIntegrators = [] then mat
          else (List.range sp.elements).foldl (form.assembleElement sp L) mat).width
          = mat.width := by
    intro mat
    by_cases h : form.domainIntegrators = []
    · simp only [if_pos h]
      rw [h]
      exact ⟨fun a b => by rw [(parts_nil sp L a b).1, add_zero], trivial, trivial⟩
    · simp only [if_neg h]
      exact assembleElement_loop sp L form mat
  have hI : ∀ mat : DenseMatrix,
      (∀ a b, (if form.interiorFaceIntegrators = [] then mat
            else (List.range (sp.elements - 1)).foldl
              (form.assembleInteriorFace sp L) mat).data a b
          = mat.data a b + sp.interiorPart L form.interiorFaceIntegrators a b)
      ∧ (if form.interiorFaceIntegrators = [] then mat
          else (List.range (sp.elements - 1)).foldl
            (form.assembleInteriorFace sp L) mat).height = mat.height
      ∧ (if form.interiorFaceIntegrators = [] then mat
          else (List.range (sp.elements - 1)).foldl
            (form.assembleInteriorFace sp L) mat).width = mat.width := by
    intro mat
    by_cases h : form.interiorFaceIntegrators = []
    · simp only [if_pos h]
      rw [h]
      exact ⟨fun a b => by rw [(parts_nil sp L a b).2.1, add_zero], trivial, trivial⟩
    · simp only [if_neg h]
      exact assembleInteriorFace_loop sp L form mat
  have hB : ∀ mat : DenseMatrix,
      (∀ a b, (if form.bdrFaceIntegrators = [] then mat
            else sp.bdrFaces.foldl (form.assembleBdrFace sp L) mat).data a b
          = mat.data a b + sp.bdrPart L form.bdrFaceIntegrators a b)
      ∧ (if form.bdrFaceIntegrators = [] then mat
          else sp.bdrFaces.foldl (form.assembleBdrFace sp L) mat).height = mat.height
      ∧ (if form.bdrFaceIntegrators = [] then mat
          else sp.bdrFaces.foldl (form.assembleBdrFace sp L) mat).width = mat.width := by
    intro mat
    by_cases h : form.bdrFaceIntegrators = []
    · simp only [if_pos h]
      rw [h]
      exact ⟨fun a b => by rw [(parts_nil sp L a b).2.2, add_zero], trivial, trivial⟩
    · simp only [if_neg h]
      exact assembleBdrFace_loop sp L form mat
  simp only [BilinearForm.SpMat1D, hform, if_true]
  refine ⟨_, rfl, ?_, ?_, ?_⟩
  · rw [(hB _).2.1, (hI _).2.1, (hD _).2.1]
    rfl
  · rw [(hB _).2.2, (hI _).2.2, (hD _).2.2]
    rfl
  · intro a b
    rw [(hB _).1, (hI _).1, (hD _).1]
    simp [DenseMatrix.square]

/-- On the space of the test with the sample local matrices, the corner entries of the
three matrices: both the derivative and the boundary faces contribute. -/
theorem checkKOperators_sample :
    ∃ k s f,
      (checkKOperators.kMat checkKOperators.space.fes).SpMat1D checkKOperators.space
          sampleLocalMatrices = some k
      ∧ (checkKOperators.sMat checkKOperators.space.fes).SpMat1D checkKOperators.space
          sampleLocalMatrices = some s
      ∧ (checkKOperators.fMat checkKOperators.space.fes).SpMat1D checkKOperators.space
          sampleLocalMatrices = some f
      ∧ s.data 0 0 = 1 ∧ f.data 0 0 = 1 / 2 ∧ k.data 0 0 = 3 / 2
      ∧ s.data 2 2 = 7 ∧ f.data 2 2 = -1 / 2 ∧ k.data 2 2 = 13 / 2
      ∧ s.data 0 1 = 3 ∧ f.data 0 1 = 0 ∧ k.data 0 1 = 3 := by
  refine ⟨_, _, _, rfl, rfl, rfl, ?_⟩
  simp [checkKOperators.kMat, checkKOperators.sMat, checkKOperators.fMat,
    checkKOperators.space, BilinearForm.new, BilinearForm.AddDomainIntegrator,
    BilinearForm.AddInteriorFaceIntegrator, BilinearForm.AddBdrFaceIntegratorAll,
    BilinearForm.Assemble, BilinearForm.Finalize, BilinearForm.assembleElement,
    BilinearForm.assembleInteriorFace, BilinearForm.assembleBdrFace,
    DenseMatrix.AddSubMatrix, DenseMatrix.square, scatter, Space1D.elementVDofs,
    Space1D.faceVDofs, Space1D.bdrFaces, Space1D.bdrElement, Space1D.bdrAttribute,
    sampleLocalMatrices, Finset.sum_range_succ, List.range_succ]
  norm_num

/-- C21: over every one-dimensional DG space, of any number of elements and any order,
and whatever local matrices the integrators compute, the matrix that `Assemble()` fills
for the form `kMat` of `checkKOperators` (transposed derivative with the interior and
boundary `DGTrace(-1, 0)` integrators) is, entry by entry, the sum of the matrices it
fills for `sMat` (derivative alone) and for `fMat` (face integrators alone), hence within
`1e-3`; the three matrices have the size of the space, which is 3 for the one-element
space of order 2 of the test. -/
theorem checkKOperators_K_eq_S_add_F (sp : Space1D) (L : LocalMatrices) :
    ∃ k s f, (checkKOperators.kMat sp.fes).SpMat1D sp L = some k
      ∧ (checkKOperators.sMat sp.fes).SpMat1D sp L = some s
      ∧ (checkKOperators.fMat sp.fes).SpMat1D sp L = some f
      ∧ k.height = sp.ndofs ∧ k.width = sp.ndofs
      ∧ s.height = sp.ndofs ∧ s.width = sp.ndofs
      ∧ f.height = sp.ndofs ∧ f.width = sp.ndofs
      ∧ checkKOperators.space.ndofs = 3
      ∧ ∀ i j, k.data i j = s.data i j + f.data i j
          ∧ |k.data i j - (s.data i j + f.data i j)| ≤ 1 / 1000 := by
  obtain ⟨k, hk, hkh, hkw, hkd⟩ := SpMat1D_parts sp L (checkKOperators.kMat sp.fes) rfl
  obtain ⟨s, hs, hsh, hsw, hsd⟩ := SpMat1D_parts sp L (checkKOperators.sMat sp.fes) rfl
  obtain ⟨f, hf, hfh, hfw, hfd⟩ := SpMat1D_parts sp L (checkKOperators.fMat sp.fes) rfl
  refine ⟨k, s, f, hk, hs, hf, hkh, hkw, hsh, hsw, hfh, hfw, rfl, ?_⟩
  intro i j
  have heq : k.data i j = s.data i j + f.data i j := by
    rw [hkd, hsd, hfd]
    simp only [checkKOperators.kMat, checkKOperators.sMat, checkKOperators.fMat,
      BilinearForm.new, BilinearForm.AddDomainIntegrator,
      BilinearForm.AddInteriorFaceIntegrator, BilinearForm.AddBdrFaceIntegratorAll,
      BilinearForm.Assemble, BilinearForm.Finalize, List.nil_append,
      (parts_nil sp L i j).1, (parts_nil sp L i j).2.1, (parts_nil sp L i j).2.2]
    ring
  refine ⟨heq, ?_⟩
  rw [heq]
  simp

/-- The blocks of two distinct faces share no index when the order is at least one. -/
theorem lastNode_lt_of_lt (order k m : Nat) (ho : 1 ≤ order) (hk : k < m) :
    lastNode order k + 1 < lastNode order m := by
  have h1 : lastNode order k + 1 = (order + 1) * (k + 1) := by
    simp only [lastNode]; ring
  have h2 : (order + 1) * (k + 1) ≤ (order + 1) * m := Nat.mul_le_mul_left _ hk
  simp only [lastNode] at h1 ⊢
  omega

/-- The sum over the first `m` faces of the products of the jumps of two basis functions
is the jump pattern of these faces, for an order of at least one. -/
theorem sum_traceJump (order : Nat) (ho : 1 ≤ order) (a b : Nat) :
    ∀ m, Finset.sum (Finset.range m) (fun k => traceJump order k a * traceJump order k b)
      = jumpPattern order m a b := by
  intro m
  induction m with
  | zero => simp [jumpPattern]
  | succ m ih =>
    rw [Finset.sum_range_succ, ih]
    simp only [jumpPattern]
    by_cases hin : inFaceBlock order m a b
    · rw [if_pos hin]
      have hzero : jumpPattern order m a b = 0 := by
        apply jumpPattern_outside
        intro k hk hblock
        have hlt := lastNode_lt_of_lt order k m ho hk
        rcases hin.1 with h | h <;> rcases hblock.1 with h2 | h2 <;> omega
      rw [hzero, zero_add]
      rcases hin with ⟨ha | ha, hb | hb⟩ <;> subst ha <;> subst hb <;>
        simp [traceJump]
    · rw [if_neg hin]
      have hprod : traceJump order m a * traceJump order m b = 0 := by
        by_cases ha : a = lastNode order m ∨ a = lastNode order m + 1
        · have hb : ¬ (b = lastNode order m ∨ b = lastNode order m + 1) :=
            fun hb => hin ⟨ha, hb⟩
          have hb1 : b ≠ lastNode order m := fun h => hb (Or.inl h)
          have hb2 : b ≠ lastNode order m + 1 := fun h => hb (Or.inr h)
          simp [traceJump, hb1, hb2]
        · have ha1 : a ≠ lastNode order m := fun h => ha (Or.inl h)
          have ha2 : a ≠ lastNode order m + 1 := fun h => ha (Or.inr h)
          simp [traceJump, ha1, ha2]
      rw [hprod, add_zero]

/-- The matrix assembled from the form of the test helper: square of size
`(order + 1) * elements`, its entries the weight of the integrator times the jump
pattern of the interior faces. -/
theorem assembleJumpForm1D_build (elements order : Nat) (ho : 1 ≤ order)
    (dir : List Direction) (beta w : ℚ)
    (hw : MaxwellDGTraceJumpIntegrator.weight dir beta interiorFaceNormal1D = some w) :
    assembleJumpForm1D elements order
        (buildMaxwellBilinearFormWith1DCartesianMesh elements order dir beta)
      = some { height := (order + 1) * elements, width := (order + 1) * elements,
               data := fun a b => w * jumpPattern order (elements - 1) a b } := by
  simp only [assembleJumpForm1D, buildMaxwellBilinearFormWith1DCartesianMesh,
    BilinearForm.new, BilinearForm.AddInteriorFaceIntegrator, BilinearForm.Assemble,
    BilinearForm.Finalize, and_self, if_true, List.nil_append, List.mapM_cons, hw,
    List.mapM_nil, Option.pure_def, Option.bind_eq_bind, Option.some_bind, List.map_cons,
    List.map_nil, List.sum_cons, List.sum_nil, add_zero, Option.some.injEq,
    Option.map_eq_map, Option.map_some']
  congr 1
  funext a b
  simp only [MaxwellDGTraceJumpIntegrator.faceEntry, ← Finset.mul_sum,
    sum_traceJump order ho a b]

/-- C22: for every number of elements of a one-dimensional Cartesian mesh and every
order of at least one, in particular for 2 to 4 elements and the orders 1 to 4, the form
with one interior-face `MaxwellDGTraceJumpIntegrator` of direction `X` and `beta = 1`
assembles to a square matrix of size `(order + 1) * elements` equal, entry by entry, to
the matrix of `buildExpectedJumpDenseMatrix1D`, and with the direction `Y` or `Z` it
assembles to the zero matrix. -/
theorem jump_form_one_direction (elements order : Nat) (ho : 1 ≤ order) :
    ∃ mX mY mZ expected,
      assembleJumpForm1D elements order
          (buildMaxwellBilinearFormWith1DCartesianMesh elements order [X] 1) = some mX
      ∧ assembleJumpForm1D elements order
          (buildMaxwellBilinearFormWith1DCartesianMesh elements order [Y] 1) = some mY
      ∧ assembleJumpForm1D elements order
          (buildMaxwellBilinearFormWith1DCartesianMesh elements order [Z] 1) = some mZ
      ∧ buildExpectedJumpDenseMatrix1D elements order = some expected
      ∧ mX.height = (order + 1) * elements ∧ mX.width = (order + 1) * elements
      ∧ (∀ i j, mX.data i j = expected.data i j)
      ∧ (∀ i j, mY.data i j = 0 ∧ mZ.data i j = 0) := by
  have hX : MaxwellDGTraceJumpIntegrator.weight [X] 1 interiorFaceNormal1D = some 1 := by
    simp [MaxwellDGTraceJumpIntegrator.weight, interiorFaceNormal1D]
  have hY : MaxwellDGTraceJumpIntegrator.weight [Y] 1 interiorFaceNormal1D = some 0 := by
    simp [MaxwellDGTraceJumpIntegrator.weight, interiorFaceNormal1D]
  have hZ : MaxwellDGTraceJumpIntegrator.weight [Z] 1 interiorFaceNormal1D = some 0 := by
    simp [MaxwellDGTraceJumpIntegrator.weight, interiorFaceNormal1D]
  refine ⟨_, _, _, _, assembleJumpForm1D_build elements order ho [X] 1 1 hX,
    assembleJumpForm1D_build elements order ho [Y] 1 0 hY,
    assembleJumpForm1D_build elements order ho [Z] 1 0 hZ,
    buildExpectedJumpDenseMatrix1D_eq elements order ho, rfl, rfl, ?_, ?_⟩
  · intro i j
    simp
  · intro i j
    simp

/-- Witness of C22: for two elements of order one the form of direction `X` assembles to
a matrix of size 4 with the entry `(1, 2) = -1`, the expected matrix is returned with
the same entry, and the form of direction `Y` has `0` there. -/
theorem jump_form_one_direction_witness :
    ∃ mX mY expected,
      assembleJumpForm1D 2 1 (buildMaxwellBilinearFormWith1DCartesianMesh 2 1 [X] 1) = some mX
      ∧ assembleJumpForm1D 2 1 (buildMaxwellBilinearFormWith1DCartesianMesh 2 1 [Y] 1)
          = some mY
      ∧ buildExpectedJumpDenseMatrix1D 2 1 = some expected
      ∧ mX.height = 4 ∧ mX.data 1 2 = expected.data 1 2 ∧ mY.data 1 2 = 0 := by
  obtain ⟨mX, mY, _, expected, hX, hY, _, he, hh, _, hdata, hzero⟩ :=
    jump_form_one_direction 2 1 (le_refl 1)
  exact ⟨mX, mY, expected, hX, hY, he, hh, hdata 1 2, (hzero 1 2).1⟩

/-- C23: for every number of elements of a one-dimensional Cartesian mesh and every
order of at least one, in particular for 2 to 4 elements and the orders 1 to 4, the form
with one interior-face `MaxwellDGTraceJumpIntegrator` of directions `(X, X)` and
`beta = 1` assembles to a square matrix of size `(order + 1) * elements` equal, entry by
entry, to the matrix of `buildExpectedJumpDenseMatrix1D`, and with the directions
`(X, Y)` or `(X, Z)` it assembles to the zero matrix. -/
theorem jump_form_two_directions (elements order : Nat) (ho : 1 ≤ order) :
    ∃ mXX mXY mXZ expected,
      assembleJumpForm1D elements order
          (buildMaxwellBilinearFormWith1DCartesianMesh elements order [X, X] 1) = some mXX
      ∧ assembleJumpForm1D elements order
          (buildMaxwellBilinearFormWith1DCartesianMesh elements order [X, Y] 1) = some mXY
      ∧ assembleJumpForm1D elements order
          (buildMaxwellBilinearFormWith1DCartesianMesh elements order [X, Z] 1) = some mXZ
      ∧ buildExpectedJumpDenseMatrix1D elements order = some expected
      ∧ mXX.height = (order + 1) * elements ∧ mXX.width = (order + 1) * elements
      ∧ (∀ i j, mXX.data i j = expected.data i j)
      ∧ (∀ i j, mXY.data i j = 0 ∧ mXZ.data i j = 0) := by
  have hXX : MaxwellDGTraceJumpIntegrator.weight [X, X] 1 interiorFaceNormal1D = some 1 := by
    simp [MaxwellDGTraceJumpIntegrator.weight, interiorFaceNormal1D]
  have hXY : MaxwellDGTraceJumpIntegrator.weight [X, Y] 1 interiorFaceNormal1D = some 0 := by
    simp [MaxwellDGTraceJumpIntegrator.weight, interiorFaceNormal1D]
  have hXZ : MaxwellDGTraceJumpIntegrator.weight [X, Z] 1 interiorFaceNormal1D = some 0 := by
    simp [MaxwellDGTraceJumpIntegrator.weight, interiorFaceNormal1D]
  refine ⟨_, _, _, _, assembleJumpForm1D_build elements order ho [X, X] 1 1 hXX,
    assembleJumpForm1D_build elements order ho [X, Y] 1 0 hXY,
    assembleJumpForm1D_build elements order ho [X, Z] 1 0 hXZ,
    buildExpectedJumpDenseMatrix1D_eq elements order ho, rfl, rfl, ?_, ?_⟩
  · intro i j
    simp
  · intro i j
    simp

/-- Witness of C23: for three elements of order two the form of directions `(X, X)`
assembles to a matrix of size 9 with the same entry `(2, 3)` as the expected matrix, and
the form of directions `(X, Z)` has `0` there. -/
theorem jump_form_two_directions_witness :
    ∃ mXX mXZ expected,
      assembleJumpForm1D 3 2 (buildMaxwellBilinearFormWith1DCartesianMesh 3 2 [X, X] 1)
          = some mXX
      ∧ assembleJumpForm1D 3 2 (buildMaxwellBilinearFormWith1DCartesianMesh 3 2 [X, Z] 1)
          = some mXZ
      ∧ buildExpectedJumpDenseMatrix1D 3 2 = some expected
      ∧ mXX.height = 9 ∧ mXX.data 2 3 = expected.data 2 3 ∧ mXZ.data 2 3 = 0 := by
  obtain ⟨mXX, _, mXZ, expected, hXX, _, hXZ, he, hh, _, hdata, hzero⟩ :=
    jump_form_two_directions 3 2 (by decide)
  exact ⟨mXX, mXZ, expected, hXX, hXZ, he, hh, hdata 2 3, (hzero 2 3).2⟩

end maxwell
